import Mathlib

/-!
# Bytecode-to-IR translator of `src/comp.c`

A shallow embedding of the translator of `comp.c`: the basic-block
computation `compute_bblocks`, the translation loop of `compile_f` with its
helper macros, and the IR-building helpers (`comp_FIXNUMP`, `comp_cast`, ...)
together with an evaluator for the emitted IR.

Conventions of the embedding:
* a byte string is a `List (Fin 256)`; `FETCH` past its end is reported as
  `Err.fetch_oob`;
* `error (...)` of the C code is `Err.error msg`; a failed `eassert` is
  `Err.eassert` (the embedding follows a build with assertions enabled);
* backend blocks are numbered in the order `gcc_jit_function_new_block`
  creates them; the emitted IR is the list of `Event`s in emission order;
* `unsigned` values are naturals below `2 ^ 32`.
-/

namespace Comp

/-! ## Opcode numbering (`bytecode.h`) -/

/-- Modelled from the spec: the opcode numbering of `bytecode.h`, which is not
part of the sources at hand.  The spec fixes `constant=192`, `return=135`,
`add1=84`, `sub1=83`, `dup=137`, `discard=136`, `goto=130`, `gotoifnil=131`
"per the source VM"; the remaining values are those of the same VM table. -/
def Bstack_ref : Nat := 0
def Bstack_ref1 : Nat := 1
def Bstack_ref2 : Nat := 2
def Bstack_ref3 : Nat := 3
def Bstack_ref4 : Nat := 4
def Bstack_ref5 : Nat := 5
def Bstack_ref6 : Nat := 6
def Bstack_ref7 : Nat := 7
def Bvarref : Nat := 8
def Bvarref1 : Nat := 9
def Bvarref2 : Nat := 10
def Bvarref3 : Nat := 11
def Bvarref4 : Nat := 12
def Bvarref5 : Nat := 13
def Bvarref6 : Nat := 14
def Bvarref7 : Nat := 15
def Bvarset : Nat := 16
def Bvarset1 : Nat := 17
def Bvarset2 : Nat := 18
def Bvarset3 : Nat := 19
def Bvarset4 : Nat := 20
def Bvarset5 : Nat := 21
def Bvarset6 : Nat := 22
def Bvarset7 : Nat := 23
def Bvarbind : Nat := 24
def Bvarbind1 : Nat := 25
def Bvarbind2 : Nat := 26
def Bvarbind3 : Nat := 27
def Bvarbind4 : Nat := 28
def Bvarbind5 : Nat := 29
def Bvarbind6 : Nat := 30
def Bvarbind7 : Nat := 31
def Bcall : Nat := 32
def Bcall1 : Nat := 33
def Bcall2 : Nat := 34
def Bcall3 : Nat := 35
def Bcall4 : Nat := 36
def Bcall5 : Nat := 37
def Bcall6 : Nat := 38
def Bcall7 : Nat := 39
def Bunbind : Nat := 40
def Bunbind1 : Nat := 41
def Bunbind2 : Nat := 42
def Bunbind3 : Nat := 43
def Bunbind4 : Nat := 44
def Bunbind5 : Nat := 45
def Bunbind6 : Nat := 46
def Bunbind7 : Nat := 47
def Bpophandler : Nat := 48
def Bpushconditioncase : Nat := 49
def Bpushcatch : Nat := 50
def Bnth : Nat := 56
def Bsymbolp : Nat := 57
def Bconsp : Nat := 58
def Bstringp : Nat := 59
def Blistp : Nat := 60
def Beq : Nat := 61
def Bmemq : Nat := 62
def Bnot : Nat := 63
def Bcar : Nat := 64
def Bcdr : Nat := 65
def Bcons : Nat := 66
def Blist1 : Nat := 67
def Blist2 : Nat := 68
def Blist3 : Nat := 69
def Blist4 : Nat := 70
def Blength : Nat := 71
def Baref : Nat := 72
def Baset : Nat := 73
def Bsymbol_value : Nat := 74
def Bsymbol_function : Nat := 75
def Bset : Nat := 76
def Bfset : Nat := 77
def Bget : Nat := 78
def Bsubstring : Nat := 79
def Bconcat2 : Nat := 80
def Bconcat3 : Nat := 81
def Bconcat4 : Nat := 82
def Bsub1 : Nat := 83
def Badd1 : Nat := 84
def Beqlsign : Nat := 85
def Bgtr : Nat := 86
def Blss : Nat := 87
def Bleq : Nat := 88
def Bgeq : Nat := 89
def Bdiff : Nat := 90
def Bnegate : Nat := 91
def Bplus : Nat := 92
def Bmax : Nat := 93
def Bmin : Nat := 94
def Bmult : Nat := 95
def Bpoint : Nat := 96
def Bsave_current_buffer : Nat := 97
def Bgoto_char : Nat := 98
def Binsert : Nat := 99
def Bpoint_max : Nat := 100
def Bpoint_min : Nat := 101
def Bchar_after : Nat := 102
def Bfollowing_char : Nat := 103
def Bpreceding_char : Nat := 104
def Bcurrent_column : Nat := 105
def Bindent_to : Nat := 106
def Beolp : Nat := 108
def Beobp : Nat := 109
def Bbolp : Nat := 110
def Bbobp : Nat := 111
def Bcurrent_buffer : Nat := 112
def Bset_buffer : Nat := 113
def Bsave_current_buffer_1 : Nat := 114
def Binteractive_p : Nat := 116
def Bforward_char : Nat := 117
def Bforward_word : Nat := 118
def Bskip_chars_forward : Nat := 119
def Bskip_chars_backward : Nat := 120
def Bforward_line : Nat := 121
def Bchar_syntax : Nat := 122
def Bbuffer_substring : Nat := 123
def Bdelete_region : Nat := 124
def Bnarrow_to_region : Nat := 125
def Bwiden : Nat := 126
def Bend_of_line : Nat := 127
def Bconstant2 : Nat := 129
def Bgoto : Nat := 130
def Bgotoifnil : Nat := 131
def Bgotoifnonnil : Nat := 132
def Bgotoifnilelsepop : Nat := 133
def Bgotoifnonnilelsepop : Nat := 134
def Breturn : Nat := 135
def Bdiscard : Nat := 136
def Bdup : Nat := 137
def Bsave_excursion : Nat := 138
def Bsave_window_excursion : Nat := 139
def Bsave_restriction : Nat := 140
def Bcatch : Nat := 141
def Bunwind_protect : Nat := 142
def Bcondition_case : Nat := 143
def Btemp_output_buffer_setup : Nat := 144
def Btemp_output_buffer_show : Nat := 145
def Bunbind_all : Nat := 146
def Bset_marker : Nat := 147
def Bmatch_beginning : Nat := 148
def Bmatch_end : Nat := 149
def Bupcase : Nat := 150
def Bdowncase : Nat := 151
def Bstringeqlsign : Nat := 152
def Bstringlss : Nat := 153
def Bequal : Nat := 154
def Bnthcdr : Nat := 155
def Belt : Nat := 156
def Bmember : Nat := 157
def Bassq : Nat := 158
def Bnreverse : Nat := 159
def Bsetcar : Nat := 160
def Bsetcdr : Nat := 161
def Bcar_safe : Nat := 162
def Bcdr_safe : Nat := 163
def Bnconc : Nat := 164
def Bquo : Nat := 165
def Brem : Nat := 166
def Bnumberp : Nat := 167
def Bintegerp : Nat := 168
def BRgoto : Nat := 170
def BRgotoifnil : Nat := 171
def BRgotoifnonnil : Nat := 172
def BRgotoifnilelsepop : Nat := 173
def BRgotoifnonnilelsepop : Nat := 174
def BlistN : Nat := 175
def BconcatN : Nat := 176
def BinsertN : Nat := 177
def Bstack_set : Nat := 178
def Bstack_set2 : Nat := 179
def BdiscardN : Nat := 182
def Bswitch : Nat := 183
def Bconstant : Nat := 192

/-! ## Errors and byte strings -/

/-- Ways in which the C code stops without a result. -/
inductive Err where
  /-- The Lisp error signalled by `error (msg)`. -/
  | error (msg : String)
  /-- A failed `eassert`. -/
  | eassert
  /-- A read by `FETCH` past the end of the byte string. -/
  | fetch_oob
  /-- The iteration bound of the embedding was used up. -/
  | fuel
  deriving DecidableEq, Repr

abbrev Bytes := List (Fin 256)

/-- `2 ^ 32`, the modulus of C `unsigned`. -/
def U32 : Nat := 4294967296

/-- `FETCH`: the byte at `pc` (the caller advances `pc`). -/
def FETCH (bs : Bytes) (pc : Nat) : Except Err Nat :=
  match bs.get? pc with
  | some b => .ok b.val
  | none => .error .fetch_oob

/-- `FETCH2`: `op = FETCH, op + (FETCH << 8)`. -/
def FETCH2 (bs : Bytes) (pc : Nat) : Except Err Nat :=
  match FETCH bs pc, FETCH bs (pc + 1) with
  | .ok lo, .ok hi => .ok (lo + hi * 256)
  | _, _ => .error .fetch_oob

/-- The value of `FETCH - 128` once stored in the `unsigned` variable `op`. -/
def rel_operand (b : Nat) : Nat := (b + (U32 - 128)) % U32

/-! ## `compute_bblocks` -/

/-- `basic_block_t`: a backend block handle and the `terminated` flag.  The
handle is `none` for an entry copied from the uninitialised `curr_bb`. -/
structure basic_block_t where
  gcc_bb : Option Nat
  terminated : Bool
  deriving DecidableEq, Repr

/-- Opcodes of the "3 byte non branch ops" group of `compute_bblocks`. -/
def ops_3byte : List Nat :=
  [Bvarref7, Bvarset7, Bvarbind7, Bcall7, Bunbind7, Bpushcatch,
   Bpushconditioncase, Bstack_ref7, Bstack_set2]

/-- Opcodes of the "2 byte non branch ops" group of `compute_bblocks`. -/
def ops_2byte : List Nat :=
  [Bvarref6, Bvarset6, Bvarbind6, Bcall6, Bunbind6, Bconstant2, BlistN,
   BconcatN, BinsertN, Bstack_ref6, Bstack_set, BdiscardN]

/-- Opcodes of the "Absolute branches" group. -/
def ops_abs_branch : List Nat :=
  [Bgoto, Bgotoifnil, Bgotoifnonnil, Bgotoifnilelsepop, Bgotoifnonnilelsepop]

/-- Opcodes of the "PC relative branches" group. -/
def ops_rel_branch : List Nat :=
  [BRgoto, BRgotoifnil, BRgotoifnonnil, BRgotoifnilelsepop,
   BRgotoifnonnilelsepop]

/-- Opcodes after which `compute_bblocks` only sets `new_bb`. -/
def ops_new_bb : List Nat := [Bsub1, Badd1, Bnegate, Breturn]

/-- The `switch (op)` of the scanning loop of `compute_bblocks` for the
opcode at `pc`: the value of `pc` after it, the new value of `new_bb`, and
the entries it appends to `bb_start_pc`. -/
def scan_op (bs : Bytes) (pc : Nat) : Except Err (Nat × Bool × List Nat) :=
  match FETCH bs pc with
  | .error e => .error e
  | .ok op =>
    let pc := pc + 1
    if op ∈ ops_3byte then .ok (pc + 2, false, [])
    else if op ∈ ops_2byte then .ok (pc + 1, false, [])
    else if op ∈ ops_abs_branch then
      match FETCH2 bs pc with
      | .error e => .error e
      | .ok t => .ok (pc + 2, true, [t])
    else if op ∈ ops_rel_branch then
      match FETCH bs pc with
      | .error e => .error e
      | .ok b => .ok (pc + 1, true, [rel_operand b])
    else if op ∈ ops_new_bb then .ok (pc, true, [])
    else .ok (pc, false, [])

/-- The scanning loop of `compute_bblocks` (`while (pc < bytestr_length)`):
`acc` is `bb_start_pc[0 .. bb_n)` in the order the entries are written.  The
first argument bounds the number of iterations. -/
def scan_leaders (bs : Bytes) : Nat → Nat → Bool → List Nat → Except Err (List Nat)
  | 0, pc, _, acc => if pc < bs.length then .error .fuel else .ok acc
  | fuel + 1, pc, new_bb, acc =>
    if pc < bs.length then
      let acc := if new_bb then acc ++ [pc] else acc
      match scan_op bs pc with
      | .error e => .error e
      | .ok (pc, new_bb, ts) => scan_leaders bs fuel pc new_bb (acc ++ ts)
    else .ok acc

/-- The values `pc` takes at the head of the scanning loop of
`compute_bblocks`, from `pc` on (the instruction boundaries of the scan). -/
def scan_pcs (bs : Bytes) : Nat → Nat → List Nat
  | 0, _ => []
  | fuel + 1, pc =>
    if pc < bs.length then
      match scan_op bs pc with
      | .error _ => [pc]
      | .ok (pc', _, _) => pc :: scan_pcs bs fuel pc'
    else []

/-- The `int` read by `ucmp` from an `unsigned` array entry. -/
def as_int (u : Nat) : Int := if u < 2147483648 then (u : Int) else (u : Int) - 4294967296

/-- `ucmp`: `_I(a) < _I(b) ? -1 : _I(a) > _I(b)`. -/
def ucmp (a b : Nat) : Int :=
  if as_int a < as_int b then -1 else if as_int a > as_int b then 1 else 0

/-- `qsort (bb_start_pc, bb_n, sizeof(unsigned), ucmp)`: the entries in
ascending order of `ucmp`. -/
def qsort_ucmp (l : List Nat) : List Nat :=
  l.insertionSort (fun a b => ucmp a b ≤ 0)

/-- The compaction loop `for (i = j = 0; i < bb_n; i++) if (a[i] != a[j])
a[++j] = a[i];` followed by `bb_n = j + 1`.  The first argument counts the
iterations left; the result is the array and the new `bb_n`. -/
def dedup_loop : Nat → Nat → Nat → List Nat → List Nat × Nat
  | 0, _, j, a => (a, j + 1)
  | k + 1, i, j, a =>
    if a.getD i 0 ≠ a.getD j 0 then
      dedup_loop k (i + 1) (j + 1) (a.set (j + 1) (a.getD i 0))
    else dedup_loop k (i + 1) j a

/-- "Sort and remove possible duplicates": the array and `bb_n` after the
`qsort` and the compaction loop. -/
def sort_dedup (l : List Nat) : List Nat × Nat :=
  dedup_loop l.length 0 0 (qsort_ucmp l)

/-- The first `bb_n` entries of `bb_start_pc` after `sort_dedup`. -/
def sorted_leaders (l : List Nat) : List Nat :=
  (sort_dedup l).1.take (sort_dedup l).2

/-- The block-allocation loop `for (int i = 0, pc = 0; pc < bytestr_length;
pc++)`.  Arguments: iterations left, `pc`, `i`, `curr_bb`, number of the next
block `gcc_jit_function_new_block` returns.  Result: `bb_map[pc ..]` and the
number of the next block. -/
def fill_bb_map (starts : List Nat) (bb_n : Nat) :
    Nat → Nat → Nat → basic_block_t → Nat → List basic_block_t × Nat
  | 0, _, _, _, nb => ([], nb)
  | k + 1, pc, i, curr_bb, nb =>
    if i < bb_n ∧ pc = starts.getD i 0 then
      let r := fill_bb_map starts bb_n k (pc + 1) (i + 1) ⟨some nb, false⟩ (nb + 1)
      (⟨some nb, false⟩ :: r.1, r.2)
    else
      let r := fill_bb_map starts bb_n k (pc + 1) i curr_bb nb
      (curr_bb :: r.1, r.2)

/-- The leaders recorded by the scan of `compute_bblocks`. -/
def recorded_leaders (bs : Bytes) : Except Err (List Nat) :=
  scan_leaders bs bs.length 0 true []

/-- `compute_bblocks`: `bb_map` and the number of the next fresh block, given
the number `nb` of the first block to allocate. -/
def compute_bblocks (bs : Bytes) (nb : Nat) : Except Err (List basic_block_t × Nat) :=
  match recorded_leaders bs with
  | .error e => .error e
  | .ok l =>
    let sd := sort_dedup l
    .ok (fill_bb_map sd.1 sd.2 bs.length 0 0 ⟨none, false⟩ nb)

/-! ## The emitted IR -/

/-- Backend types held in `comp_t` (plus the pointer type built in
`comp_emit_callN`). -/
inductive Ty where
  | void_type | bool_type | int_type | unsigned_type | long_type
  | long_long_type | void_ptr_type | ptrdiff_type | lisp_obj_type
  | lisp_obj_ptr_type | cast_union_type
  deriving DecidableEq, Repr

/-- Union fields created in `init_comp`. -/
inductive Field where
  | lisp_obj_as_ptr | lisp_obj_as_num
  | cast_union_as_ll | cast_union_as_u | cast_union_as_i | cast_union_as_b
  deriving DecidableEq, Repr

inductive BinOp where
  | RSHIFT | LSHIFT | PLUS | MINUS | BITWISE_AND | LOGICAL_AND
  deriving DecidableEq, Repr

inductive UnOp where
  | LOGICAL_NEGATE | MINUS
  deriving DecidableEq, Repr

inductive Comparison where
  | EQ | NE
  deriving DecidableEq, Repr

/-- Host pointers embedded by `gcc_jit_context_new_rvalue_from_ptr`. -/
inductive Ptr where
  /-- `Qnil`. -/
  | Qnil
  /-- `vectorp[i]`, the `i`-th entry of the constant vector. -/
  | vectorp (i : Nat)
  /-- `intern (name)`. -/
  | intern (name : String)
  /-- The address of a C function. -/
  | cfun (name : String)
  deriving DecidableEq, Repr

/-- Backend values.  Lvalues are the constructors `local_`, `fresh`, `field`
and `index`. -/
inductive RVal where
  /-- `stack_base[i]`, the local named `local_i`. -/
  | local_ (i : Int)
  /-- A local made by `gcc_jit_function_new_local` during translation. -/
  | fresh (id : Nat) (ty : Ty) (name : String)
  /-- `gcc_jit_function_get_param (comp.func, i)`. -/
  | param (i : Nat)
  /-- `gcc_jit_context_new_rvalue_from_int` / `_from_long`. -/
  | from_int (ty : Ty) (n : Int)
  /-- `gcc_jit_context_new_rvalue_from_ptr`. -/
  | from_ptr (p : Ptr)
  /-- Field access on a union value. -/
  | field (r : RVal) (f : Field)
  /-- `gcc_jit_context_new_array_access`. -/
  | index (p : RVal) (i : RVal)
  | binary_op (op : BinOp) (ty : Ty) (a b : RVal)
  | unary_op (op : UnOp) (ty : Ty) (a : RVal)
  | comparison (op : Comparison) (a b : RVal)
  /-- `comp.scratch`, the address of `scratch_call_area`. -/
  | scratch
  /-- An entry of `args` that was never written. -/
  | uninit
  deriving DecidableEq, Repr

/-- Statements appended to a block. -/
inductive Stmt where
  /-- `gcc_jit_block_add_assignment`. -/
  | assign (lhs rhs : RVal)
  /-- The assignment `res = f (args)` built by `comp_emit_call`. -/
  | call (res : RVal) (f : String) (nargs : Nat) (args : List RVal)
  deriving DecidableEq, Repr

/-- Block terminators; a target is `none` when the handle read from `bb_map`
is not a block (index outside the map, or an uninitialised entry). -/
inductive Term where
  | jump (target : Option Nat)
  | conditional (test : RVal) (on_true on_false : Option Nat)
  | ret (v : RVal)
  deriving DecidableEq, Repr

/-- One call of the backend on a block, in emission order. -/
inductive Event where
  | stmt (block : Option Nat) (s : Stmt)
  | term (block : Option Nat) (t : Term)
  deriving DecidableEq, Repr

/-- An entry of `comp.func_hash`, as declared by `comp_func_declare`. -/
structure Decl where
  name : String
  ret_type : Ty
  nargs : Nat
  imported : Bool
  deriving DecidableEq, Repr

/-! ## Constants of the runtime (`lisp.h`, buffer globals) -/

/-- Modelled from the spec: the constants `comp.c` takes from `lisp.h` and
the buffer globals, which are not part of the sources at hand; the spec asks
that they "flow in from the runtime", so they are parameters. -/
structure Lisp where
  USE_LSB_TAG : Bool
  GCTYPEBITS : Nat
  INTTYPEBITS : Nat
  VALBITS : Nat
  FIXNUM_BITS : Nat
  Lisp_Int0 : Nat
  Lisp_Cons : Nat
  MOST_POSITIVE_FIXNUM : Int
  MOST_NEGATIVE_FIXNUM : Int
  SUBR_MAX_ARGS : Int
  SET_INTERNAL_SET : Int
  ARITH_EQUAL : Int
  ARITH_GRTR : Int
  ARITH_LESS : Int
  ARITH_LESS_OR_EQUAL : Int
  ARITH_GRTR_OR_EQUAL : Int
  PT : Int
  ZV : Int
  BEGV : Int
  deriving Repr

/-- The constants of a 64-bit build with tags in the low bits. -/
def lisp64 : Lisp where
  USE_LSB_TAG := true
  GCTYPEBITS := 3
  INTTYPEBITS := 2
  VALBITS := 61
  FIXNUM_BITS := 62
  Lisp_Int0 := 2
  Lisp_Cons := 3
  MOST_POSITIVE_FIXNUM := 2305843009213693951
  MOST_NEGATIVE_FIXNUM := -2305843009213693952
  SUBR_MAX_ARGS := 8
  SET_INTERNAL_SET := 0
  ARITH_EQUAL := 0
  ARITH_GRTR := 3
  ARITH_LESS := 2
  ARITH_LESS_OR_EQUAL := 4
  ARITH_GRTR_OR_EQUAL := 5
  PT := 1
  ZV := 1
  BEGV := 1

/-! ## Translator state -/

/-- The inputs of `compile_f` that the translation loop reads. -/
structure Input where
  L : Lisp
  bytestr : Bytes
  stack_depth : Int
  vector_size : Nat

/-- The mutable state of `compile_f`: its locals `pc`, `stack` (as the offset
`stack - stack_base`), `args`, `bb_map`, the fields `bblock` (an index into
`bb_map`, `none` for `NULL`) and `func_hash` of `comp`, the counters of the
backend for blocks and locals, and the IR emitted so far. -/
structure St where
  pc : Nat
  sp : Int
  args : List RVal
  bb_map : List basic_block_t
  bblock : Option Nat
  func_hash : List Decl
  nblocks : Nat
  nlocals : Nat
  nil : RVal
  ir : List Event
  deriving DecidableEq, Repr

/-! ## Helper macros and functions of the translator -/

/-- `gcc_jit_rvalue_get_type`. -/
def RVal.type : RVal → Ty
  | .local_ _ => .lisp_obj_type
  | .fresh _ ty _ => ty
  | .param _ => .lisp_obj_type
  | .from_int ty _ => ty
  | .from_ptr _ => .void_ptr_type
  | .field _ .lisp_obj_as_ptr => .void_ptr_type
  | .field _ .lisp_obj_as_num => .long_long_type
  | .field _ .cast_union_as_ll => .long_long_type
  | .field _ .cast_union_as_u => .unsigned_type
  | .field _ .cast_union_as_i => .int_type
  | .field _ .cast_union_as_b => .bool_type
  | .index _ _ => .lisp_obj_type
  | .binary_op _ ty _ _ => ty
  | .unary_op _ ty _ => ty
  | .comparison _ _ _ => .bool_type
  | .scratch => .lisp_obj_ptr_type
  | .uninit => .void_type

/-- Read `args[i]`. -/
def args_get (a : List RVal) (i : Nat) : RVal := a.getD i .uninit

/-- Write `args[i] = v`.  The C array has four entries; a write at an index
of four or more is kept as an extension of the list. -/
def args_set (a : List RVal) (i : Nat) (v : RVal) : List RVal :=
  if i < a.length then a.set i v
  else a ++ List.replicate (i - a.length) .uninit ++ [v]

/-- `bb_map[i].gcc_bb`. -/
def St.map_gcc_bb (s : St) (i : Nat) : Option Nat :=
  match s.bb_map.get? i with
  | some b => b.gcc_bb
  | none => none

/-- `comp.bblock->gcc_bb`. -/
def St.gcc_bb (s : St) : Option Nat :=
  match s.bblock with
  | some i => s.map_gcc_bb i
  | none => none

/-- Append one backend call to the emitted IR. -/
def St.emit (s : St) (e : Event) : St := { s with ir := s.ir ++ [e] }

/-- `gcc_jit_block_add_assignment (block, NULL, lhs, rhs)`. -/
def add_assignment (s : St) (block : Option Nat) (lhs rhs : RVal) : St :=
  s.emit (.stmt block (.assign lhs rhs))

/-- `gcc_jit_function_new_local (comp.func, NULL, ty, name)`. -/
def new_local (s : St) (ty : Ty) (name : String) : RVal × St :=
  (.fresh s.nlocals ty name, { s with nlocals := s.nlocals + 1 })

/-- `gcc_jit_function_new_block`. -/
def new_block (s : St) : Nat × St := (s.nblocks, { s with nblocks := s.nblocks + 1 })

/-- `comp.bblock->terminated = true`. -/
def St.set_terminated (s : St) : St :=
  match s.bblock with
  | some i =>
    match s.bb_map.get? i with
    | some b => { s with bb_map := s.bb_map.set i { b with terminated := true } }
    | none => s
  | none => s

/-- `comp.bblock->gcc_bb = block`. -/
def St.set_gcc_bb (s : St) (block : Option Nat) : St :=
  match s.bblock with
  | some i =>
    match s.bb_map.get? i with
    | some b => { s with bb_map := s.bb_map.set i { b with gcc_bb := block } }
    | none => s
  | none => s

/-- `*comp.bblock`, read. -/
def St.entry (s : St) : Option basic_block_t :=
  match s.bblock with
  | some i => s.bb_map.get? i
  | none => none

/-- `*comp.bblock = b`. -/
def St.set_entry (s : St) (b : Option basic_block_t) : St :=
  match s.bblock, b with
  | some i, some b => { s with bb_map := s.bb_map.set i b }
  | _, _ => s

/-- `CHECK_STACK`: `eassert (stack >= stack_base && stack < stack_over)`. -/
def CHECK_STACK (I : Input) (s : St) : Except Err Unit :=
  if 0 ≤ s.sp ∧ s.sp < I.stack_depth then .ok () else .error .eassert

/-- `TOS`: `*(stack - 1)`. -/
def TOS (s : St) : RVal := .local_ (s.sp - 1)

/-- `PUSH_LVAL (obj)` and `PUSH_RVAL (obj)`. -/
def PUSH_LVAL (I : Input) (obj : RVal) (s : St) : Except Err St := do
  CHECK_STACK I s
  let s := add_assignment s s.gcc_bb (.local_ s.sp) obj
  pure { s with sp := s.sp + 1 }

/-- `PUSH_RVAL (obj)`. -/
def PUSH_RVAL (I : Input) (obj : RVal) (s : St) : Except Err St :=
  PUSH_LVAL I obj s

/-- `PUSH_PARAM (obj)`: the assignment goes to `prologue_bb`. -/
def PUSH_PARAM (I : Input) (prologue_bb : Nat) (obj : RVal) (s : St) : Except Err St := do
  CHECK_STACK I s
  let s := add_assignment s (some prologue_bb) (.local_ s.sp) obj
  pure { s with sp := s.sp + 1 }

/-- `POP1`. -/
def POP1 (I : Input) (s : St) : Except Err St := do
  let s := { s with sp := s.sp - 1 }
  CHECK_STACK I s
  pure { s with args := args_set s.args 0 (.local_ s.sp) }

/-- `POP2`. -/
def POP2 (I : Input) (s : St) : Except Err St := do
  let s := { s with sp := s.sp - 1 }
  CHECK_STACK I s
  let s := { s with args := args_set s.args 1 (.local_ s.sp) }
  let s := { s with sp := s.sp - 1 }
  pure { s with args := args_set s.args 0 (.local_ s.sp) }

/-- `POP3`. -/
def POP3 (I : Input) (s : St) : Except Err St := do
  let s := { s with sp := s.sp - 1 }
  CHECK_STACK I s
  let s := { s with args := args_set s.args 2 (.local_ s.sp) }
  let s := { s with sp := s.sp - 1 }
  let s := { s with args := args_set s.args 1 (.local_ s.sp) }
  let s := { s with sp := s.sp - 1 }
  pure { s with args := args_set s.args 0 (.local_ s.sp) }

/-- `pop (n, &stack, &args[off])`: `while (n--) { stack--; args[n] = *stack; }`. -/
def pop : Nat → Nat → St → St
  | 0, _, s => s
  | n + 1, off, s =>
    let s := { s with sp := s.sp - 1 }
    pop n off { s with args := args_set s.args (off + n) (.local_ s.sp) }

/-- `type_to_cast_field`. -/
def type_to_cast_field (ty : Ty) : Except Err Field :=
  if ty = .long_long_type then .ok .cast_union_as_ll
  else if ty = .unsigned_type then .ok .cast_union_as_u
  else if ty = .int_type then .ok .cast_union_as_i
  else if ty = .bool_type then .ok .cast_union_as_b
  else .error (.error "unsopported cast\n")

/-- `comp_cast`: store `obj` in the field of its type of a fresh
`cast_union` local (in the current block) and read the field of `new_type`. -/
def comp_cast (new_type : Ty) (obj : RVal) (s : St) : Except Err (RVal × St) := do
  let orig_field ← type_to_cast_field obj.type
  let dest_field ← type_to_cast_field new_type
  let (tmp_u, s) := new_local s .cast_union_type "union_cast"
  let s := add_assignment s s.gcc_bb (.field tmp_u orig_field) obj
  pure (.field tmp_u dest_field, s)

/-- `comp_XLI`. -/
def comp_XLI (obj : RVal) : RVal := .field obj .lisp_obj_as_num

/-- `comp_TAGGEDP`. -/
def comp_TAGGEDP (I : Input) (obj : RVal) (tag : Nat) (s : St) : Except Err (RVal × St) := do
  let sh_res := RVal.binary_op .RSHIFT .long_long_type (comp_XLI obj)
    (.from_int .long_long_type (if I.L.USE_LSB_TAG then 0 else I.L.VALBITS))
  let (c, s) ← comp_cast .unsigned_type sh_res s
  let minus_res := RVal.binary_op .MINUS .unsigned_type c (.from_int .unsigned_type tag)
  pure (.unary_op .LOGICAL_NEGATE .int_type
    (.binary_op .BITWISE_AND .unsigned_type minus_res
      (.from_int .unsigned_type ((1 <<< I.L.GCTYPEBITS : Nat) - 1 : Nat))), s)

/-- `comp_CONSP`. -/
def comp_CONSP (I : Input) (obj : RVal) (s : St) : Except Err (RVal × St) :=
  comp_TAGGEDP I obj I.L.Lisp_Cons s

/-- `comp_FIXNUMP`. -/
def comp_FIXNUMP (I : Input) (obj : RVal) (s : St) : Except Err (RVal × St) := do
  let sh_res := RVal.binary_op .RSHIFT .long_long_type (comp_XLI obj)
    (.from_int .long_long_type (if I.L.USE_LSB_TAG then 0 else I.L.FIXNUM_BITS))
  let (c, s) ← comp_cast .unsigned_type sh_res s
  let minus_res := RVal.binary_op .MINUS .unsigned_type c
    (.from_int .unsigned_type
      (if I.L.USE_LSB_TAG then I.L.Lisp_Int0 else I.L.Lisp_Int0 >>> 1 : Nat))
  pure (.unary_op .LOGICAL_NEGATE .int_type
    (.binary_op .BITWISE_AND .unsigned_type minus_res
      (.from_int .unsigned_type ((1 <<< I.L.INTTYPEBITS : Nat) - 1 : Nat))), s)

/-- `comp_XFIXNUM`; `comp.inttypebits` is the `long long` constant
`INTTYPEBITS`. -/
def comp_XFIXNUM (I : Input) (obj : RVal) : RVal :=
  .binary_op .RSHIFT .long_long_type (comp_XLI obj)
    (.from_int .long_long_type I.L.INTTYPEBITS)

/-- `comp_make_fixnum (block, obj)`. -/
def comp_make_fixnum (I : Input) (block : Option Nat) (obj : RVal) (s : St) : RVal × St :=
  let tmp := RVal.binary_op .LSHIFT .long_long_type obj
    (.from_int .long_long_type I.L.INTTYPEBITS)
  let tmp := RVal.binary_op .PLUS .long_long_type tmp
    (.from_int .long_long_type I.L.Lisp_Int0)
  let (res, s) := new_local s .lisp_obj_type "lisp_obj_fixnum"
  (res, add_assignment s block (.field res .lisp_obj_as_num) tmp)

/-- `comp_lisp_obj_as_ptr_from_ptr (bblock, p)`, given `bblock->gcc_bb`. -/
def comp_lisp_obj_as_ptr_from_ptr (block : Option Nat) (p : Ptr) (s : St) : RVal × St :=
  let (lisp_obj, s) := new_local s .lisp_obj_type "lisp_obj_from_ptr"
  (lisp_obj, add_assignment s block (.field lisp_obj .lisp_obj_as_ptr) (.from_ptr p))

/-- `comp_func_declare`, as far as `comp.func_hash` goes: more than four
parameters fail the `eassert (0)` of the `switch`; the function is created
with return type `comp.lisp_obj_type` whatever `ret_type` is; a `reusable`
function must not be in the table yet and is entered in it. -/
def comp_func_declare (f_name : String) (_ret_type : Ty) (nargs : Nat)
    (imported reusable : Bool) (s : St) : Except Err St :=
  if nargs > 4 then .error .eassert
  else if reusable then
    if s.func_hash.any (fun d => d.name = f_name) then .error .eassert
    else .ok { s with func_hash :=
      s.func_hash ++ [⟨f_name, .lisp_obj_type, nargs, imported⟩] }
  else .ok s

/-- `comp_emit_call (f_name, ret_type, nargs, args)`: declare the callee on a
miss, make the local `res` of type `ret_type` and append `res = f (args)` to
the current block.  `args` is the array passed (`none` for `NULL`). -/
def comp_emit_call (f_name : String) (ret_type : Ty) (nargs : Nat)
    (args : Option (List RVal)) (s : St) : Except Err (RVal × St) := do
  let s ← if s.func_hash.any (fun d => d.name = f_name) then pure s
          else comp_func_declare f_name ret_type nargs true true s
  let (res, s) := new_local s ret_type "res"
  let actual := match args with
    | some a => (List.range nargs).map (args_get a)
    | none => []
  pure (res, s.emit (.stmt s.gcc_bb (.call res f_name nargs actual)))

/-- The loop of `comp_emit_callN` storing `args[i]` in `p[i]`, for
`i = from, ..., from + k - 1`. -/
def store_scratch (p : RVal) : Nat → Nat → St → St
  | 0, _, s => s
  | k + 1, i, s =>
    store_scratch p k (i + 1)
      (add_assignment s s.gcc_bb (.index p (.from_int .unsigned_type i)) (args_get s.args i))

/-- `comp_emit_callN (f_name, nargs, args)`. -/
def comp_emit_callN (f_name : String) (nargs : Nat) (s : St) : Except Err (RVal × St) := do
  let (p, s) := new_local s .lisp_obj_ptr_type "p"
  let s := add_assignment s s.gcc_bb p .scratch
  let s := store_scratch p nargs 0 s
  let s := { s with args := args_set s.args 0 (.from_int .ptrdiff_type nargs) }
  let s := { s with args := args_set s.args 1 .scratch }
  comp_emit_call f_name .lisp_obj_type 2 (some s.args) s

/-- `comp_emit_cond_jump`. -/
def comp_emit_cond_jump (test : RVal) (then_target else_target : Option Nat) (s : St) : St :=
  (s.emit (.term s.gcc_bb (.conditional test then_target else_target))).set_terminated

/-- `comp_emit_comp_jump`. -/
def comp_emit_comp_jump (op : Comparison) (a b : RVal)
    (then_target else_target : Option Nat) (s : St) : St :=
  comp_emit_cond_jump (.comparison op a b) then_target else_target s

/-- `gcc_jit_block_end_with_jump (comp.bblock->gcc_bb, NULL, target);
comp.bblock->terminated = true;`. -/
def end_with_jump (target : Option Nat) (s : St) : St :=
  (s.emit (.term s.gcc_bb (.jump target))).set_terminated

/-- The body of `CASE_CALL_NARGS (name, nargs)` for the callee `F<name>`. -/
def CASE_CALL_NARGS (I : Input) (f_name : String) (nargs : Nat) (s : St) : Except Err St := do
  let s ← match nargs with
    | 0 => pure s
    | 1 => POP1 I s
    | 2 => POP2 I s
    | _ => POP3 I s
  let (res, s) ← comp_emit_call f_name .lisp_obj_type nargs (some s.args) s
  PUSH_LVAL I res s

/-- `EMIT_SCRATCH_CALL_N (name, nargs)`. -/
def EMIT_SCRATCH_CALL_N (I : Input) (f_name : String) (nargs : Nat) (s : St) : Except Err St := do
  let s := pop nargs 0 s
  let (res, s) ← comp_emit_callN f_name nargs s
  PUSH_LVAL I res s

/-- `EMIT_ARITHCOMPARE (comparison)`. -/
def EMIT_ARITHCOMPARE (I : Input) (comparison : Int) (s : St) : Except Err St := do
  let s ← POP2 I s
  let s := { s with args := args_set s.args 2 (.from_int .int_type comparison) }
  let (res, s) ← comp_emit_call "arithcompare" .lisp_obj_type 3 (some s.args) s
  PUSH_LVAL I res s

/-- The uses of `CASE_CALL_NARGS` in `compile_f`: opcode, callee, `nargs`. -/
def case_call_nargs : List (Nat × String × Nat) :=
  [(Bnth, "Fnth", 2), (Bsymbolp, "Fsymbolp", 1), (Bstringp, "Fstringp", 1),
   (Blistp, "Flistp", 1), (Beq, "Feq", 2), (Bmemq, "Fmemq", 1), (Bnot, "Fnot", 1),
   (Bcar, "Fcar", 1), (Bcdr, "Fcdr", 1), (Bcons, "Fcons", 2),
   (Blength, "Flength", 1), (Baref, "Faref", 2), (Baset, "Faset", 3),
   (Bsymbol_value, "Fsymbol_value", 1), (Bsymbol_function, "Fsymbol_function", 1),
   (Bset, "Fset", 2), (Bfset, "Ffset", 2), (Bget, "Fget", 2),
   (Bsubstring, "Fsubstring", 3), (Bgoto_char, "Fgoto_char", 1),
   (Bchar_after, "Fchar_after", 1), (Bfollowing_char, "Ffollowing_char", 0),
   (Bcurrent_column, "Fcurrent_column", 0), (Beolp, "Feolp", 0), (Beobp, "Feobp", 0),
   (Bbolp, "Fbolp", 0), (Bbobp, "Fbobp", 0), (Bcurrent_buffer, "Fcurrent_buffer", 0),
   (Bset_buffer, "Fset_buffer", 1), (Bforward_char, "Fforward_char", 1),
   (Bforward_word, "Fforward_word", 1),
   (Bskip_chars_forward, "Fskip_chars_forward", 2),
   (Bskip_chars_backward, "Fskip_chars_backward", 2),
   (Bforward_line, "Fforward_line", 1), ( Bchar_syntax, "Fchar_syntax", 1),
   (Bbuffer_substring, "Fbuffer_substring", 2), (Bdelete_region, "Fdelete_region", 2),
   (Bnarrow_to_region, "Fnarrow_to_region", 2), (Bwiden, "Fwiden", 0),
   (Bend_of_line, "Fend_of_line", 1), (Bset_marker, "Fset_marker", 3),
   (Bmatch_beginning, "Fmatch_beginning", 1), (Bmatch_end, "Fmatch_end", 1),
   (Bupcase, "Fupcase", 1), (Bdowncase, "Fdowncase", 1), (Bequal, "Fequal", 2),
   (Bnthcdr, "Fnthcdr", 2), (Belt, "Felt", 2), (Bmember, "Fmember", 2),
   (Bassq, "Fassq", 2), (Bsetcar, "Fsetcar", 2), (Bsetcdr, "Fsetcdr", 2),
   (Brem, "Frem", 2)]

/-- The uses of `EMIT_SCRATCH_CALL_N` with a fixed argument count. -/
def scratch_call_n : List (Nat × String × Nat) :=
  [(Bconcat2, "Fconcat", 2), (Bconcat3, "Fconcat", 3), (Bconcat4, "Fconcat", 4),
   (Bdiff, "Fminus", 2), (Bplus, "Fplus", 2), (Bmax, "Fmax", 2), (Bmin, "Fmin", 2),
   (Bmult, "Ftimes", 2), (Binsert, "Finsert", 1), (Bnconc, "Fnconc", 2),
   (Bquo, "Fquo", 2)]

/-- The uses of `EMIT_ARITHCOMPARE`. -/
def arithcompare_ops (L : Lisp) : List (Nat × Int) :=
  [(Beqlsign, L.ARITH_EQUAL), (Bgtr, L.ARITH_GRTR), (Blss, L.ARITH_LESS),
   (Bleq, L.ARITH_LESS_OR_EQUAL), (Bgeq, L.ARITH_GRTR_OR_EQUAL)]

/-- The opcodes whose case is `error ("...")`, with the message. -/
def unsupported_ops : List (Nat × String) :=
  [(Bpophandler, "Bpophandler unsupported bytecode\n"),
   (Bpushconditioncase, "Bpushconditioncase unsupported bytecode\n"),
   (Bpushcatch, "Bpushcatch unsupported bytecode\n"),
   (Bunbind_all, "Bunbind_all not supported"),
   (Bcar_safe, "Bcar_safe not supported"),
   (Bcdr_safe, "Bcdr_safe not supported"),
   (Bnumberp, "Bnumberp not supported"),
   (Bintegerp, "Bintegerp not supported"),
   (BinsertN, "BinsertN not supported"),
   (Bstack_set2, "Bstack_set2 not supported"),
   (BdiscardN, "BdiscardN not supported"),
   (Bswitch, "Bswitch not supported")]

/-! ## The cases of the `switch` of `compile_f` -/

/-- `FETCH` on the state: read the byte at `pc` and advance `pc`. -/
def fetch (I : Input) (s : St) : Except Err (Nat × St) := do
  let b ← FETCH I.bytestr s.pc
  pure (b, { s with pc := s.pc + 1 })

/-- `FETCH2` on the state. -/
def fetch2 (I : Input) (s : St) : Except Err (Nat × St) := do
  let v ← FETCH2 I.bytestr s.pc
  pure (v, { s with pc := s.pc + 2 })

/-- `op = FETCH - 128; op += pc;` for the PC-relative branches. -/
def fetch_rel (I : Input) (s : St) : Except Err (Nat × St) := do
  let (b, s) ← fetch I s
  pure ((rel_operand b + s.pc) % U32, s)

/-- Label `varref`. -/
def do_varref (I : Input) (op : Nat) (s : St) : Except Err St := do
  let (c, s) := comp_lisp_obj_as_ptr_from_ptr s.gcc_bb (.vectorp op) s
  let s := { s with args := args_set s.args 0 c }
  let (res, s) ← comp_emit_call "Fsymbol_value" .lisp_obj_type 1 (some s.args) s
  PUSH_LVAL I res s

/-- Label `varset`. -/
def do_varset (I : Input) (op : Nat) (s : St) : Except Err St := do
  let s ← POP1 I s
  let s := { s with args := args_set s.args 1 (args_get s.args 0) }
  let (c, s) := comp_lisp_obj_as_ptr_from_ptr s.gcc_bb (.vectorp op) s
  let s := { s with args := args_set s.args 0 c }
  let s := { s with args := args_set s.args 2 s.nil }
  let s := { s with args := args_set s.args 3 (.from_int .int_type I.L.SET_INTERNAL_SET) }
  let (res, s) ← comp_emit_call "set_internal" .lisp_obj_type 4 (some s.args) s
  PUSH_LVAL I res s

/-- Label `varbind`. -/
def do_varbind (I : Input) (op : Nat) (s : St) : Except Err St := do
  let (c, s) := comp_lisp_obj_as_ptr_from_ptr s.gcc_bb (.vectorp op) s
  let s := { s with args := args_set s.args 0 c }
  let s := pop 1 1 s
  let (res, s) ← comp_emit_call "specbind" .lisp_obj_type 2 (some s.args) s
  PUSH_LVAL I res s

/-- Label `docall`. -/
def docall (I : Input) (op : Nat) (s : St) : Except Err St := do
  let nargs := op + 1
  let s := pop nargs 0 s
  let (res, s) ← comp_emit_callN "Ffuncall" nargs s
  PUSH_LVAL I res s

/-- Label `dounbind`. -/
def dounbind (op : Nat) (s : St) : Except Err St := do
  let s := { s with args := args_set s.args 0 (.from_int .ptrdiff_type op) }
  let (_, s) ← comp_emit_call "helper_unbind_n" .lisp_obj_type 1 (some s.args) s
  pure s

/-- The `for` loop of label `make_list`: `k` iterations of
`POP2; res = Fcons (args); PUSH_LVAL (res)`. -/
def make_list_loop (I : Input) : Nat → St → Except Err St
  | 0, s => pure s
  | k + 1, s => do
    let s ← POP2 I s
    let (res, s) ← comp_emit_call "Fcons" .lisp_obj_type 2 (some s.args) s
    let s ← PUSH_LVAL I res s
    make_list_loop I k s

/-- Label `make_list`. -/
def make_list (I : Input) (op : Nat) (s : St) : Except Err St := do
  let s ← POP1 I s
  let s := { s with args := args_set s.args 1 s.nil }
  let (res, s) ← comp_emit_call "Fcons" .lisp_obj_type 2 (some s.args) s
  let s ← PUSH_LVAL I res s
  make_list_loop I op s

/-- The three inline fast paths.  `limit` is the constant the guard compares
with, `inline_res` builds the inline result from `tos_as_num`, `fcall`
is the code emitted into the `fcall` block. -/
def inline_arith (I : Input) (limit : Int) (inline_res : RVal → RVal)
    (fcall : St → Except Err St) (s : St) : Except Err St := do
  let (inline_block, s) := new_block s
  let (fcall_block, s) := new_block s
  let tos_as_num := comp_XFIXNUM I (TOS s)
  let (fixnump, s) ← comp_FIXNUMP I (TOS s) s
  let (fixnump_b, s) ← comp_cast .bool_type fixnump s
  let s := comp_emit_cond_jump
    (.binary_op .LOGICAL_AND .bool_type fixnump_b
      (.comparison .NE tos_as_num (.from_int .long_long_type limit)))
    (some inline_block) (some fcall_block) s
  let (fx, s) := comp_make_fixnum I (some inline_block) (inline_res tos_as_num) s
  let s := add_assignment s (some inline_block) (TOS s) fx
  let bb_orig := s.entry
  let s := s.set_gcc_bb (some fcall_block)
  let s ← fcall s
  let s := s.set_entry bb_orig
  let s := s.emit (.term (some inline_block) (.jump (s.map_gcc_bb s.pc)))
  pure (s.emit (.term (some fcall_block) (.jump (s.map_gcc_bb s.pc))))

/-- The `fcall` block of `Bsub1` and `Badd1`:
`POP1; res = comp_emit_call (name, ...); PUSH_LVAL (res);`. -/
def fcall1 (I : Input) (f_name : String) (s : St) : Except Err St := do
  let s ← POP1 I s
  let (res, s) ← comp_emit_call f_name .lisp_obj_type 1 (some s.args) s
  PUSH_LVAL I res s

/-- `comp.one`. -/
def comp_one : RVal := .from_int .long_long_type 1

/-- `case Bsub1`. -/
def do_sub1 (I : Input) (s : St) : Except Err St :=
  inline_arith I I.L.MOST_NEGATIVE_FIXNUM
    (fun t => .binary_op .MINUS .long_long_type t comp_one) (fcall1 I "Fsub1") s

/-- `case Badd1`. -/
def do_add1 (I : Input) (s : St) : Except Err St :=
  inline_arith I I.L.MOST_POSITIVE_FIXNUM
    (fun t => .binary_op .PLUS .long_long_type t comp_one) (fcall1 I "Fadd1") s

/-- `case Bnegate`. -/
def do_negate (I : Input) (s : St) : Except Err St :=
  inline_arith I I.L.MOST_NEGATIVE_FIXNUM
    (fun t => .unary_op .MINUS .long_long_type t) (EMIT_SCRATCH_CALL_N I "Fminus" 1) s

/-- Label `do_constant`: with `Bswitch` as the next byte, skip it;
otherwise push the constant `vectorp[op]`. -/
def do_constant (I : Input) (op : Nat) (s : St) : Except Err St :=
  if s.pc ≥ I.bytestr.length ∨ (I.bytestr.get? s.pc).map Fin.val ≠ some Bswitch then do
    let (c, s) := comp_lisp_obj_as_ptr_from_ptr s.gcc_bb (.vectorp op) s
    PUSH_RVAL I c s
  else pure { s with pc := s.pc + 1 }

/-- The cases `Bpoint`, `Bpoint_max`, `Bpoint_min`. -/
def do_point (I : Input) (v : Int) (s : St) : Except Err St := do
  let s := { s with args := args_set s.args 0 (.from_int .ptrdiff_type v) }
  let (res, s) ← comp_emit_call "make_fixed_natnum" .lisp_obj_type 1 (some s.args) s
  PUSH_LVAL I res s

/-- The conditional branches that pop before the jump (`Bgotoifnil`,
`Bgotoifnonnil` and the `R` variants), given the decoded target `op`. -/
def do_gotoif (I : Input) (cmp : Comparison) (op : Nat) (s : St) : Except Err St := do
  let s ← POP1 I s
  pure (comp_emit_comp_jump cmp (args_get s.args 0) s.nil
    (s.map_gcc_bb op) (s.map_gcc_bb s.pc) s)

/-- The conditional branches that jump on `TOS` and pop afterwards
(`Bgotoifnilelsepop`, `Bgotoifnonnilelsepop` and the `R` variants). -/
def do_gotoif_elsepop (I : Input) (cmp : Comparison) (op : Nat) (s : St) : Except Err St :=
  POP1 I (comp_emit_comp_jump cmp (TOS s) s.nil
    (s.map_gcc_bb op) (s.map_gcc_bb s.pc) s)

/-- The cases of `compile_f` that neither branch nor are covered by the
tables above; `none` when `op` is not one of them. -/
def exec_misc (I : Input) (op : Nat) (s : St) : Option (Except Err St) :=
  if op = Bconsp then some do
    let (c, s) ← comp_CONSP I (TOS s) s
    pure (add_assignment s s.gcc_bb (TOS s) c)
  else if op = Bpreceding_char then some do
    let (res, s) ← comp_emit_call "Fprevious_char" .lisp_obj_type 0 (some s.args) s
    PUSH_LVAL I res s
  else if op = Bindent_to then some do
    let s ← POP1 I s
    let s := { s with args := args_set s.args 1 s.nil }
    let (res, s) ← comp_emit_call "Findent_to" .lisp_obj_type 2 (some s.args) s
    PUSH_LVAL I res s
  else if op = Bsave_current_buffer ∨ op = Bsave_current_buffer_1 then some do
    let (_, s) ← comp_emit_call "record_unwind_current_buffer" .void_type 0 none s
    pure s
  else if op = Binteractive_p then some do
    CHECK_STACK I s
    let (c, s) := comp_lisp_obj_as_ptr_from_ptr s.gcc_bb (.intern "interactive-p") s
    let s ← PUSH_RVAL I c s
    let (res, s) ← comp_emit_call "call0" .lisp_obj_type 1 (some s.args) s
    PUSH_LVAL I res s
  else if op = Bsave_excursion then some do
    let (_, s) ← comp_emit_call "record_unwind_protect_excursion" .void_type 0 (some s.args) s
    pure s
  else if op = Bsave_window_excursion then some do
    let s ← POP1 I s
    let (res, s) ← comp_emit_call "helper_save_window_excursion" .lisp_obj_type 1
      (some s.args) s
    PUSH_LVAL I res s
  else if op = Bsave_restriction then some do
    let (c, s) := comp_lisp_obj_as_ptr_from_ptr s.gcc_bb (.cfun "save_restriction_restore") s
    let s := { s with args := args_set s.args 0 c }
    let (r, s) ← comp_emit_call "save_restriction_save" .lisp_obj_type 0 none s
    let s := { s with args := args_set s.args 1 r }
    let (_, s) ← comp_emit_call "record_unwind_protect" .void_ptr_type 2 (some s.args) s
    pure s
  else if op = Bcatch then some do
    let s ← POP2 I s
    let s := { s with args := args_set s.args 2 (args_get s.args 1) }
    let (c, s) := comp_lisp_obj_as_ptr_from_ptr s.gcc_bb (.cfun "eval_sub") s
    let s := { s with args := args_set s.args 1 c }
    let (_, s) ← comp_emit_call "internal_catch" .void_ptr_type 3 (some s.args) s
    pure s
  else if op = Bunwind_protect then some do
    let s ← POP1 I s
    let (_, s) ← comp_emit_call "helper_unwind_protect" .void_type 1 (some s.args) s
    pure s
  else if op = Bcondition_case then some do
    let s ← POP3 I s
    let (_, s) ← comp_emit_call "internal_lisp_condition_case" .lisp_obj_type 3
      (some s.args) s
    pure s
  else if op = Btemp_output_buffer_setup then some do
    let s ← POP1 I s
    let (res, s) ← comp_emit_call "helper_temp_output_buffer_setup" .lisp_obj_type 1
      (some s.args) s
    PUSH_LVAL I res s
  else if op = Btemp_output_buffer_show then some do
    let s ← POP2 I s
    let (_, s) ← comp_emit_call "temp_output_buffer_show" .void_type 1
      (some (s.args.drop 1)) s
    let s ← PUSH_RVAL I (args_get s.args 0) s
    let (_, s) ← comp_emit_call "helper_unbind_n" .lisp_obj_type 1 (some s.args) s
    pure s
  else if op = Bstringeqlsign then some (CASE_CALL_NARGS I "Fstring_equal" 2 s)
  else if op = Bstringlss then some (CASE_CALL_NARGS I "Fstring_lessp" 2 s)
  else if op = Bstack_set then some do
    let (op, s) ← fetch I s
    let s ← POP1 I s
    if op > 0 then pure (add_assignment s s.gcc_bb (.local_ (s.sp - op)) (args_get s.args 0))
    else pure s
  else none

/-- The `switch (op)` of `compile_f`, entered with `pc` already past the
opcode byte. -/
def exec_op (I : Input) (op : Nat) (s : St) : Except Err St :=
  if op ∈ [Bstack_ref1, Bstack_ref2, Bstack_ref3, Bstack_ref4, Bstack_ref5] then
    PUSH_LVAL I (.local_ (s.sp - ((op : Int) - Bstack_ref) - 1)) s
  else if op = Bstack_ref6 then do
    CHECK_STACK I s
    let (n, s) ← fetch I s
    PUSH_LVAL I (.local_ (s.sp - n - 1)) s
  else if op = Bstack_ref7 then do
    CHECK_STACK I s
    let (n, s) ← fetch2 I s
    PUSH_LVAL I (.local_ (s.sp - n - 1)) s
  else if op = Bvarref7 then do let (op, s) ← fetch2 I s; do_varref I op s
  else if op ∈ [Bvarref, Bvarref1, Bvarref2, Bvarref3, Bvarref4, Bvarref5] then
    do_varref I (op - Bvarref) s
  else if op = Bvarref6 then do let (op, s) ← fetch I s; do_varref I op s
  else if op ∈ [Bvarset, Bvarset1, Bvarset2, Bvarset3, Bvarset4, Bvarset5] then
    do_varset I (op - Bvarset) s
  else if op = Bvarset7 then do let (op, s) ← fetch2 I s; do_varset I op s
  else if op = Bvarset6 then do let (op, s) ← fetch I s; do_varset I op s
  else if op = Bvarbind6 then do let (op, s) ← fetch I s; do_varbind I op s
  else if op = Bvarbind7 then do let (op, s) ← fetch2 I s; do_varbind I op s
  else if op ∈ [Bvarbind, Bvarbind1, Bvarbind2, Bvarbind3, Bvarbind4, Bvarbind5] then
    do_varbind I (op - Bvarbind) s
  else if op = Bcall6 then do let (op, s) ← fetch I s; docall I op s
  else if op = Bcall7 then do let (op, s) ← fetch2 I s; docall I op s
  else if op ∈ [Bcall, Bcall1, Bcall2, Bcall3, Bcall4, Bcall5] then docall I (op - Bcall) s
  else if op = Bunbind6 then do let (op, s) ← fetch I s; dounbind op s
  else if op = Bunbind7 then do let (op, s) ← fetch2 I s; dounbind op s
  else if op ∈ [Bunbind, Bunbind1, Bunbind2, Bunbind3, Bunbind4, Bunbind5] then
    dounbind (op - Bunbind) s
  else if let some msg := unsupported_ops.lookup op then .error (.error msg)
  else if let some (f_name, nargs) := case_call_nargs.lookup op then
    CASE_CALL_NARGS I f_name nargs s
  else if op = BlistN then do let (op, s) ← fetch I s; make_list I op s
  else if op ∈ [Blist1, Blist2, Blist3, Blist4] then make_list I (op - Blist1) s
  else if let some (f_name, nargs) := scratch_call_n.lookup op then
    EMIT_SCRATCH_CALL_N I f_name nargs s
  else if op = BconcatN then do
    let (op, s) ← fetch I s
    EMIT_SCRATCH_CALL_N I "Fconcat" op s
  else if op = Bsub1 then do_sub1 I s
  else if op = Badd1 then do_add1 I s
  else if op = Bnegate then do_negate I s
  else if let some comparison := (arithcompare_ops I.L).lookup op then
    EMIT_ARITHCOMPARE I comparison s
  else if op = Bpoint then do_point I I.L.PT s
  else if op = Bpoint_max then do_point I I.L.ZV s
  else if op = Bpoint_min then do_point I I.L.BEGV s
  else if op = Bconstant2 then do_constant I op s
  else if op = Bgoto then do
    let (op, s) ← fetch2 I s
    pure (end_with_jump (s.map_gcc_bb op) s)
  else if op = Bgotoifnil then do let (op, s) ← fetch2 I s; do_gotoif I .EQ op s
  else if op = Bgotoifnonnil then do let (op, s) ← fetch2 I s; do_gotoif I .NE op s
  else if op = Bgotoifnilelsepop then do
    let (op, s) ← fetch2 I s; do_gotoif_elsepop I .EQ op s
  else if op = Bgotoifnonnilelsepop then do
    let (op, s) ← fetch2 I s; do_gotoif_elsepop I .NE op s
  else if op = Breturn then do
    let s ← POP1 I s
    pure (s.emit (.term s.gcc_bb (.ret (args_get s.args 0)))).set_terminated
  else if op = Bdiscard then POP1 I s
  else if op = Bdup then PUSH_LVAL I (TOS s) s
  else if op = BRgoto then do
    let (op, s) ← fetch_rel I s
    pure (end_with_jump (s.map_gcc_bb op) s)
  else if op = BRgotoifnil then do let (op, s) ← fetch_rel I s; do_gotoif I .EQ op s
  else if op = BRgotoifnonnil then do let (op, s) ← fetch_rel I s; do_gotoif I .NE op s
  else if op = BRgotoifnilelsepop then do
    let (op, s) ← fetch_rel I s; do_gotoif_elsepop I .EQ op s
  else if op = BRgotoifnonnilelsepop then do
    let (op, s) ← fetch_rel I s; do_gotoif_elsepop I .NE op s
  else if let some r := exec_misc I op s then r
  else if op < Bconstant ∨ op > Bconstant + I.vector_size then
    .error (.error "Something went wrong")
  else do_constant I (op - Bconstant) s

/-! ## The translation loop and `compile_f` -/

/-- The head of the loop body: "If we are changing BB and the last was one
wasn't terminated terminate it with a fall through", then
`comp.bblock = &bb_map[pc]`. -/
def loop_head (s : St) : St :=
  let s :=
    match s.bblock with
    | some i =>
      if s.map_gcc_bb i ≠ s.map_gcc_bb s.pc ∧ s.entry.map basic_block_t.terminated = some false then
        end_with_jump (s.map_gcc_bb s.pc) s
      else s
    | none => s
  { s with bblock := some s.pc }

/-- One iteration of `while (pc < bytestr_length)` in `compile_f`. -/
def step (I : Input) (s : St) : Except Err St := do
  let s := loop_head s
  let (op, s) ← fetch I s
  exec_op I op s

/-- The loop `while (pc < bytestr_length)` of `compile_f`; the first
argument bounds the number of iterations. -/
def translate (I : Input) : Nat → St → Except Err St
  | 0, s => if s.pc < I.bytestr.length then .error .fuel else .ok s
  | n + 1, s =>
    if s.pc < I.bytestr.length then
      match step I s with
      | .ok s => translate I n s
      | .error e => .error e
    else .ok s

/-- The arity template `args_template`: a fixnum, a cons (with the length of
the list), `nil`, or any other object. -/
inductive Template where
  | fixnum (n : Int)
  | cons (len : Nat)
  | nil
  | other
  deriving DecidableEq, Repr

/-- `comp_f_res_t` without the backend result; the two fields are `short`. -/
structure comp_f_res_t where
  min_args : Int
  max_args : Int
  deriving DecidableEq, Repr

/-- The value of an integer stored in a `short` (16 bits, two's
complement). -/
def to_short (v : Int) : Int := (v + 32768) % 65536 - 32768

/-- The decoding of `args_template` at the top of `compile_f`.  On the
two's complement number `at`, `at & 128` is bit 7 (`(at >> 7) % 2`),
`at & 127` is `at % 128` and `at >> 8` is the arithmetic shift. -/
def decode_template (L : Lisp) : Template → Except Err comp_f_res_t
  | .fixnum n =>
    let rest : Bool := (n >>> (7 : Nat)) % 2 ≠ 0
    let mandatory := n % 128
    let nonrest := n >>> (8 : Nat)
    if rest then .error .eassert
    else if nonrest < L.SUBR_MAX_ARGS then .ok ⟨to_short mandatory, to_short nonrest⟩
    else .ok ⟨to_short mandatory, 0⟩
  | .cons len => .ok ⟨to_short len, to_short len⟩
  | .nil => .ok ⟨0, 0⟩
  | .other => .error .eassert

/-- The loop `for (i = 0; i < max_args; ++i) PUSH_PARAM (param i)`. -/
def push_params (I : Input) (prologue_bb : Nat) : Nat → Nat → St → Except Err St
  | 0, _, s => pure s
  | k + 1, i, s => do
    let s ← PUSH_PARAM I prologue_bb (.param i) s
    push_params I prologue_bb k (i + 1) s

/-- What `compile_f` hands back: the arity and the final translator state
(whose `ir` is the module given to the backend). -/
structure Output where
  res : comp_f_res_t
  final : St
  deriving DecidableEq, Repr

/-- The state of `compile_f` when the translation loop is entered: the
function declared, the `prologue` block (block `0`) created, `bb_map`
computed, the parameters pushed, the prologue ended with a jump to
`bb_map[0]`, `nil` materialised in the block of `bb_map[0]`, and
`comp.bblock = NULL`. -/
def prologue (I : Input) (args_template : Template) : Except Err (comp_f_res_t × St) := do
  let comp_res ← decode_template I.L args_template
  if comp_res.max_args < 0 ∨ comp_res.max_args > 4 then throw .eassert
  let prologue_bb := 0
  let (bb_map, nblocks) ← compute_bblocks I.bytestr 1
  let s : St :=
    { pc := 0, sp := 0, args := [.uninit, .uninit, .uninit, .uninit], bb_map := bb_map,
      bblock := none, func_hash := [], nblocks := nblocks, nlocals := 0,
      nil := .uninit, ir := [] }
  let s ← push_params I prologue_bb comp_res.max_args.toNat 0 s
  let s := s.emit (.term (some prologue_bb) (.jump (s.map_gcc_bb 0)))
  let (nil, s) := comp_lisp_obj_as_ptr_from_ptr (s.map_gcc_bb 0) .Qnil s
  pure (comp_res, { s with nil := nil })

/-- `compile_f (f_name, bytestr_length, bytestr_data, stack_depth, vectorp,
vector_size, args_template)`, up to the call of the backend. -/
def compile_f (L : Lisp) (bytestr : Bytes) (stack_depth : Int) (vector_size : Nat)
    (args_template : Template) : Except Err Output := do
  let I : Input := ⟨L, bytestr, stack_depth, vector_size⟩
  let (comp_res, s) ← prologue I args_template
  let s ← translate I bytestr.length s
  pure ⟨comp_res, s⟩

/-! ## Reading the emitted IR -/

/-- The event is a terminator of block `b`. -/
def Event.is_term_of (b : Nat) : Event → Bool
  | .term (some b') _ => b' = b
  | _ => false

/-- The event is a statement appended to block `b`. -/
def Event.is_stmt_of (b : Nat) : Event → Bool
  | .stmt (some b') _ => b' = b
  | _ => false

/-- Number of terminators block `b` received. -/
def term_count (ir : List Event) (b : Nat) : Nat :=
  (ir.filter (Event.is_term_of b)).length

/-- Some statement was appended to block `b` after a terminator of `b`. -/
def stmt_after_term : List Event → Nat → Bool
  | [], _ => false
  | e :: rest, b => (e.is_term_of b && rest.any (Event.is_stmt_of b)) || stmt_after_term rest b

/-- The terminators block `b` received, in emission order. -/
def terms_of : List Event → Nat → List Term
  | [], _ => []
  | .term (some b') t :: rest, b => if b' = b then t :: terms_of rest b else terms_of rest b
  | _ :: rest, b => terms_of rest b

/-- The statements appended to block `b`, in emission order. -/
def stmts_of : List Event → Nat → List Stmt
  | [], _ => []
  | .stmt (some b') t :: rest, b => if b' = b then t :: stmts_of rest b else stmts_of rest b
  | _ :: rest, b => stmts_of rest b

/-! ## Definitions used to state the theorems -/

/-- The table `comp.func_hash` after `comp_emit_call` looked up `f_name`. -/
def func_hash_after (s : St) (f_name : String) (nargs : Nat) : List Decl :=
  if s.func_hash.any (fun d => d.name = f_name) then s.func_hash
  else s.func_hash ++ [⟨f_name, .lisp_obj_type, nargs, true⟩]

/-- The operand of an opcode family `X, X1, ..., X7` with first opcode
`base`, read at `pc` (the PC after the opcode byte): the opcode offset for
`X .. X5`, one byte for `X6`, two little-endian bytes for `X7`; with the PC
after the operand. -/
def decode_operand (I : Input) (base op pc : Nat) : Option (Nat × Nat) :=
  if base ≤ op ∧ op ≤ base + 5 then some (op - base, pc)
  else if op = base + 6 then
    match FETCH I.bytestr pc with
    | .ok i => some (i, pc + 1)
    | .error _ => none
  else if op = base + 7 then
    match FETCH2 I.bytestr pc with
    | .ok i => some (i, pc + 2)
    | .error _ => none
  else none

/-- A translator state in block 1 with one value on the abstract stack, as
reached after `constant 0` at PC 0; used to instantiate the theorems. -/
def sample_state (pc : Nat) (bb_map : List basic_block_t) : St :=
  { pc := pc, sp := 1, args := [.uninit, .uninit, .uninit, .uninit], bb_map := bb_map,
    bblock := some 1, func_hash := [], nblocks := 4, nlocals := 2,
    nil := .fresh 0 .lisp_obj_type "lisp_obj_from_ptr", ir := [] }

/-- The conditional branch opcodes as the spec lists them: opcode, the
comparison with `nil` (`EQ` for the `nil` variants, `NE` for the `nonnil`
ones), whether it is an `elsepop` variant, whether it is `R`-prefixed. -/
def cond_branches : List (Nat × Comparison × Bool × Bool) :=
  [(Bgotoifnil, .EQ, false, false), (Bgotoifnonnil, .NE, false, false),
   (Bgotoifnilelsepop, .EQ, true, false), (Bgotoifnonnilelsepop, .NE, true, false),
   (BRgotoifnil, .EQ, false, true), (BRgotoifnonnil, .NE, false, true),
   (BRgotoifnilelsepop, .EQ, true, true), (BRgotoifnonnilelsepop, .NE, true, true)]

/-- The branch target as the spec decodes it from the operand at `pc` (the
PC after the opcode byte), with the PC after the operand: the two-byte
little-endian operand for an absolute branch, `(operand byte - 128) + PC
after the operand` for an `R`-prefixed one. -/
def decode_target (bs : Bytes) (rel : Bool) (pc : Nat) : Option (Int × Nat) :=
  if rel then
    match FETCH bs pc with
    | .ok b => some ((b : Int) - 128 + ((pc + 1 : Nat) : Int), pc + 1)
    | .error _ => none
  else
    match FETCH2 bs pc with
    | .ok t => some ((t : Int), pc + 2)
    | .error _ => none

/-! ## Evaluation of the emitted IR

The storage of the compiled function is a 64-bit word per stack slot
`local_i` and per local made during translation.  Fields of a union share
the low-order bytes of the word (little-endian layout): `ll`, `num` and
`obj` are the whole word, `u` and `i` its low 32 bits, `b` its low byte. -/

/-- Storage of the emitted code. -/
structure Mem where
  slot : Int → Nat
  tmp : Nat → Nat

/-- The word `w` (taken modulo `2 ^ bits`) read as a signed number. -/
def as_signed (bits : Nat) (w : Nat) : Int :=
  if w % 2 ^ bits < 2 ^ (bits - 1) then ((w % 2 ^ bits : Nat) : Int)
  else ((w % 2 ^ bits : Nat) : Int) - 2 ^ bits

/-- The 64-bit word holding the integer `v`. -/
def to_word (v : Int) : Nat := (v % 18446744073709551616).toNat

/-- The value of the integer `v` converted to the type `ty`. -/
def Ty.wrap : Ty → Int → Int
  | .long_long_type, v => as_signed 64 (to_word v)
  | .long_type, v => as_signed 64 (to_word v)
  | .ptrdiff_type, v => as_signed 64 (to_word v)
  | .int_type, v => as_signed 32 (to_word v)
  | .unsigned_type, v => v % 4294967296
  | .bool_type, v => if v = 0 then 0 else 1
  | _, v => v % 18446744073709551616

/-- The value of field `f` of a union stored in the word `w`. -/
def read_field : Field → Nat → Int
  | .lisp_obj_as_ptr, w => ((w % 18446744073709551616 : Nat) : Int)
  | .lisp_obj_as_num, w => as_signed 64 w
  | .cast_union_as_ll, w => as_signed 64 w
  | .cast_union_as_u, w => ((w % 4294967296 : Nat) : Int)
  | .cast_union_as_i, w => as_signed 32 w
  | .cast_union_as_b, w => if w % 256 = 0 then 0 else 1

/-- The word `w` of a union after `v` is stored in its field `f`. -/
def write_field : Field → Nat → Int → Nat
  | .lisp_obj_as_ptr, _, v => to_word v
  | .lisp_obj_as_num, _, v => to_word v
  | .cast_union_as_ll, _, v => to_word v
  | .cast_union_as_u, w, v => w / 4294967296 * 4294967296 + (v % 4294967296).toNat
  | .cast_union_as_i, w, v => w / 4294967296 * 4294967296 + (v % 4294967296).toNat
  | .cast_union_as_b, w, v => w / 256 * 256 + (if v = 0 then 0 else 1)

/-- The value of a binary operation of result type `ty`. -/
def eval_binary_op (op : BinOp) (ty : Ty) (x y : Int) : Option Int :=
  match op with
  | .RSHIFT => if 0 ≤ y ∧ y < 64 then some (ty.wrap (x >>> y.toNat)) else none
  | .LSHIFT => if 0 ≤ y ∧ y < 64 then some (ty.wrap (x * 2 ^ y.toNat)) else none
  | .PLUS => some (ty.wrap (x + y))
  | .MINUS => some (ty.wrap (x - y))
  | .BITWISE_AND => some (ty.wrap ((to_word x &&& to_word y : Nat) : Int))
  | .LOGICAL_AND => some (if x ≠ 0 ∧ y ≠ 0 then 1 else 0)

/-- The value of a unary operation of result type `ty`. -/
def eval_unary_op (op : UnOp) (ty : Ty) (x : Int) : Option Int :=
  match op with
  | .LOGICAL_NEGATE => some (if x = 0 then 1 else 0)
  | .MINUS => some (ty.wrap (-x))

/-- The value of an rvalue in storage `m`; `none` for what the evaluator
does not cover (parameters, host pointers, array accesses). -/
def eval_rvalue (m : Mem) : RVal → Option Int
  | .local_ i => some (m.slot i)
  | .fresh id _ _ => some (m.tmp id)
  | .from_int ty n => some (ty.wrap n)
  | .field (.local_ i) f => some (read_field f (m.slot i))
  | .field (.fresh id _ _) f => some (read_field f (m.tmp id))
  | .binary_op op ty a b =>
    match eval_rvalue m a, eval_rvalue m b with
    | some x, some y => eval_binary_op op ty x y
    | _, _ => none
  | .unary_op op ty a =>
    match eval_rvalue m a with
    | some x => eval_unary_op op ty x
    | none => none
  | .comparison op a b =>
    match eval_rvalue m a, eval_rvalue m b with
    | some x, some y =>
      match op with
      | .EQ => some (if x = y then 1 else 0)
      | .NE => some (if x = y then 0 else 1)
    | _, _ => none
  | _ => none

/-- Storage after the stack slot `i` is set to the word `w`. -/
def Mem.set_slot (m : Mem) (i : Int) (w : Nat) : Mem :=
  { m with slot := fun j => if j = i then w else m.slot j }

/-- Storage after the local `id` is set to the word `w`. -/
def Mem.set_tmp (m : Mem) (id : Nat) (w : Nat) : Mem :=
  { m with tmp := fun j => if j = id then w else m.tmp j }

/-- Execute an assignment; `none` for what the evaluator does not cover
(calls, stores through a pointer). -/
def exec_stmt (m : Mem) : Stmt → Option Mem
  | .assign (.local_ i) rhs => (eval_rvalue m rhs).map fun v => m.set_slot i (to_word v)
  | .assign (.fresh id _ _) rhs => (eval_rvalue m rhs).map fun v => m.set_tmp id (to_word v)
  | .assign (.field (.local_ i) f) rhs =>
    (eval_rvalue m rhs).map fun v => m.set_slot i (write_field f (m.slot i) v)
  | .assign (.field (.fresh id _ _) f) rhs =>
    (eval_rvalue m rhs).map fun v => m.set_tmp id (write_field f (m.tmp id) v)
  | _ => none

/-- Execute a list of statements in order. -/
def exec_stmts (m : Mem) : List Stmt → Option Mem
  | [] => some m
  | st :: rest =>
    match exec_stmt m st with
    | some m' => exec_stmts m' rest
    | none => none

/-- The spec's `make_fixnum (n) = (n << INTTYPEBITS) + Lisp_Int0`. -/
def make_fixnum (L : Lisp) (n : Int) : Int := n * 2 ^ L.INTTYPEBITS + L.Lisp_Int0

/-- The tagging scheme of a 64-bit runtime with the tag in the low bits:
fixnums are the integers of `64 - INTTYPEBITS` bits. -/
structure Lisp.lsb_tagged (L : Lisp) : Prop where
  lsb : L.USE_LSB_TAG = true
  bits_pos : 0 < L.INTTYPEBITS
  bits_le : L.INTTYPEBITS ≤ 31
  int0_lt : L.Lisp_Int0 < 2 ^ L.INTTYPEBITS
  most_positive : L.MOST_POSITIVE_FIXNUM = 2 ^ (63 - L.INTTYPEBITS) - 1
  most_negative : L.MOST_NEGATIVE_FIXNUM = -(2 ^ (63 - L.INTTYPEBITS))

/-- The mathematical result of `sub1`, `add1`, `negate` on `x`. -/
def arith_result (op : Nat) (x : Int) : Int :=
  if op = Bsub1 then x - 1 else if op = Badd1 then x + 1 else -x

/-- The overflow limit of the guard: `MOST_POSITIVE_FIXNUM` for `add1`,
`MOST_NEGATIVE_FIXNUM` for `sub1` and `negate`. -/
def overflow_limit (L : Lisp) (op : Nat) : Int :=
  if op = Badd1 then L.MOST_POSITIVE_FIXNUM else L.MOST_NEGATIVE_FIXNUM

/-- Modelled from the spec: the slow-path helpers `Fsub1`, `Fadd1` and
`Fminus` of the runtime, which are not part of the sources at hand, applied
to the fixnum `x`: the fixnum of the mathematical result when that is in
fixnum range (`none` stands for a bignum). -/
def slow_path_helper (L : Lisp) (op : Nat) (x : Int) : Option Int :=
  if L.MOST_NEGATIVE_FIXNUM ≤ arith_result op x ∧ arith_result op x ≤ L.MOST_POSITIVE_FIXNUM
  then some (make_fixnum L (arith_result op x)) else none

/-- A storage in which every stack slot holds the word `w` and every other
local holds `0`; used to instantiate the theorems. -/
def sample_mem (w : Nat) : Mem := ⟨fun _ => w, fun _ => 0⟩

/-- Some write to `args` went to an index of four or more, outside the C
array `gcc_jit_rvalue *args[4]` (the list starts with four entries and only
such a write makes it longer). -/
def args_overflow (s : St) : Bool := decide (4 < s.args.length)

/-- The values `pc` takes at the head of the loop `while (pc <
bytestr_length)` of `compile_f`, from the state `s` on (the opcode positions
of the translator), up to the first error. -/
def translate_pcs (I : Input) : Nat → St → List Nat
  | 0, _ => []
  | n + 1, s =>
    if s.pc < I.bytestr.length then
      match step I s with
      | .ok s' => s.pc :: translate_pcs I n s'
      | .error _ => [s.pc]
    else []

/-! ## `emacs_native_compile` and `native-compile` -/

/-- `MAX_FUN_NAME`. -/
def MAX_FUN_NAME : Nat := 256

/-- The bytes of `"Fnative_comp_"`. -/
def name_head : List (Fin 256) :=
  [70, 110, 97, 116, 105, 118, 101, 95, 99, 111, 109, 112, 95]

/-- The C string at the start of `data`: the bytes before the first NUL
(what `%s` prints and `strlen` counts). -/
def c_string (data : List (Fin 256)) : List (Fin 256) := data.takeWhile (fun b => b ≠ 0)

/-- `snprintf (c_f_name, MAX_FUN_NAME, "Fnative_comp_%s", lisp_f_name)`: the
value returned (the length of the whole formatted string) and the string
left in `c_f_name` (at most `MAX_FUN_NAME - 1` bytes of it). -/
def snprintf_c_f_name (lisp_f_name : List (Fin 256)) : Nat × List (Fin 256) :=
  ((name_head ++ c_string lisp_f_name).length,
   (name_head ++ c_string lisp_f_name).take (MAX_FUN_NAME - 1))

/-- The body of the loop `while (*c)`: `-` and `+` become `_`. -/
def mangle_byte (c : Fin 256) : Fin 256 := if c = 45 ∨ c = 43 then 95 else c

/-- The C-level function name computed at the top of `Fnative_compile` from
the bytes of the symbol name, or the error `Function name too long`. -/
def c_function_name (lisp_f_name : List (Fin 256)) : Except Err (List (Fin 256)) :=
  if (snprintf_c_f_name lisp_f_name).1 ≥ MAX_FUN_NAME then
    .error (.error "Function name too long")
  else .ok ((snprintf_c_f_name lisp_f_name).2.map mangle_byte)

/-- What `emacs_native_compile` reads of a byte-compiled function: the byte
string, the size of the constant vector, `COMPILED_STACK_DEPTH` and
`COMPILED_ARGLIST`. -/
structure CompiledFunction where
  bytecode : Bytes
  constants : Nat
  maxdepth : Nat
  arglist : Template

/-- A primitive registered by `defsubr`. -/
structure Lisp_Subr where
  symbol_name : List (Fin 256)
  min_args : Int
  max_args : Int
  deriving DecidableEq, Repr

/-- Modelled from the spec: the effect of `block_atimers`, `unblock_atimers`
and `defsubr`, which are not among the sources.  The part of the host that
`emacs_native_compile` changes: whether the timer signals are blocked in
the signal mask, and the primitives registered by `defsubr`. -/
structure Host where
  timers_blocked : Bool
  subrs : List Lisp_Subr
  deriving DecidableEq, Repr

/-- `emacs_native_compile`: `block_atimers (&oldset)`, `compile_f` with
stack depth `XFIXNAT (maxdepth) + 1`, `eassert` on the code pointer (given
by `backend_ok`, whether the backend produced code), `defsubr`,
`unblock_atimers (&oldset)`.  An `error` or failed `eassert` leaves the
function where it is raised. -/
def emacs_native_compile (L : Lisp) (h : Host) (lisp_f_name : List (Fin 256))
    (func : CompiledFunction) (backend_ok : Bool) : Host × Except Err Unit :=
  let oldset := h.timers_blocked
  let h := { h with timers_blocked := true }
  match compile_f L func.bytecode (func.maxdepth + 1) func.constants func.arglist with
  | .error e => (h, .error e)
  | .ok comp_res =>
    if backend_ok then
      let h := { h with subrs := h.subrs ++
        [Lisp_Subr.mk lisp_f_name comp_res.res.min_args comp_res.res.max_args] }
      ({ h with timers_blocked := oldset }, .ok ())
    else (h, .error .eassert)

/-- The event is the store `p[i] = ...` of `comp_emit_callN` into entry `i`
of `scratch_call_area`. -/
def Event.stores_scratch_at (i : Int) : Event → Bool
  | .stmt _ (.assign (.index (.fresh _ .lisp_obj_ptr_type _) (.from_int .unsigned_type j)) _) =>
    decide (j = i)
  | _ => false

/-- `MAX_ARGS`, the size of `scratch_call_area`. -/
def MAX_ARGS : Nat := 16

/-- The translator state of `constant 0; return` (bytes `192 135`) when the
translation loop is entered: the prologue jumps to block 1, the block of
both PCs, where `nil` is materialised. -/
def const_return_entry : St :=
  { pc := 0, sp := 0, args := [.uninit, .uninit, .uninit, .uninit],
    bb_map := [⟨some 1, false⟩, ⟨some 1, false⟩], bblock := none, func_hash := [],
    nblocks := 2, nlocals := 1, nil := .fresh 0 .lisp_obj_type "lisp_obj_from_ptr",
    ir := [.term (some 0) (.jump (some 1)),
      .stmt (some 1) (.assign
        (.field (.fresh 0 .lisp_obj_type "lisp_obj_from_ptr") .lisp_obj_as_ptr)
        (.from_ptr .Qnil))] }

/-- The state of `constant 0; return` after `constant 0`. -/
def const_return_pushed : St :=
  { const_return_entry with
    pc := 1, sp := 1, bblock := some 0, nlocals := 2,
    ir := const_return_entry.ir ++
      [.stmt (some 1) (.assign
        (.field (.fresh 1 .lisp_obj_type "lisp_obj_from_ptr") .lisp_obj_as_ptr)
        (.from_ptr (.vectorp 0))),
       .stmt (some 1) (.assign (.local_ 0) (.fresh 1 .lisp_obj_type "lisp_obj_from_ptr"))] }

/-- The state of `constant 0; return` after `return`. -/
def const_return_done : St :=
  { const_return_pushed with
    pc := 2, sp := 0, bblock := some 1,
    args := [.local_ 0, .uninit, .uninit, .uninit],
    bb_map := [⟨some 1, false⟩, ⟨some 1, true⟩],
    ir := const_return_pushed.ir ++ [.term (some 1) (.ret (.local_ 0))] }

/-- The depth of the abstract stack (`stack - stack_base`) at the head of
each iteration of the loop `while (pc < bytestr_length)` of `compile_f`,
from the state `s` on, and when the loop is left or stops on an error. -/
def translate_depths (I : Input) : Nat → St → List Int
  | 0, s => [s.sp]
  | n + 1, s =>
    if s.pc < I.bytestr.length then
      match step I s with
      | .ok s' => s.sp :: translate_depths I n s'
      | .error _ => [s.sp]
    else [s.sp]

/-- The entries the compaction loop of `compute_bblocks` keeps after the
entry `last`: each entry that differs from the one kept before it. -/
def compact (last : Nat) : List Nat → List Nat
  | [] => []
  | x :: r => if x ≠ last then x :: compact x r else compact last r

/-- What is shown of an outcome of the translator or of the scan: a result
satisfies `P`, and an error is not the exhaustion of the iteration bound. -/
def outcome {β : Type} (P : β → Prop) : Except Err β → Prop
  | .ok b => P b
  | .error e => e ≠ .fuel

/-! ## Theorems -/

set_option maxRecDepth 100000

/-- C1: every block receives exactly one terminator and nothing after it.
The code breaks this on `constant2 49287; return` (bytes `129 135 192 135`,
a constant vector of 49288 entries): `compile_f` does not consume the
operand of `constant2`, translates the operand bytes as `return`,
`constant 0`, `return`, and block 1 receives two `return` terminators and
statements after the first. -/
theorem C1_constant2_block_terminated_twice :
    ∃ out, compile_f lisp64 [129, 135, 192, 135] 1 49288 (.fixnum 0) = .ok out ∧
      recorded_leaders [129, 135, 192, 135] = .ok [0] ∧
      terms_of out.final.ir 1 = [.ret (.local_ 0), .ret (.local_ 0)] ∧
      term_count out.final.ir 1 = 2 ∧ stmt_after_term out.final.ir 1 = true :=
  ⟨_, rfl, rfl, rfl, by decide, by decide⟩

/-- C2: every branch target is a recorded leader.  The code breaks this for
the PC-relative branches: in `constant 0; Rgotoifnil +2; constant 0; dup;
discard; return` the branch at PC 1 jumps to PC 5, `compute_bblocks` records
the leader `130 - 128 = 2` instead, and the then-edge is the block that
starts at PC 3 (the one PC 4 belongs to). -/
theorem C2_relative_target_not_a_leader :
    recorded_leaders [192, 171, 130, 192, 137, 136, 135] = .ok [0, 2, 3] ∧
    (rel_operand 130 + 3) % U32 = 5 ∧ 5 ∉ [0, 2, 3] ∧
    ∃ out, compile_f lisp64 [192, 171, 130, 192, 137, 136, 135] 2 1 (.fixnum 0) = .ok out ∧
      terms_of out.final.ir 1 =
        [.conditional (.comparison .EQ (.local_ 0) out.final.nil)
          (out.final.map_gcc_bb 5) (out.final.map_gcc_bb 3)] ∧
      out.final.map_gcc_bb 5 = some 3 ∧ out.final.map_gcc_bb 4 = some 3 ∧
      out.final.map_gcc_bb 3 = some 3 ∧ out.final.map_gcc_bb 2 = some 2 :=
  ⟨rfl, rfl, by decide, _, rfl, rfl, rfl, rfl, rfl, rfl⟩

/-- C3: `compute_bblocks` allocates one block per distinct leader below the
length and maps each PC to the block of the greatest leader at or before it.
The code breaks this on the loop `constant 0; discard; Rgoto -4` (bytes
`192 136 170 124`): the recorded leaders are `0` and `124 - 128` stored as
the `unsigned` 4294967292, `ucmp` orders the latter first, the allocation
loop never matches it, no block is allocated and every `bb_map` entry is
the uninitialised `curr_bb`. -/
theorem C3_backward_relative_branch_no_blocks :
    recorded_leaders [192, 136, 170, 124] = .ok [0, 4294967292] ∧
    sort_dedup [0, 4294967292] = ([4294967292, 0], 2) ∧
    compute_bblocks [192, 136, 170, 124] 1 =
      .ok ([⟨none, false⟩, ⟨none, false⟩, ⟨none, false⟩, ⟨none, false⟩], 1) :=
  ⟨rfl, rfl, rfl⟩

/-- C4: the compile-time stack pointer stays in `[0, stack_depth]` or the
translation aborts.  The code breaks this on `constant 0; catch` (bytes
`192 141`) with `stack_depth = 1`: `POP2` checks the stack only after its
first decrement, `catch` pushes nothing, and the translation finishes with
the stack pointer at `-1`, having passed `local_-1` to `internal_catch`. -/
theorem C4_catch_underflow_not_detected :
    ∃ out, compile_f lisp64 [192, 141] 1 1 (.fixnum 0) = .ok out ∧
      out.final.sp = -1 ∧ out.final.pc = 2 ∧
      ∃ r c, out.final.ir.getLast? =
        some (.stmt (some 1) (.call r "internal_catch" 3 [.local_ (-1), c, .local_ 0])) :=
  ⟨_, rfl, rfl, rfl, _, _, rfl⟩

/-- C5: an unsupported opcode at an instruction boundary makes `compile_f`
fail.  The code breaks this for `switch` after a constant: in
`constant 0; constant 0; switch; return` (bytes `192 192 183 135`) the scan
has `switch` at the boundary PC 2, and `compile_f` succeeds, dropping both
the second constant and the `switch`: the only statements of block 1 are
the materialisation of `nil` and the push of the first constant. -/
theorem C5_switch_after_constant_skipped :
    scan_pcs [192, 192, 183, 135] 4 0 = [0, 1, 2, 3] ∧
    FETCH [192, 192, 183, 135] 2 = .ok Bswitch ∧
    unsupported_ops.lookup Bswitch = some "Bswitch not supported" ∧
    ∃ out, compile_f lisp64 [192, 192, 183, 135] 1 1 (.fixnum 0) = .ok out ∧
      out.final.pc = 4 ∧ out.final.sp = 0 ∧
      terms_of out.final.ir 1 = [.ret (.local_ 0)] ∧
      (stmts_of out.final.ir 1).length = 3 :=
  ⟨rfl, rfl, rfl, _, rfl, rfl, rfl, rfl, rfl⟩

/-! ### Auxiliary lemmas on the helpers -/

theorem args_get_set_eq (a : List RVal) (i : Nat) (v : RVal) :
    args_get (args_set a i v) i = v := by
  unfold args_get args_set
  by_cases h : i < a.length
  · simp [h, List.getD_eq_getElem?_getD, List.getElem?_set]
  · have h' : a.length ≤ i := by omega
    simp [h, List.getD_eq_getElem?_getD, List.getElem?_append_right, h']

theorem args_get_set_ne (a : List RVal) (i j : Nat) (v : RVal) (hij : i ≠ j) :
    args_get (args_set a i v) j = args_get a j := by
  unfold args_get args_set
  by_cases h : i < a.length
  · simp [h, List.getD_eq_getElem?_getD, List.getElem?_set, hij]
  · have h' : a.length ≤ i := by omega
    simp only [h, if_false, List.getD_eq_getElem?_getD]
    by_cases hj : j < a.length
    · rw [List.append_assoc, List.getElem?_append_left hj]
    · have hj' : a.length ≤ j := by omega
      rw [List.append_assoc, List.getElem?_append_right hj',
        List.getElem?_eq_none (by omega : a.length ≤ j)]
      by_cases hk : j - a.length < i - a.length
      · rw [List.getElem?_append_left (by simpa using hk)]
        simp [List.getElem?_replicate, hk]
      · have : i - a.length < j - a.length := by omega
        rw [List.getElem?_append_right (by simp; omega)]
        have h3 : j - a.length - (List.replicate (i - a.length) RVal.uninit).length ≠ 0 := by
          simp; omega
        cases hq : j - a.length - (List.replicate (i - a.length) RVal.uninit).length with
        | zero => exact absurd hq h3
        | succ q => rfl

theorem comp_emit_call_eq (f_name : String) (ty : Ty) (nargs : Nat) (args : Option (List RVal))
    (s : St) (h : nargs ≤ 4) :
    comp_emit_call f_name ty nargs args s =
      .ok (.fresh s.nlocals ty "res",
        { s with
          func_hash := func_hash_after s f_name nargs
          nlocals := s.nlocals + 1
          ir := s.ir ++ [.stmt s.gcc_bb (.call (.fresh s.nlocals ty "res") f_name nargs
            (match args with
              | some a => (List.range nargs).map (args_get a)
              | none => []))] }) := by
  unfold comp_emit_call func_hash_after comp_func_declare
  have h' : ¬ nargs > 4 := by omega
  by_cases hf : (s.func_hash.any (fun d => d.name = f_name)) = true
  · simp [hf, new_local, St.emit, St.gcc_bb, St.map_gcc_bb, bind, Except.bind, pure, Except.pure]
  · simp [hf, h', new_local, St.emit, St.gcc_bb, St.map_gcc_bb, bind, Except.bind, pure,
      Except.pure]

theorem exec_op_varset (I : Input) (s : St) (op i pc' : Nat)
    (h : decode_operand I Bvarset op s.pc = some (i, pc')) :
    exec_op I op s = do_varset I i { s with pc := pc' } := by
  unfold decode_operand at h
  split at h
  · rename_i h1
    simp only [Bvarset] at h1
    obtain ⟨h1, h2⟩ := h1
    simp only [Option.some.injEq, Prod.mk.injEq] at h
    obtain ⟨rfl, rfl⟩ := h
    interval_cases op <;> rfl
  · split at h
    · rename_i h1
      subst h1
      split at h
      · rename_i b hb
        simp only [Option.some.injEq, Prod.mk.injEq] at h
        obtain ⟨rfl, rfl⟩ := h
        have e : exec_op I 22 s = (fetch I s >>= fun x => do_varset I x.1 x.2) := rfl
        rw [show Bvarset + 6 = 22 from rfl, e]
        simp only [fetch, hb, bind, Except.bind, pure, Except.pure]
      · simp at h
    · split at h
      · rename_i h1
        subst h1
        split at h
        · rename_i b hb
          simp only [Option.some.injEq, Prod.mk.injEq] at h
          obtain ⟨rfl, rfl⟩ := h
          have e : exec_op I 23 s = (fetch2 I s >>= fun x => do_varset I x.1 x.2) := rfl
          rw [show Bvarset + 7 = 23 from rfl, e]
          simp only [fetch2, hb, bind, Except.bind, pure, Except.pure]
        · simp at h
      · simp at h

theorem exec_op_varbind (I : Input) (s : St) (op i pc' : Nat)
    (h : decode_operand I Bvarbind op s.pc = some (i, pc')) :
    exec_op I op s = do_varbind I i { s with pc := pc' } := by
  unfold decode_operand at h
  split at h
  · rename_i h1
    simp only [Bvarbind] at h1
    obtain ⟨h1, h2⟩ := h1
    simp only [Option.some.injEq, Prod.mk.injEq] at h
    obtain ⟨rfl, rfl⟩ := h
    interval_cases op <;> rfl
  · split at h
    · rename_i h1
      subst h1
      split at h
      · rename_i b hb
        simp only [Option.some.injEq, Prod.mk.injEq] at h
        obtain ⟨rfl, rfl⟩ := h
        have e : exec_op I 30 s = (fetch I s >>= fun x => do_varbind I x.1 x.2) := rfl
        rw [show Bvarbind + 6 = 30 from rfl, e]
        simp only [fetch, hb, bind, Except.bind, pure, Except.pure]
      · simp at h
    · split at h
      · rename_i h1
        subst h1
        split at h
        · rename_i b hb
          simp only [Option.some.injEq, Prod.mk.injEq] at h
          obtain ⟨rfl, rfl⟩ := h
          have e : exec_op I 31 s = (fetch2 I s >>= fun x => do_varbind I x.1 x.2) := rfl
          rw [show Bvarbind + 7 = 31 from rfl, e]
          simp only [fetch2, hb, bind, Except.bind, pure, Except.pure]
        · simp at h
      · simp at h

/-- C9: `constant2` reads a two-byte index, pushes that constant and resumes
after the operand.  The code breaks this on `constant2 0; return` (bytes
`129 0 0 135`): the case `Bconstant2` jumps to `do_constant` without
`FETCH2`, so the first iteration pushes `vectorp[129]` (the opcode value)
and leaves `pc = 1`; the operand byte `0` is then translated as an opcode
and `compile_f` fails.  The scan of `compute_bblocks` skips one operand
byte and continues at PC 2. -/
theorem C9_constant2_operand_not_read :
    compile_f lisp64 [129, 0, 0, 135] 1 1 (.fixnum 0) =
      .error (.error "Something went wrong") ∧
    scan_pcs [129, 0, 0, 135] 4 0 = [0, 2, 3] ∧
    ∃ c s s', prologue ⟨lisp64, [129, 0, 0, 135], 1, 1⟩ (.fixnum 0) = .ok (c, s) ∧
      step ⟨lisp64, [129, 0, 0, 135], 1, 1⟩ s = .ok s' ∧ s'.pc = 1 ∧ s'.sp = 1 ∧
      s'.ir.drop 2 =
        [.stmt (some 1) (.assign
          (.field (.fresh 1 .lisp_obj_type "lisp_obj_from_ptr") .lisp_obj_as_ptr)
          (.from_ptr (.vectorp 129))),
         .stmt (some 1) (.assign (.local_ 0) (.fresh 1 .lisp_obj_type "lisp_obj_from_ptr"))] :=
  ⟨rfl, rfl, _, _, _, rfl, rfl, rfl, rfl, rfl⟩

/-- What the labels `varset` and `varbind` emit: for every `varset{,1..7}`
(`bind = false`) and `varbind{,1..7}` (`bind = true`) opcode with decoded
constant index `i`, entered with a non-empty stack within `stack_depth`, the
translator materialises `constants[i]`, emits `set_internal (constants[i],
v, nil, SET_INTERNAL_SET)` respectively `specbind (constants[i], v)` on the
value `v` in the top slot, and stores the result of the call back in that
slot, so that the abstract stack depth is unchanged. -/
theorem varset_varbind_push_result (I : Input) (s : St) (bind : Bool) (op i pc' : Nat)
    (hd : decode_operand I (if bind then Bvarbind else Bvarset) op s.pc = some (i, pc'))
    (h0 : 0 < s.sp) (h1 : s.sp ≤ I.stack_depth) :
    ∃ s', exec_op I op s = .ok s' ∧ s'.pc = pc' ∧ s'.sp = s.sp ∧
      s'.ir = s.ir ++
        [.stmt s.gcc_bb (.assign
            (.field (.fresh s.nlocals .lisp_obj_type "lisp_obj_from_ptr") .lisp_obj_as_ptr)
            (.from_ptr (.vectorp i))),
         (if bind then
            .stmt s.gcc_bb (.call (.fresh (s.nlocals + 1) .lisp_obj_type "res") "specbind" 2
              [.fresh s.nlocals .lisp_obj_type "lisp_obj_from_ptr", .local_ (s.sp - 1)])
          else
            .stmt s.gcc_bb (.call (.fresh (s.nlocals + 1) .lisp_obj_type "res")
              "set_internal" 4
              [.fresh s.nlocals .lisp_obj_type "lisp_obj_from_ptr", .local_ (s.sp - 1), s.nil,
               .from_int .int_type I.L.SET_INTERNAL_SET])),
         .stmt s.gcc_bb (.assign (.local_ (s.sp - 1))
            (.fresh (s.nlocals + 1) .lisp_obj_type "res"))] := by
  have hc : 0 ≤ s.sp - 1 ∧ s.sp - 1 < I.stack_depth := by omega
  cases bind with
  | false =>
    rw [exec_op_varset I s op i pc' (by simpa using hd)]
    unfold do_varset
    simp [POP1, CHECK_STACK, hc, comp_lisp_obj_as_ptr_from_ptr, new_local, add_assignment,
      St.emit, comp_emit_call_eq, PUSH_LVAL, bind, Except.bind, pure, Except.pure,
      St.gcc_bb, St.map_gcc_bb, args_get_set_eq, args_get_set_ne, List.range, List.range.loop]
  | true =>
    rw [exec_op_varbind I s op i pc' (by simpa using hd)]
    unfold do_varbind
    simp [pop, CHECK_STACK, hc, comp_lisp_obj_as_ptr_from_ptr, new_local, add_assignment,
      St.emit, comp_emit_call_eq, PUSH_LVAL, bind, Except.bind, pure, Except.pure,
      St.gcc_bb, St.map_gcc_bb, args_get_set_eq, args_get_set_ne, List.range, List.range.loop]

/-- The label `varset` on `varset 0` (opcode 16) at PC 1 of `constant 0;
varset 0` with one value on the stack. -/
theorem varset_varbind_push_result_example :
    (0 : Int) < (sample_state 2 [⟨some 1, false⟩, ⟨some 1, false⟩]).sp ∧
    (sample_state 2 [⟨some 1, false⟩, ⟨some 1, false⟩]).sp ≤
      (⟨lisp64, [192, 16], 1, 1⟩ : Input).stack_depth ∧
    decode_operand ⟨lisp64, [192, 16], 1, 1⟩ (if false then Bvarbind else Bvarset) 16
        (sample_state 2 [⟨some 1, false⟩, ⟨some 1, false⟩]).pc = some (0, 2) ∧
    ∃ s', exec_op ⟨lisp64, [192, 16], 1, 1⟩ 16
        (sample_state 2 [⟨some 1, false⟩, ⟨some 1, false⟩]) = .ok s' ∧
      s'.pc = 2 ∧ s'.sp = 1 ∧
      s'.ir =
        [.stmt (some 1) (.assign
            (.field (.fresh 2 .lisp_obj_type "lisp_obj_from_ptr") .lisp_obj_as_ptr)
            (.from_ptr (.vectorp 0))),
         .stmt (some 1) (.call (.fresh 3 .lisp_obj_type "res") "set_internal" 4
            [.fresh 2 .lisp_obj_type "lisp_obj_from_ptr", .local_ 0,
             .fresh 0 .lisp_obj_type "lisp_obj_from_ptr", .from_int .int_type 0]),
         .stmt (some 1) (.assign (.local_ 0) (.fresh 3 .lisp_obj_type "res"))] :=
  ⟨by decide, by decide, rfl, varset_varbind_push_result ⟨lisp64, [192, 16], 1, 1⟩
    (sample_state 2 [⟨some 1, false⟩, ⟨some 1, false⟩]) false 16 0 2 rfl
    (by decide) (by decide)⟩

/-- C10: `varset{,1..7}` and `varbind{,1..7}` pop one value, emit the call
and push nothing, so that the abstract stack depth is one less afterwards.
The code breaks this: both labels end with `PUSH_LVAL (res)`, which stores
the result of the call of `set_internal` respectively `specbind` (functions
without a result) in the slot the value was popped from.  On `constant 0;
varset 0` (bytes `192 16`) and `constant 0; varbind 0` (bytes `192 24`) the
depth is 1 before the opcode and 1 after it.  On `constant 0; dup; varset 0;
return` (bytes `192 137 16 135`, `stack_depth = 2`) the depths are 0, 1, 2,
2, 1 and the function returns slot 1, the result of `set_internal`, instead
of the constant in slot 0.  On `constant 0; varset 0; constant 0; varset 0;
constant 0; return` (bytes `192 16 192 16 192 135`), whose depth never
exceeds 1, `compile_f` with `stack_depth = 1` fails on the stack assertion
of the second `constant`; likewise with `varbind`.  In general every such
opcode entered with a non-empty stack within `stack_depth` leaves the depth
as it was, the last statement being the store of the result of the call. -/
theorem C10_varset_varbind_push_call_result :
    (∃ o1 o2 o3, compile_f lisp64 [192] 1 1 (.fixnum 0) = .ok o1 ∧
      compile_f lisp64 [192, 16] 1 1 (.fixnum 0) = .ok o2 ∧
      compile_f lisp64 [192, 24] 1 1 (.fixnum 0) = .ok o3 ∧
      o1.final.sp = 1 ∧ o2.final.sp ≠ o1.final.sp - 1 ∧ o3.final.sp ≠ o1.final.sp - 1 ∧
      o2.final.ir.getLast? =
        some (.stmt (some 1) (.assign (.local_ 0) (.fresh 3 .lisp_obj_type "res"))) ∧
      o3.final.ir.getLast? =
        some (.stmt (some 1) (.assign (.local_ 0) (.fresh 3 .lisp_obj_type "res")))) ∧
    (∃ out c s, compile_f lisp64 [192, 137, 16, 135] 2 1 (.fixnum 0) = .ok out ∧
      prologue ⟨lisp64, [192, 137, 16, 135], 2, 1⟩ (.fixnum 0) = .ok (c, s) ∧
      translate_depths ⟨lisp64, [192, 137, 16, 135], 2, 1⟩ 4 s = [0, 1, 2, 2, 1] ∧
      (stmts_of out.final.ir 1).drop 5 =
        [.call (.fresh 3 .lisp_obj_type "res") "set_internal" 4
          [.fresh 2 .lisp_obj_type "lisp_obj_from_ptr", .local_ 1,
           .fresh 0 .lisp_obj_type "lisp_obj_from_ptr", .from_int .int_type 0],
         .assign (.local_ 1) (.fresh 3 .lisp_obj_type "res")] ∧
      terms_of out.final.ir 1 = [.ret (.local_ 1)]) ∧
    compile_f lisp64 [192, 16, 192, 16, 192, 135] 1 1 (.fixnum 0) = .error .eassert ∧
    compile_f lisp64 [192, 24, 192, 24, 192, 135] 1 1 (.fixnum 0) = .error .eassert ∧
    ∀ (I : Input) (s : St) (bind : Bool) (op i pc' : Nat),
      decode_operand I (if bind then Bvarbind else Bvarset) op s.pc = some (i, pc') →
      0 < s.sp → s.sp ≤ I.stack_depth →
      ∃ s', exec_op I op s = .ok s' ∧ s'.pc = pc' ∧ s'.sp = s.sp ∧
        s'.ir = s.ir ++
          [.stmt s.gcc_bb (.assign
              (.field (.fresh s.nlocals .lisp_obj_type "lisp_obj_from_ptr") .lisp_obj_as_ptr)
              (.from_ptr (.vectorp i))),
           (if bind then
              .stmt s.gcc_bb (.call (.fresh (s.nlocals + 1) .lisp_obj_type "res") "specbind" 2
                [.fresh s.nlocals .lisp_obj_type "lisp_obj_from_ptr", .local_ (s.sp - 1)])
            else
              .stmt s.gcc_bb (.call (.fresh (s.nlocals + 1) .lisp_obj_type "res")
                "set_internal" 4
                [.fresh s.nlocals .lisp_obj_type "lisp_obj_from_ptr", .local_ (s.sp - 1),
                 s.nil, .from_int .int_type I.L.SET_INTERNAL_SET])),
           .stmt s.gcc_bb (.assign (.local_ (s.sp - 1))
              (.fresh (s.nlocals + 1) .lisp_obj_type "res"))] :=
  ⟨⟨_, _, _, rfl, rfl, rfl, rfl, by decide, by decide, rfl, rfl⟩,
   ⟨_, _, _, rfl, rfl, rfl, rfl, rfl⟩, rfl, rfl,
   fun I s bind op i pc' hd h0 h1 => varset_varbind_push_result I s bind op i pc' hd h0 h1⟩

theorem set_terminated_ir (s : St) : s.set_terminated.ir = s.ir := by
  unfold St.set_terminated
  split <;> (try split) <;> rfl

theorem set_terminated_pc (s : St) : s.set_terminated.pc = s.pc := by
  unfold St.set_terminated
  split <;> (try split) <;> rfl

theorem set_terminated_sp (s : St) : s.set_terminated.sp = s.sp := by
  unfold St.set_terminated
  split <;> (try split) <;> rfl

theorem set_terminated_args (s : St) : s.set_terminated.args = s.args := by
  unfold St.set_terminated
  split <;> (try split) <;> rfl

theorem set_terminated_nil (s : St) : s.set_terminated.nil = s.nil := by
  unfold St.set_terminated
  split <;> (try split) <;> rfl

theorem POP1_eq (I : Input) (s : St) (h0 : 0 < s.sp) (h1 : s.sp ≤ I.stack_depth) :
    POP1 I s = .ok { s with sp := s.sp - 1, args := args_set s.args 0 (.local_ (s.sp - 1)) } := by
  have hc : 0 ≤ s.sp - 1 ∧ s.sp - 1 < I.stack_depth := by omega
  simp [POP1, CHECK_STACK, hc, bind, Except.bind, pure, Except.pure]

theorem FETCH_lt (bs : Bytes) (pc b : Nat) (h : FETCH bs pc = .ok b) : b < 256 := by
  unfold FETCH at h
  split at h
  · rename_i x _
    injection h with h
    rw [← h]
    exact x.isLt
  · cases h

theorem rel_target_eq (b pc : Nat) (hb : b < 256) (hpc : pc < 2147483648)
    (ht : (0 : Int) ≤ (b : Int) - 128 + (pc : Int)) :
    (rel_operand b + pc) % U32 = ((b : Int) - 128 + (pc : Int)).toNat := by
  unfold rel_operand U32
  omega

theorem do_gotoif_eq (I : Input) (s : St) (cmp : Comparison) (t : Nat)
    (h0 : 0 < s.sp) (h1 : s.sp ≤ I.stack_depth) :
    ∃ s', do_gotoif I cmp t s = .ok s' ∧ s'.pc = s.pc ∧ s'.sp = s.sp - 1 ∧
      s'.ir = s.ir ++
        [.term s.gcc_bb (.conditional (.comparison cmp (TOS s) s.nil)
          (s.map_gcc_bb t) (s.map_gcc_bb s.pc))] := by
  unfold do_gotoif
  rw [POP1_eq I s h0 h1]
  simp [comp_emit_comp_jump, comp_emit_cond_jump, St.emit, set_terminated_ir,
    set_terminated_pc, set_terminated_sp, St.gcc_bb, St.map_gcc_bb, TOS, args_get_set_eq,
    bind, Except.bind, pure, Except.pure]

theorem do_gotoif_elsepop_eq (I : Input) (s : St) (cmp : Comparison) (t : Nat)
    (h0 : 0 < s.sp) (h1 : s.sp ≤ I.stack_depth) :
    ∃ s', do_gotoif_elsepop I cmp t s = .ok s' ∧ s'.pc = s.pc ∧ s'.sp = s.sp - 1 ∧
      s'.ir = s.ir ++
        [.term s.gcc_bb (.conditional (.comparison cmp (TOS s) s.nil)
          (s.map_gcc_bb t) (s.map_gcc_bb s.pc))] := by
  unfold do_gotoif_elsepop
  rw [POP1_eq I _ (by simpa [comp_emit_comp_jump, comp_emit_cond_jump, set_terminated_sp,
      St.emit] using h0)
    (by simpa [comp_emit_comp_jump, comp_emit_cond_jump, set_terminated_sp, St.emit] using h1)]
  simp [comp_emit_comp_jump, comp_emit_cond_jump, St.emit, set_terminated_ir,
    set_terminated_pc, set_terminated_sp]

/-- C8: for every conditional branch opcode (`gotoifnil`, `gotoifnonnil`,
`gotoifnilelsepop`, `gotoifnonnilelsepop` and the `R` variants), translated
with a non-empty stack within `stack_depth` and a branch target that is a
PC, the translator appends exactly one event, the terminator of the current
block: a conditional comparing the value in the top slot (the value popped
by `gotoifnil`/`gotoifnonnil`, the `TOS` read before the pop by the
`elsepop` variants) with `nil`, by `EQ` for the `nil` variants and `NE` for
the `nonnil` ones, whose then-edge is `bb_map[target]` and whose else-edge
is `bb_map[PC after the operand]`. -/
theorem C8_conditional_branch_edges (I : Input) (s : St) (op : Nat) (cmp : Comparison)
    (elsepop rel : Bool) (t : Int) (pc' : Nat)
    (hop : (op, cmp, elsepop, rel) ∈ cond_branches)
    (hd : decode_target I.bytestr rel s.pc = some (t, pc'))
    (ht : 0 ≤ t) (hpc : s.pc < 2147483647)
    (h0 : 0 < s.sp) (h1 : s.sp ≤ I.stack_depth) :
    ∃ s', exec_op I op s = .ok s' ∧ s'.pc = pc' ∧ s'.sp = s.sp - 1 ∧
      s'.ir = s.ir ++
        [.term s.gcc_bb (.conditional (.comparison cmp (TOS s) s.nil)
          (s.map_gcc_bb t.toNat) (s.map_gcc_bb pc'))] := by
  unfold decode_target at hd
  simp only [cond_branches, List.mem_cons, Prod.mk.injEq, List.mem_singleton,
    List.not_mem_nil, or_false] at hop
  rcases hop with h | h | h | h | h | h | h | h <;> obtain ⟨rfl, rfl, rfl, rfl⟩ := h
  · simp only [Bool.false_eq_true, if_false] at hd
    split at hd <;> simp only [Option.some.injEq, Prod.mk.injEq, reduceCtorEq] at hd
    rename_i v hv
    obtain ⟨rfl, rfl⟩ := hd
    have e : exec_op I Bgotoifnil s = (fetch2 I s >>= fun x => do_gotoif I .EQ x.1 x.2) := rfl
    rw [e]
    simp only [fetch2, hv, bind, Except.bind, pure, Except.pure, Int.toNat_ofNat]
    exact do_gotoif_eq I { s with pc := s.pc + 2 } .EQ v h0 h1
  · simp only [Bool.false_eq_true, if_false] at hd
    split at hd <;> simp only [Option.some.injEq, Prod.mk.injEq, reduceCtorEq] at hd
    rename_i v hv
    obtain ⟨rfl, rfl⟩ := hd
    have e : exec_op I Bgotoifnonnil s = (fetch2 I s >>= fun x => do_gotoif I .NE x.1 x.2) :=
      rfl
    rw [e]
    simp only [fetch2, hv, bind, Except.bind, pure, Except.pure, Int.toNat_ofNat]
    exact do_gotoif_eq I { s with pc := s.pc + 2 } .NE v h0 h1
  · simp only [Bool.false_eq_true, if_false] at hd
    split at hd <;> simp only [Option.some.injEq, Prod.mk.injEq, reduceCtorEq] at hd
    rename_i v hv
    obtain ⟨rfl, rfl⟩ := hd
    have e : exec_op I Bgotoifnilelsepop s =
        (fetch2 I s >>= fun x => do_gotoif_elsepop I .EQ x.1 x.2) := rfl
    rw [e]
    simp only [fetch2, hv, bind, Except.bind, pure, Except.pure, Int.toNat_ofNat]
    exact do_gotoif_elsepop_eq I { s with pc := s.pc + 2 } .EQ v h0 h1
  · simp only [Bool.false_eq_true, if_false] at hd
    split at hd <;> simp only [Option.some.injEq, Prod.mk.injEq, reduceCtorEq] at hd
    rename_i v hv
    obtain ⟨rfl, rfl⟩ := hd
    have e : exec_op I Bgotoifnonnilelsepop s =
        (fetch2 I s >>= fun x => do_gotoif_elsepop I .NE x.1 x.2) := rfl
    rw [e]
    simp only [fetch2, hv, bind, Except.bind, pure, Except.pure, Int.toNat_ofNat]
    exact do_gotoif_elsepop_eq I { s with pc := s.pc + 2 } .NE v h0 h1
  · simp only [if_true] at hd
    split at hd <;> simp only [Option.some.injEq, Prod.mk.injEq, reduceCtorEq] at hd
    rename_i v hv
    obtain ⟨rfl, rfl⟩ := hd
    have e : exec_op I BRgotoifnil s = (fetch_rel I s >>= fun x => do_gotoif I .EQ x.1 x.2) :=
      rfl
    rw [e]
    simp only [fetch_rel, fetch, hv, bind, Except.bind, pure, Except.pure]
    rw [rel_target_eq v (s.pc + 1) (FETCH_lt _ _ _ hv) (by omega) (by simpa using ht)]
    exact do_gotoif_eq I { s with pc := s.pc + 1 } .EQ _ h0 h1
  · simp only [if_true] at hd
    split at hd <;> simp only [Option.some.injEq, Prod.mk.injEq, reduceCtorEq] at hd
    rename_i v hv
    obtain ⟨rfl, rfl⟩ := hd
    have e : exec_op I BRgotoifnonnil s =
        (fetch_rel I s >>= fun x => do_gotoif I .NE x.1 x.2) := rfl
    rw [e]
    simp only [fetch_rel, fetch, hv, bind, Except.bind, pure, Except.pure]
    rw [rel_target_eq v (s.pc + 1) (FETCH_lt _ _ _ hv) (by omega) (by simpa using ht)]
    exact do_gotoif_eq I { s with pc := s.pc + 1 } .NE _ h0 h1
  · simp only [if_true] at hd
    split at hd <;> simp only [Option.some.injEq, Prod.mk.injEq, reduceCtorEq] at hd
    rename_i v hv
    obtain ⟨rfl, rfl⟩ := hd
    have e : exec_op I BRgotoifnilelsepop s =
        (fetch_rel I s >>= fun x => do_gotoif_elsepop I .EQ x.1 x.2) := rfl
    rw [e]
    simp only [fetch_rel, fetch, hv, bind, Except.bind, pure, Except.pure]
    rw [rel_target_eq v (s.pc + 1) (FETCH_lt _ _ _ hv) (by omega) (by simpa using ht)]
    exact do_gotoif_elsepop_eq I { s with pc := s.pc + 1 } .EQ _ h0 h1
  · simp only [if_true] at hd
    split at hd <;> simp only [Option.some.injEq, Prod.mk.injEq, reduceCtorEq] at hd
    rename_i v hv
    obtain ⟨rfl, rfl⟩ := hd
    have e : exec_op I BRgotoifnonnilelsepop s =
        (fetch_rel I s >>= fun x => do_gotoif_elsepop I .NE x.1 x.2) := rfl
    rw [e]
    simp only [fetch_rel, fetch, hv, bind, Except.bind, pure, Except.pure]
    rw [rel_target_eq v (s.pc + 1) (FETCH_lt _ _ _ hv) (by omega) (by simpa using ht)]
    exact do_gotoif_elsepop_eq I { s with pc := s.pc + 1 } .NE _ h0 h1

/-- C8, instance: `gotoifnil 5` at PC 1 of the byte string
`192 131 5 0 192 135 192 135`, whose blocks start at PCs 0, 4, 5 and 6. -/
theorem C8_conditional_branch_edges_witness :
    (Bgotoifnil, Comparison.EQ, false, false) ∈ cond_branches ∧
    decode_target [192, 131, 5, 0, 192, 135, 192, 135] false 2 = some (5, 4) ∧
    compute_bblocks [192, 131, 5, 0, 192, 135, 192, 135] 1 =
      .ok ([⟨some 1, false⟩, ⟨some 1, false⟩, ⟨some 1, false⟩, ⟨some 1, false⟩,
        ⟨some 2, false⟩, ⟨some 3, false⟩, ⟨some 4, false⟩, ⟨some 4, false⟩], 5) ∧
    ∃ s', exec_op ⟨lisp64, [192, 131, 5, 0, 192, 135, 192, 135], 1, 2⟩ Bgotoifnil
        (sample_state 2 [⟨some 1, false⟩, ⟨some 1, false⟩, ⟨some 1, false⟩, ⟨some 1, false⟩,
          ⟨some 2, false⟩, ⟨some 3, false⟩, ⟨some 4, false⟩, ⟨some 4, false⟩]) = .ok s' ∧
      s'.pc = 4 ∧ s'.sp = 0 ∧
      s'.ir = [.term (some 1) (.conditional
        (.comparison .EQ (.local_ 0) (.fresh 0 .lisp_obj_type "lisp_obj_from_ptr"))
        (some 3) (some 2))] :=
  ⟨by decide, rfl, rfl,
   C8_conditional_branch_edges ⟨lisp64, [192, 131, 5, 0, 192, 135, 192, 135], 1, 2⟩
    (sample_state 2 [⟨some 1, false⟩, ⟨some 1, false⟩, ⟨some 1, false⟩, ⟨some 1, false⟩,
      ⟨some 2, false⟩, ⟨some 3, false⟩, ⟨some 4, false⟩, ⟨some 4, false⟩])
    Bgotoifnil .EQ false false 5 4 (by decide) rfl (by decide) (by decide) (by decide)
    (by decide)⟩

/-- The IR of the three inline fast paths: the two statements of the guard
and the conditional in the current block, the two statements of the
`inline` block, the statements `F` of the `fcall` block followed by the
store of its result `vf` in the slot that was `TOS`, and the two jumps to
`bb_map[pc]`. -/
theorem fast_path_ir (I : Input) (s : St) (op i : Nat) (b : basic_block_t)
    (hop : op = Bsub1 ∨ op = Badd1 ∨ op = Bnegate)
    (hb : s.bblock = some i) (he : s.bb_map.get? i = some b)
    (h0 : 0 < s.sp) (h1 : s.sp ≤ I.stack_depth) :
    ∃ F vf s', exec_op I op s = .ok s' ∧ s'.pc = s.pc ∧ s'.sp = s.sp ∧
      (∀ e ∈ F, ∃ st, e = Event.stmt (some (s.nblocks + 1)) st) ∧
      s'.ir = s.ir ++
        ([.stmt s.gcc_bb (.assign
            (.field (.fresh s.nlocals .cast_union_type "union_cast") .cast_union_as_ll)
            (.binary_op .RSHIFT .long_long_type (comp_XLI (TOS s))
              (.from_int .long_long_type (if I.L.USE_LSB_TAG then 0 else I.L.FIXNUM_BITS)))),
          .stmt s.gcc_bb (.assign
            (.field (.fresh (s.nlocals + 1) .cast_union_type "union_cast") .cast_union_as_i)
            (.unary_op .LOGICAL_NEGATE .int_type
              (.binary_op .BITWISE_AND .unsigned_type
                (.binary_op .MINUS .unsigned_type
                  (.field (.fresh s.nlocals .cast_union_type "union_cast") .cast_union_as_u)
                  (.from_int .unsigned_type
                    (if I.L.USE_LSB_TAG then I.L.Lisp_Int0 else I.L.Lisp_Int0 >>> 1 : Nat)))
                (.from_int .unsigned_type ((1 <<< I.L.INTTYPEBITS : Nat) - 1 : Nat))))),
          .term s.gcc_bb (.conditional
            (.binary_op .LOGICAL_AND .bool_type
              (.field (.fresh (s.nlocals + 1) .cast_union_type "union_cast") .cast_union_as_b)
              (.comparison .NE (comp_XFIXNUM I (TOS s))
                (.from_int .long_long_type
                  (if op = Badd1 then I.L.MOST_POSITIVE_FIXNUM
                   else I.L.MOST_NEGATIVE_FIXNUM))))
            (some s.nblocks) (some (s.nblocks + 1))),
          .stmt (some s.nblocks) (.assign
            (.field (.fresh (s.nlocals + 2) .lisp_obj_type "lisp_obj_fixnum") .lisp_obj_as_num)
            (.binary_op .PLUS .long_long_type
              (.binary_op .LSHIFT .long_long_type
                (if op = Bsub1 then
                  .binary_op .MINUS .long_long_type (comp_XFIXNUM I (TOS s)) comp_one
                 else if op = Badd1 then
                  .binary_op .PLUS .long_long_type (comp_XFIXNUM I (TOS s)) comp_one
                 else .unary_op .MINUS .long_long_type (comp_XFIXNUM I (TOS s)))
                (.from_int .long_long_type I.L.INTTYPEBITS))
              (.from_int .long_long_type I.L.Lisp_Int0))),
          .stmt (some s.nblocks) (.assign (TOS s)
            (.fresh (s.nlocals + 2) .lisp_obj_type "lisp_obj_fixnum"))] ++ F ++
         [.stmt (some (s.nblocks + 1)) (.assign (TOS s) vf),
          .term (some s.nblocks) (.jump (s.map_gcc_bb s.pc)),
          .term (some (s.nblocks + 1)) (.jump (s.map_gcc_bb s.pc))]) := by
  have hc : 0 ≤ s.sp - 1 ∧ s.sp - 1 < I.stack_depth := by omega
  have hi : i < s.bb_map.length := by
    rcases List.get?_eq_some.1 he with ⟨h, _⟩
    exact h
  rcases hop with rfl | rfl | rfl
  · refine ⟨[.stmt (some (s.nblocks + 1)) (.call (.fresh (s.nlocals + 3) .lisp_obj_type "res")
      "Fsub1" 1 [.local_ (s.sp - 1)])], .fresh (s.nlocals + 3) .lisp_obj_type "res", ?_⟩
    have e : exec_op I Bsub1 s = do_sub1 I s := rfl
    rw [e]
    unfold do_sub1 inline_arith
    simp [fcall1, POP1, CHECK_STACK, hc, comp_FIXNUMP, comp_cast, comp_XLI, comp_XFIXNUM, TOS,
      type_to_cast_field, RVal.type, comp_emit_cond_jump, comp_make_fixnum, new_block,
      comp_lisp_obj_as_ptr_from_ptr, new_local, add_assignment, EMIT_SCRATCH_CALL_N, pop,
      comp_emit_callN, store_scratch,
      St.emit, comp_emit_call_eq, PUSH_LVAL, bind, Except.bind, pure, Except.pure,
      St.gcc_bb, St.map_gcc_bb, St.entry, St.set_entry, St.set_gcc_bb, St.set_terminated,
      hb, he, hi, args_get_set_eq, args_get_set_ne, List.range, List.range.loop,
      List.getElem?_set, Bsub1, Badd1, Bnegate, comp_one]
    by_cases hq : i = s.pc
    · subst hq
      simp [List.getElem?_eq_getElem hi]
    · simp [hq]
  · refine ⟨[.stmt (some (s.nblocks + 1)) (.call (.fresh (s.nlocals + 3) .lisp_obj_type "res")
      "Fadd1" 1 [.local_ (s.sp - 1)])], .fresh (s.nlocals + 3) .lisp_obj_type "res", ?_⟩
    have e : exec_op I Badd1 s = do_add1 I s := rfl
    rw [e]
    unfold do_add1 inline_arith
    simp [fcall1, POP1, CHECK_STACK, hc, comp_FIXNUMP, comp_cast, comp_XLI, comp_XFIXNUM, TOS,
      type_to_cast_field, RVal.type, comp_emit_cond_jump, comp_make_fixnum, new_block,
      comp_lisp_obj_as_ptr_from_ptr, new_local, add_assignment, EMIT_SCRATCH_CALL_N, pop,
      comp_emit_callN, store_scratch,
      St.emit, comp_emit_call_eq, PUSH_LVAL, bind, Except.bind, pure, Except.pure,
      St.gcc_bb, St.map_gcc_bb, St.entry, St.set_entry, St.set_gcc_bb, St.set_terminated,
      hb, he, hi, args_get_set_eq, args_get_set_ne, List.range, List.range.loop,
      List.getElem?_set, Bsub1, Badd1, Bnegate, comp_one]
    by_cases hq : i = s.pc
    · subst hq
      simp [List.getElem?_eq_getElem hi]
    · simp [hq]
  · refine ⟨[.stmt (some (s.nblocks + 1))
        (.assign (.fresh (s.nlocals + 3) .lisp_obj_ptr_type "p") .scratch),
      .stmt (some (s.nblocks + 1))
        (.assign (.index (.fresh (s.nlocals + 3) .lisp_obj_ptr_type "p")
          (.from_int .unsigned_type 0)) (.local_ (s.sp - 1))),
      .stmt (some (s.nblocks + 1)) (.call (.fresh (s.nlocals + 4) .lisp_obj_type "res")
        "Fminus" 2 [.from_int .ptrdiff_type 1, .scratch])],
      .fresh (s.nlocals + 4) .lisp_obj_type "res", ?_⟩
    have e : exec_op I Bnegate s = do_negate I s := rfl
    rw [e]
    unfold do_negate inline_arith
    simp [fcall1, POP1, CHECK_STACK, hc, comp_FIXNUMP, comp_cast, comp_XLI, comp_XFIXNUM, TOS,
      type_to_cast_field, RVal.type, comp_emit_cond_jump, comp_make_fixnum, new_block,
      comp_lisp_obj_as_ptr_from_ptr, new_local, add_assignment, EMIT_SCRATCH_CALL_N, pop,
      comp_emit_callN, store_scratch,
      St.emit, comp_emit_call_eq, PUSH_LVAL, bind, Except.bind, pure, Except.pure,
      St.gcc_bb, St.map_gcc_bb, St.entry, St.set_entry, St.set_gcc_bb, St.set_terminated,
      hb, he, hi, args_get_set_eq, args_get_set_ne, List.range, List.range.loop,
      List.getElem?_set, Bsub1, Badd1, Bnegate, comp_one]
    by_cases hq : i = s.pc
    · subst hq
      simp [List.getElem?_eq_getElem hi]
    · simp [hq]
theorem scan_leaders_acc (bs : Bytes) (fuel : Nat) :
    ∀ (pc : Nat) (nb : Bool) (acc l : List Nat),
      scan_leaders bs fuel pc nb acc = .ok l → ∀ x ∈ acc, x ∈ l := by
  induction fuel with
  | zero =>
    intro pc nb acc l h x hx
    unfold scan_leaders at h
    split at h
    · cases h
    · injection h with h
      exact h ▸ hx
  | succ n ih =>
    intro pc nb acc l h x hx
    unfold scan_leaders at h
    split at h
    · simp only at h
      split at h
      · cases h
      · rename_i pc' nb' ts _
        apply ih _ _ _ _ h
        cases nb <;> simp [hx]
    · injection h with h
      exact h ▸ hx

theorem scan_leaders_new_bb (bs : Bytes) (n pc : Nat) (acc l : List Nat)
    (h : scan_leaders bs (n + 1) pc true acc = .ok l) (hpc : pc < bs.length) : pc ∈ l := by
  unfold scan_leaders at h
  simp only [hpc, if_true] at h
  split at h
  · cases h
  · exact scan_leaders_acc bs n _ _ _ _ h pc (by simp)

theorem scan_op_new_bb (bs : Bytes) (pc op : Nat) (hf : FETCH bs pc = .ok op)
    (hop : op ∈ ops_new_bb) : scan_op bs pc = .ok (pc + 1, true, []) := by
  unfold scan_op
  rw [hf]
  simp only [ops_new_bb, List.mem_cons, List.mem_singleton, List.not_mem_nil, or_false] at hop
  rcases hop with rfl | rfl | rfl | rfl <;> rfl

theorem scan_leaders_after_new_bb (bs : Bytes) (fuel : Nat) :
    ∀ (pc : Nat) (nb : Bool) (acc l : List Nat) (p op : Nat),
      p ∈ scan_pcs bs fuel pc → scan_leaders bs fuel pc nb acc = .ok l →
      FETCH bs p = .ok op → op ∈ ops_new_bb → p + 1 < bs.length → p + 1 ∈ l := by
  induction fuel with
  | zero =>
    intro pc nb acc l p op hp
    simp [scan_pcs] at hp
  | succ n ih =>
    intro pc nb acc l p op hp h hf hop hlt
    unfold scan_pcs at hp
    unfold scan_leaders at h
    by_cases hpc : pc < bs.length
    · simp only [hpc, if_true] at hp h
      by_cases hpp : p = pc
      · subst hpp
        rw [scan_op_new_bb bs p op hf hop] at h
        simp only at h
        cases n with
        | zero =>
          unfold scan_leaders at h
          simp [hlt] at h
        | succ k => exact scan_leaders_new_bb bs k _ _ _ h hlt
      · split at h
        · cases h
        · rename_i pc' nb' ts heq
          rw [heq] at hp
          simp only [List.mem_cons, hpp, false_or] at hp
          exact ih _ _ _ _ _ _ hp h hf hop hlt
    · simp [hpc] at hp

/-- Where the scan and the translator agree: for a `sub1`, `add1` or `negate`
opcode at PC `p`, an instruction boundary of the scan with `p + 1` below the
length, translated with `comp.bblock` pointing into `bb_map` and a non-empty
stack within `stack_depth`: PC `p + 1` is a recorded leader; the translator
appends statements `pre` to the current block and ends it with a conditional
whose true edge is the fresh `inline` block and whose false edge is the
fresh `fcall` block; the last statement of either block stores its result in
the slot that was `TOS`; either block ends with a jump to `bb_map[p + 1]`;
and the abstract stack depth is unchanged. -/
theorem fast_path_join_at_scan_boundary (I : Input) (s : St) (op p i : Nat) (b : basic_block_t)
    (l : List Nat)
    (hop : op = Bsub1 ∨ op = Badd1 ∨ op = Bnegate)
    (hscan : p ∈ scan_pcs I.bytestr I.bytestr.length 0)
    (hf : FETCH I.bytestr p = .ok op)
    (hlt : p + 1 < I.bytestr.length)
    (hl : recorded_leaders I.bytestr = .ok l)
    (hpc : s.pc = p + 1)
    (hb : s.bblock = some i) (he : s.bb_map.get? i = some b)
    (h0 : 0 < s.sp) (h1 : s.sp ≤ I.stack_depth) :
    p + 1 ∈ l ∧
    ∃ pre guard mid_i vi mid_f vf s',
      exec_op I op s = .ok s' ∧ s'.sp = s.sp ∧ s'.pc = p + 1 ∧
      s'.ir = s.ir ++
        (pre ++ [.term s.gcc_bb (.conditional guard (some s.nblocks) (some (s.nblocks + 1)))] ++
          mid_i ++ [.stmt (some s.nblocks) (.assign (TOS s) vi)] ++
          mid_f ++ [.stmt (some (s.nblocks + 1)) (.assign (TOS s) vf)] ++
          [.term (some s.nblocks) (.jump (s.map_gcc_bb (p + 1))),
           .term (some (s.nblocks + 1)) (.jump (s.map_gcc_bb (p + 1)))]) ∧
      (∀ e ∈ pre, ∃ st, e = Event.stmt s.gcc_bb st) ∧
      (∀ e ∈ mid_i, ∃ st, e = Event.stmt (some s.nblocks) st) ∧
      (∀ e ∈ mid_f, ∃ st, e = Event.stmt (some (s.nblocks + 1)) st) := by
  constructor
  · have hnb : op ∈ ops_new_bb := by
      rcases hop with rfl | rfl | rfl <;> decide
    exact scan_leaders_after_new_bb I.bytestr I.bytestr.length 0 true [] l p op hscan hl hf
      hnb hlt
  · obtain ⟨F, vf, s', hs, hpc', hsp, hF, hir⟩ := fast_path_ir I s op i b hop hb he h0 h1
    refine ⟨[.stmt s.gcc_bb (.assign
            (.field (.fresh s.nlocals .cast_union_type "union_cast") .cast_union_as_ll)
            (.binary_op .RSHIFT .long_long_type (comp_XLI (TOS s))
              (.from_int .long_long_type (if I.L.USE_LSB_TAG then 0 else I.L.FIXNUM_BITS)))),
          .stmt s.gcc_bb (.assign
            (.field (.fresh (s.nlocals + 1) .cast_union_type "union_cast") .cast_union_as_i)
            (.unary_op .LOGICAL_NEGATE .int_type
              (.binary_op .BITWISE_AND .unsigned_type
                (.binary_op .MINUS .unsigned_type
                  (.field (.fresh s.nlocals .cast_union_type "union_cast") .cast_union_as_u)
                  (.from_int .unsigned_type
                    (if I.L.USE_LSB_TAG then I.L.Lisp_Int0 else I.L.Lisp_Int0 >>> 1 : Nat)))
                (.from_int .unsigned_type ((1 <<< I.L.INTTYPEBITS : Nat) - 1 : Nat)))))],
      (.binary_op .LOGICAL_AND .bool_type
              (.field (.fresh (s.nlocals + 1) .cast_union_type "union_cast") .cast_union_as_b)
              (.comparison .NE (comp_XFIXNUM I (TOS s))
                (.from_int .long_long_type
                  (if op = Badd1 then I.L.MOST_POSITIVE_FIXNUM
                   else I.L.MOST_NEGATIVE_FIXNUM)))),
      [.stmt (some s.nblocks) (.assign
            (.field (.fresh (s.nlocals + 2) .lisp_obj_type "lisp_obj_fixnum") .lisp_obj_as_num)
            (.binary_op .PLUS .long_long_type
              (.binary_op .LSHIFT .long_long_type
                (if op = Bsub1 then
                  .binary_op .MINUS .long_long_type (comp_XFIXNUM I (TOS s)) comp_one
                 else if op = Badd1 then
                  .binary_op .PLUS .long_long_type (comp_XFIXNUM I (TOS s)) comp_one
                 else .unary_op .MINUS .long_long_type (comp_XFIXNUM I (TOS s)))
                (.from_int .long_long_type I.L.INTTYPEBITS))
              (.from_int .long_long_type I.L.Lisp_Int0)))],
      .fresh (s.nlocals + 2) .lisp_obj_type "lisp_obj_fixnum",
      F, vf, s', hs, hsp, by rw [hpc', hpc], ?eq, ?_, ?_, hF⟩
    case eq =>
      rw [hir, ← hpc]
      simp only [List.append_assoc, List.cons_append, List.nil_append, List.singleton_append]
    · intro e he'
      simp only [List.mem_cons, List.mem_singleton, List.not_mem_nil, or_false] at he'
      rcases he' with rfl | rfl <;> exact ⟨_, rfl⟩
    · intro e he'
      simp only [List.mem_singleton] at he'
      exact ⟨_, he'⟩

/-- The fast path of `add1` at PC 1 of `constant 0; add1; return` (bytes
`192 84 135`), whose blocks start at PCs 0 and 2. -/
theorem fast_path_join_at_scan_boundary_example :
    recorded_leaders [192, 84, 135] = .ok [0, 2] ∧
    scan_pcs [192, 84, 135] 3 0 = [0, 1, 2] ∧
    compute_bblocks [192, 84, 135] 1 =
      .ok ([⟨some 1, false⟩, ⟨some 1, false⟩, ⟨some 2, false⟩], 3) ∧
    (1 + 1 ∈ [0, 2] ∧
     ∃ pre guard mid_i vi mid_f vf s',
      exec_op ⟨lisp64, [192, 84, 135], 1, 1⟩ Badd1
        (sample_state 2 [⟨some 1, false⟩, ⟨some 1, false⟩, ⟨some 2, false⟩]) = .ok s' ∧
      s'.sp = 1 ∧ s'.pc = 1 + 1 ∧
      s'.ir = [] ++
        (pre ++ [.term (some 1) (.conditional guard (some 4) (some (4 + 1)))] ++
          mid_i ++ [.stmt (some 4) (.assign (.local_ (1 - 1)) vi)] ++
          mid_f ++ [.stmt (some (4 + 1)) (.assign (.local_ (1 - 1)) vf)] ++
          [.term (some 4) (.jump (some 2)), .term (some (4 + 1)) (.jump (some 2))]) ∧
      (∀ e ∈ pre, ∃ st, e = Event.stmt (some 1) st) ∧
      (∀ e ∈ mid_i, ∃ st, e = Event.stmt (some 4) st) ∧
      (∀ e ∈ mid_f, ∃ st, e = Event.stmt (some (4 + 1)) st)) :=
  ⟨rfl, rfl, rfl,
   fast_path_join_at_scan_boundary ⟨lisp64, [192, 84, 135], 1, 1⟩
    (sample_state 2 [⟨some 1, false⟩, ⟨some 1, false⟩, ⟨some 2, false⟩])
    Badd1 1 1 ⟨some 1, false⟩ [0, 2] (Or.inr (Or.inl rfl)) (by decide) rfl (by decide) rfl rfl
    rfl rfl (by decide) (by decide)⟩

/-- C7: for a `sub1`, `add1` or `negate` opcode at PC `p`, PC `p + 1` is a
leader and both blocks of the fast path end with a jump to the block of
`bb_map[p + 1]`, the join.  The code breaks this on `constant2 3630; add1;
return` (bytes `129 46 14 84 135`, 3631 constants, `stack_depth = 1`).  The
scan of `compute_bblocks` skips one byte after `constant2` and one more
after the operand byte `14`, so it visits PCs 0, 2, 4 and never sees the
`add1` at PC 3: the only leader is 0 and all of `bb_map` is block 1.  The
translator, whose `constant2` reads no operand, visits PCs 0, 1, 3, 4 and
translates the `add1` at PC 3: it ends block 1 with the conditional, and the
`inline` block 2 and the `fcall` block 3 both jump to `bb_map[4]`, which is
block 1 again, the block just ended; the `return` at PC 4 then gives block 1
a second terminator.  The same happens on `constant2 3598; add1; return`
(bytes `129 14 14 84 135`, 3599 constants) with `stack_depth = 2`. -/
theorem C7_join_is_the_ended_block :
    (∃ out c s, compile_f lisp64 [129, 46, 14, 84, 135] 1 3631 (.fixnum 0) = .ok out ∧
      FETCH [129, 46, 14, 84, 135] 3 = .ok Badd1 ∧
      prologue ⟨lisp64, [129, 46, 14, 84, 135], 1, 3631⟩ (.fixnum 0) = .ok (c, s) ∧
      translate_pcs ⟨lisp64, [129, 46, 14, 84, 135], 1, 3631⟩ 5 s = [0, 1, 3, 4] ∧
      translate_depths ⟨lisp64, [129, 46, 14, 84, 135], 1, 3631⟩ 5 s = [0, 1, 1, 1, 0] ∧
      scan_pcs [129, 46, 14, 84, 135] 5 0 = [0, 2, 4] ∧
      recorded_leaders [129, 46, 14, 84, 135] = .ok [0] ∧
      out.final.bb_map.map basic_block_t.gcc_bb = [some 1, some 1, some 1, some 1, some 1] ∧
      out.final.map_gcc_bb 4 = some 1 ∧
      terms_of out.final.ir 1 =
        [.conditional
          (.binary_op .LOGICAL_AND .bool_type
            (.field (.fresh 4 .cast_union_type "union_cast") .cast_union_as_b)
            (.comparison .NE
              (.binary_op .RSHIFT .long_long_type (.field (.local_ 0) .lisp_obj_as_num)
                (.from_int .long_long_type 2))
              (.from_int .long_long_type 2305843009213693951)))
          (some 2) (some 3),
         .ret (.local_ 0)] ∧
      terms_of out.final.ir 2 = [.jump (some 1)] ∧
      terms_of out.final.ir 3 = [.jump (some 1)]) ∧
    (∃ out c s, compile_f lisp64 [129, 14, 14, 84, 135] 2 3599 (.fixnum 0) = .ok out ∧
      FETCH [129, 14, 14, 84, 135] 3 = .ok Badd1 ∧
      prologue ⟨lisp64, [129, 14, 14, 84, 135], 2, 3599⟩ (.fixnum 0) = .ok (c, s) ∧
      translate_pcs ⟨lisp64, [129, 14, 14, 84, 135], 2, 3599⟩ 5 s = [0, 1, 3, 4] ∧
      scan_pcs [129, 14, 14, 84, 135] 5 0 = [0, 2, 4] ∧
      recorded_leaders [129, 14, 14, 84, 135] = .ok [0] ∧
      out.final.bb_map.map basic_block_t.gcc_bb = [some 1, some 1, some 1, some 1, some 1] ∧
      out.final.map_gcc_bb 4 = some 1 ∧
      terms_of out.final.ir 1 =
        [.conditional
          (.binary_op .LOGICAL_AND .bool_type
            (.field (.fresh 5 .cast_union_type "union_cast") .cast_union_as_b)
            (.comparison .NE
              (.binary_op .RSHIFT .long_long_type (.field (.local_ 1) .lisp_obj_as_num)
                (.from_int .long_long_type 2))
              (.from_int .long_long_type 2305843009213693951)))
          (some 2) (some 3),
         .ret (.local_ 1)] ∧
      terms_of out.final.ir 2 = [.jump (some 1)] ∧
      terms_of out.final.ir 3 = [.jump (some 1)]) :=
  ⟨⟨_, _, _, rfl, rfl, rfl, rfl, rfl, rfl, rfl, rfl, rfl, rfl, rfl, rfl⟩,
   ⟨_, _, _, rfl, rfl, rfl, rfl, rfl, rfl, rfl, rfl, rfl, rfl, rfl⟩⟩

theorem to_word_lt (v : Int) : to_word v < 18446744073709551616 := by
  unfold to_word
  omega

theorem as_signed_to_word (v : Int) (h1 : -9223372036854775808 ≤ v)
    (h2 : v < 9223372036854775808) : as_signed 64 (to_word v) = v := by
  unfold as_signed to_word
  norm_num
  split <;> omega

theorem to_word_to_word (v : Int) : to_word ((to_word v : Nat) : Int) = to_word v := by
  unfold to_word
  omega

theorem fixnum_bounds (L : Lisp) (hL : L.lsb_tagged) (x : Int)
    (hx1 : L.MOST_NEGATIVE_FIXNUM ≤ x) (hx2 : x ≤ L.MOST_POSITIVE_FIXNUM) :
    -9223372036854775808 ≤ x * 2 ^ L.INTTYPEBITS ∧
    x * 2 ^ L.INTTYPEBITS + (2 ^ L.INTTYPEBITS - 1) < 9223372036854775808 := by
  have hk := hL.bits_le
  have hp : (2 : Int) ^ (63 - L.INTTYPEBITS) * 2 ^ L.INTTYPEBITS = 9223372036854775808 := by
    rw [← pow_add]
    have : 63 - L.INTTYPEBITS + L.INTTYPEBITS = 63 := by omega
    rw [this]
    norm_num
  have hB : (0 : Int) < 2 ^ L.INTTYPEBITS := by positivity
  rw [hL.most_negative] at hx1
  rw [hL.most_positive] at hx2
  constructor
  · nlinarith
  · nlinarith

theorem wrap_long_long (v : Int) (h1 : -9223372036854775808 ≤ v)
    (h2 : v < 9223372036854775808) : Ty.wrap .long_long_type v = v :=
  as_signed_to_word v h1 h2

theorem shift_make_fixnum (L : Lisp) (hL : L.lsb_tagged) (x : Int) :
    make_fixnum L x >>> L.INTTYPEBITS = x := by
  unfold make_fixnum
  rw [Int.shiftRight_eq_div_pow]
  push_cast
  have hB : (0 : Int) < 2 ^ L.INTTYPEBITS := by positivity
  have ht : ((L.Lisp_Int0 : Nat) : Int) < 2 ^ L.INTTYPEBITS := by
    exact_mod_cast hL.int0_lt
  rw [add_comm, Int.add_mul_ediv_right _ _ (ne_of_gt hB),
    Int.ediv_eq_zero_of_lt (by positivity) ht]
  simp

theorem pow_bits_dvd (k : Nat) (hk : k ≤ 31) : (2 : Int) ^ k ∣ 4294967296 := by
  have : (4294967296 : Int) = 2 ^ 32 := by norm_num
  rw [this]
  exact pow_dvd_pow 2 (by omega)

theorem to_word_of_small (n : Int) (h0 : 0 ≤ n) (h1 : n < 18446744073709551616) :
    ((to_word n : Nat) : Int) = n := by
  unfold to_word
  omega

theorem tag_test_zero (L : Lisp) (hL : L.lsb_tagged) (x : Int) :
    Ty.wrap .unsigned_type
      ((to_word (Ty.wrap .unsigned_type
          (((to_word (make_fixnum L x) % 4294967296 : Nat) : Int) -
            Ty.wrap .unsigned_type (L.Lisp_Int0 : Nat))) &&&
        to_word (Ty.wrap .unsigned_type ((1 <<< L.INTTYPEBITS - 1 : Nat) : Int)) : Nat) : Int)
      = 0 := by
  have hk := hL.bits_le
  have hB : (0 : Int) < 2 ^ L.INTTYPEBITS := by positivity
  have hBle : (2 : Nat) ^ L.INTTYPEBITS ≤ 2147483648 := by
    calc (2 : Nat) ^ L.INTTYPEBITS ≤ 2 ^ 31 := Nat.pow_le_pow_right (by norm_num) hk
      _ = 2147483648 := by norm_num
  have ht : L.Lisp_Int0 < 2 ^ L.INTTYPEBITS := hL.int0_lt
  have hdvd := pow_bits_dvd L.INTTYPEBITS hk
  simp only [Ty.wrap]
  -- the mask
  have hmask : to_word (((1 <<< L.INTTYPEBITS - 1 : Nat) : Int) % 4294967296) =
      2 ^ L.INTTYPEBITS - 1 := by
    rw [Nat.one_shiftLeft]
    unfold to_word
    have h1 : (1 : Nat) ≤ 2 ^ L.INTTYPEBITS := Nat.one_le_two_pow
    omega
  rw [hmask, Nat.and_pow_two_sub_one_eq_mod]
  -- the difference is a multiple of `2 ^ INTTYPEBITS`
  set d : Int := (((to_word (make_fixnum L x) % 4294967296 : Nat) : Int) -
      ((L.Lisp_Int0 : Nat) : Int) % 4294967296) % 4294967296 with hd
  have hd0 : 0 ≤ d := Int.emod_nonneg _ (by norm_num)
  have hd1 : d < 4294967296 := Int.emod_lt_of_pos _ (by norm_num)
  have hdB : d % 2 ^ L.INTTYPEBITS = 0 := by
    rw [hd, Int.emod_emod_of_dvd _ hdvd]
    have e1 : ((to_word (make_fixnum L x) % 4294967296 : Nat) : Int) =
        (make_fixnum L x % 18446744073709551616) % 4294967296 := by
      unfold to_word
      omega
    rw [e1, Int.sub_emod, Int.emod_emod_of_dvd _ hdvd,
      Int.emod_emod_of_dvd _ (dvd_trans hdvd (by norm_num : (4294967296 : Int) ∣ 18446744073709551616)),
      Int.emod_emod_of_dvd _ hdvd, ← Int.sub_emod]
    unfold make_fixnum
    simp
  have hw : ((to_word d : Nat) : Int) = d := to_word_of_small d hd0 (by omega)
  have : ((to_word d % 2 ^ L.INTTYPEBITS : Nat) : Int) = 0 := by
    push_cast
    rw [hw]
    exact hdB
  rw [this]
  rfl

/-- C6: for `sub1`, `add1` and `negate` and every fixnum `x` in
`[MOST_NEGATIVE_FIXNUM, MOST_POSITIVE_FIXNUM]` other than the overflow limit
(`MOST_NEGATIVE_FIXNUM` for `sub1` and `negate`, `MOST_POSITIVE_FIXNUM` for
`add1`), on a runtime with low-bit tags: when the slot `TOS` holds the word
`make_fixnum (x)`, the two statements the translator puts before the
conditional execute and the guard then evaluates to true; the two
statements of the `inline` block then store in `TOS` the word
`make_fixnum` of `x - 1`, `x + 1`, `-x` respectively, which is a fixnum in
range and the value the slow-path helper returns. -/
theorem C6_inline_fast_path_value (I : Input) (hL : I.L.lsb_tagged) (s : St) (op i : Nat)
    (b : basic_block_t) (hop : op = Bsub1 ∨ op = Badd1 ∨ op = Bnegate)
    (hb : s.bblock = some i) (he : s.bb_map.get? i = some b)
    (h0 : 0 < s.sp) (h1 : s.sp ≤ I.stack_depth)
    (x : Int) (hx1 : I.L.MOST_NEGATIVE_FIXNUM ≤ x) (hx2 : x ≤ I.L.MOST_POSITIVE_FIXNUM)
    (hlim : x ≠ overflow_limit I.L op)
    (m : Mem) (hm : m.slot (s.sp - 1) = to_word (make_fixnum I.L x)) :
    ∃ a1 a2 guard i1 i2 rest s',
      exec_op I op s = .ok s' ∧
      s'.ir = s.ir ++
        ([.stmt s.gcc_bb a1, .stmt s.gcc_bb a2,
          .term s.gcc_bb (.conditional guard (some s.nblocks) (some (s.nblocks + 1))),
          .stmt (some s.nblocks) i1, .stmt (some s.nblocks) i2] ++ rest) ∧
      ∃ m1 m2, exec_stmts m [a1, a2] = some m1 ∧ eval_rvalue m1 guard = some 1 ∧
        exec_stmts m1 [i1, i2] = some m2 ∧
        m2.slot (s.sp - 1) = to_word (make_fixnum I.L (arith_result op x)) ∧
        I.L.MOST_NEGATIVE_FIXNUM ≤ arith_result op x ∧
        arith_result op x ≤ I.L.MOST_POSITIVE_FIXNUM ∧
        slow_path_helper I.L op x = some (make_fixnum I.L (arith_result op x)) := by
  obtain ⟨F, vf, s', hs, -, -, -, hir⟩ := fast_path_ir I s op i b hop hb he h0 h1
  rw [List.append_assoc] at hir
  refine ⟨_, _, _, _, _, _, s', hs, hir, ?_⟩
  have hk := hL.bits_le
  have hlsb := hL.lsb
  have hmp := hL.most_positive
  have hmn := hL.most_negative
  have hN : (0 : Int) < 2 ^ (63 - I.L.INTTYPEBITS) := by positivity
  have hNle : (2 : Int) ^ (63 - I.L.INTTYPEBITS) ≤ 9223372036854775808 := by
    have : (2 : Int) ^ (63 - I.L.INTTYPEBITS) ≤ 2 ^ 63 :=
      pow_le_pow_right₀ (by norm_num) (by omega)
    norm_num at this
    exact this
  -- the result is a fixnum
  have hr : I.L.MOST_NEGATIVE_FIXNUM ≤ arith_result op x ∧
      arith_result op x ≤ I.L.MOST_POSITIVE_FIXNUM := by
    unfold overflow_limit at hlim
    unfold arith_result
    rcases hop with rfl | rfl | rfl <;>
      simp only [Bsub1, Badd1, Bnegate, Nat.reduceEqDiff, if_true, if_false] at hlim ⊢ <;>
      omega
  obtain ⟨hb1, hb2⟩ := fixnum_bounds I.L hL x hx1 hx2
  obtain ⟨hr1, hr2⟩ := fixnum_bounds I.L hL (arith_result op x) hr.1 hr.2
  have ht : ((I.L.Lisp_Int0 : Nat) : Int) < 2 ^ I.L.INTTYPEBITS := by
    exact_mod_cast hL.int0_lt
  have hB1 : (1 : Int) ≤ 2 ^ I.L.INTTYPEBITS := by
    have : (0 : Int) < 2 ^ I.L.INTTYPEBITS := by positivity
    omega
  have hxb : -9223372036854775808 ≤ x ∧ x < 9223372036854775808 := by
    constructor <;> omega
  have hrb : -9223372036854775808 ≤ arith_result op x ∧
      arith_result op x < 9223372036854775808 := by
    constructor <;> omega
  have hv : as_signed 64 (m.slot (s.sp - 1)) = make_fixnum I.L x := by
    rw [hm]
    apply as_signed_to_word <;> unfold make_fixnum <;> omega
  have w0 : Ty.wrap .long_long_type 0 = 0 := wrap_long_long 0 (by norm_num) (by norm_num)
  have w1 : Ty.wrap .long_long_type 1 = 1 := wrap_long_long 1 (by norm_num) (by norm_num)
  have wk : Ty.wrap .long_long_type (I.L.INTTYPEBITS : Nat) = (I.L.INTTYPEBITS : Nat) :=
    wrap_long_long _ (by omega) (by omega)
  have wt : Ty.wrap .long_long_type (I.L.Lisp_Int0 : Nat) = (I.L.Lisp_Int0 : Nat) := by
    have : (2 : Int) ^ I.L.INTTYPEBITS ≤ 2 ^ 31 := pow_le_pow_right₀ (by norm_num) hk
    exact wrap_long_long _ (by omega) (by norm_num at this; omega)
  have wv : Ty.wrap .long_long_type (make_fixnum I.L x) = make_fixnum I.L x := by
    apply wrap_long_long <;> unfold make_fixnum <;> omega
  have wx : Ty.wrap .long_long_type x = x := wrap_long_long x hxb.1 hxb.2
  have wr : Ty.wrap .long_long_type (arith_result op x) = arith_result op x :=
    wrap_long_long _ hrb.1 hrb.2
  have wrs : Ty.wrap .long_long_type (arith_result op x * 2 ^ I.L.INTTYPEBITS) =
      arith_result op x * 2 ^ I.L.INTTYPEBITS := by
    apply wrap_long_long <;> omega
  have wrf : Ty.wrap .long_long_type
      (arith_result op x * 2 ^ I.L.INTTYPEBITS + (I.L.Lisp_Int0 : Nat)) =
      make_fixnum I.L (arith_result op x) := by
    unfold make_fixnum
    apply wrap_long_long <;> omega
  have wlim : Ty.wrap .long_long_type (overflow_limit I.L op) = overflow_limit I.L op := by
    unfold overflow_limit
    split <;> apply wrap_long_long <;> omega
  have hsh := shift_make_fixnum I.L hL x
  have hs0 : make_fixnum I.L x >>> (0 : Nat) = make_fixnum I.L x := by
    simp [Int.shiftRight_eq_div_pow]
  have hn1 : s.nlocals + 1 ≠ s.nlocals := by omega
  have hn2 : s.nlocals ≠ s.nlocals + 1 := by omega
  clear hir hs
  have htag := tag_test_zero I.L hL x
  refine ⟨(m.set_tmp s.nlocals (to_word (make_fixnum I.L x))).set_tmp (s.nlocals + 1)
      (write_field .cast_union_as_i (m.tmp (s.nlocals + 1)) 1),
    (((m.set_tmp s.nlocals (to_word (make_fixnum I.L x))).set_tmp (s.nlocals + 1)
      (write_field .cast_union_as_i (m.tmp (s.nlocals + 1)) 1)).set_tmp (s.nlocals + 2)
      (to_word (make_fixnum I.L (arith_result op x)))).set_slot (s.sp - 1)
      (to_word (make_fixnum I.L (arith_result op x))), ?_, ?_, ?_, ?_, hr.1, hr.2, ?_⟩
  · simp only [exec_stmts, exec_stmt, eval_rvalue, comp_XLI, TOS, eval_binary_op,
      eval_unary_op, hlsb, if_true, read_field, hv, w0, Option.map, Int.toNat_zero,
      hs0, wv, write_field, le_refl, true_and, Mem.set_tmp, Nat.ofNat_pos, if_pos, htag,
      hn1, hn2, if_false]
  · have hbyte : (m.tmp (s.nlocals + 1) / 4294967296 * 4294967296 +
        ((1 : Int) % 4294967296).toNat) % 256 ≠ 0 := by
      omega
    have hkk : (0 : Int) ≤ (I.L.INTTYPEBITS : Nat) ∧ ((I.L.INTTYPEBITS : Nat) : Int) < 64 := by
      omega
    simp only [overflow_limit] at wlim hlim
    simp only [eval_rvalue, comp_XFIXNUM, comp_XLI, TOS, eval_binary_op, read_field,
      Mem.set_tmp, write_field, if_true, hbyte, if_false, hv, wk, hkk, and_self,
      Int.toNat_ofNat, hsh, wx, wlim, hlim, ne_eq, one_ne_zero, not_false_eq_true]
  · have hkk : (0 : Int) ≤ (I.L.INTTYPEBITS : Nat) ∧ ((I.L.INTTYPEBITS : Nat) : Int) < 64 := by
      omega
    have hn3 : s.nlocals + 2 ≠ s.nlocals + 1 := by omega
    have hn4 : s.nlocals + 2 ≠ s.nlocals := by omega
    have hww := to_word_to_word (make_fixnum I.L (arith_result op x))
    rcases hop with rfl | rfl | rfl <;>
      simp only [arith_result, Bsub1, Badd1, Bnegate, Nat.reduceEqDiff, if_true, if_false]
        at wr wrs wrf hww ⊢ <;>
      simp only [exec_stmts, exec_stmt, eval_rvalue, comp_XFIXNUM, comp_XLI, TOS, comp_one,
        eval_binary_op, eval_unary_op, read_field, Mem.set_tmp, Mem.set_slot, write_field,
        if_true, if_false, hv, wk, hkk, and_self, Int.toNat_ofNat, hsh, wx, w1, wr, wrs, wt,
        wrf, Option.map, hww, hn3, hn4]
  · simp [Mem.set_slot]
  · unfold slow_path_helper
    simp [hr.1, hr.2]

theorem lisp64_lsb_tagged : lisp64.lsb_tagged :=
  ⟨rfl, by decide, by decide, by decide, by decide, by decide⟩

/-- C6, instance: `add1` on the fixnum 41 (the word `41 * 4 + 2 = 166`) in
`constant 0; add1; return`; the inline block leaves the word
`42 * 4 + 2 = 170`. -/
theorem C6_inline_fast_path_value_witness :
    lisp64.MOST_NEGATIVE_FIXNUM ≤ 41 ∧ (41 : Int) ≤ lisp64.MOST_POSITIVE_FIXNUM ∧
    (41 : Int) ≠ overflow_limit lisp64 Badd1 ∧
    (sample_mem 166).slot (1 - 1) = to_word (make_fixnum lisp64 41) ∧
    to_word (make_fixnum lisp64 (arith_result Badd1 41)) = 170 ∧
    ∃ a1 a2 guard i1 i2 rest s',
      exec_op ⟨lisp64, [192, 84, 135], 1, 1⟩ Badd1
        (sample_state 2 [⟨some 1, false⟩, ⟨some 1, false⟩, ⟨some 2, false⟩]) = .ok s' ∧
      s'.ir = [] ++
        ([.stmt (some 1) a1, .stmt (some 1) a2,
          .term (some 1) (.conditional guard (some 4) (some (4 + 1))),
          .stmt (some 4) i1, .stmt (some 4) i2] ++ rest) ∧
      ∃ m1 m2, exec_stmts (sample_mem 166) [a1, a2] = some m1 ∧
        eval_rvalue m1 guard = some 1 ∧
        exec_stmts m1 [i1, i2] = some m2 ∧
        m2.slot (1 - 1) = to_word (make_fixnum lisp64 (arith_result Badd1 41)) ∧
        lisp64.MOST_NEGATIVE_FIXNUM ≤ arith_result Badd1 41 ∧
        arith_result Badd1 41 ≤ lisp64.MOST_POSITIVE_FIXNUM ∧
        slow_path_helper lisp64 Badd1 41 =
          some (make_fixnum lisp64 (arith_result Badd1 41)) :=
  ⟨by decide, by decide, by decide, rfl, rfl,
   C6_inline_fast_path_value ⟨lisp64, [192, 84, 135], 1, 1⟩ lisp64_lsb_tagged
    (sample_state 2 [⟨some 1, false⟩, ⟨some 1, false⟩, ⟨some 2, false⟩]) Badd1 1
    ⟨some 1, false⟩ (Or.inr (Or.inl rfl)) rfl rfl (by decide) (by decide)
    41 (by decide) (by decide) (by decide) (sample_mem 166) rfl⟩

/-- C11: `call{,1..7}` with argument count `N` pops `N + 1` values, stores
them in `scratch_call_area[0..N]` and emits `Ffuncall (N + 1, ...)`.  The
code breaks this from `N = 4` on: `pop` and `comp_emit_callN` go through
the local array `args`, which has four entries.  On five constants followed
by `call4` (bytes `192 192 192 192 192 36 135`, `stack_depth = 5`) the
translation writes and reads `args[4]`, outside the array. -/
theorem C11_call4_overflows_args :
    ∃ c s0 out,
      prologue ⟨lisp64, [192, 192, 192, 192, 192, 36, 135], 5, 1⟩ (.fixnum 0) = .ok (c, s0) ∧
      s0.args.length = 4 ∧ args_overflow s0 = false ∧
      compile_f lisp64 [192, 192, 192, 192, 192, 36, 135] 5 1 (.fixnum 0) = .ok out ∧
      args_overflow out.final = true ∧ out.final.args.length = 5 ∧
      args_get out.final.args 4 = .local_ 4 :=
  ⟨_, _, _, rfl, rfl, rfl, rfl, rfl, rfl, rfl⟩

/-- C12: `listN` with operand `N` consumes `N` stack elements and emits `N`
calls of `Fcons`.  The code breaks this: `make_list` runs one `Fcons` and
then `op` more, and `BlistN` enters it with `op = N` where `Blist1..4` enter
it with `op = N - 1`.  The well-formed `constant 0; constant 0; listN 2;
return` (bytes `192 192 175 2 135`, `stack_depth = 2`) fails on the stack
assertion; with a third value on the stack (bytes `192 192 192 175 2 135`)
`listN 2` consumes three elements with three calls of `Fcons`. -/
theorem C12_listN_one_cons_too_many :
    compile_f lisp64 [192, 192, 175, 2, 135] 2 1 (.fixnum 0) = .error .eassert ∧
    ∃ out, compile_f lisp64 [192, 192, 192, 175, 2, 135] 3 1 (.fixnum 0) = .ok out ∧
      ((stmts_of out.final.ir 1).filter
        (fun st => match st with | .call _ "Fcons" _ _ => true | _ => false)).length = 3 ∧
      (stmts_of out.final.ir 1).getLast? =
        some (.assign (.local_ 0) (.fresh 6 .lisp_obj_type "res")) ∧
      terms_of out.final.ir 1 = [.ret (.local_ 0)] ∧ out.final.sp = 0 :=
  ⟨rfl, _, rfl, rfl, rfl, rfl, rfl⟩

/-- C13: each two-argument opcode pops two operands and emits a 2-argument
call.  The code breaks this for `memq`, whose case is
`CASE_CALL_NARGS (memq, 1)`: on `constant 0; constant 0; memq; return`
(bytes `192 192 62 135`, `stack_depth = 2`) one operand is popped, `Fmemq`
is declared and called with one argument, and the depth after `memq` is two
as before it (one value is left after `return`). -/
theorem C13_memq_pops_one :
    case_call_nargs.lookup Bmemq = some ("Fmemq", 1) ∧
    case_call_nargs.lookup Beq = some ("Feq", 2) ∧
    ∃ out, compile_f lisp64 [192, 192, 62, 135] 2 1 (.fixnum 0) = .ok out ∧
      (stmts_of out.final.ir 1).drop 5 =
        [.call (.fresh 3 .lisp_obj_type "res") "Fmemq" 1 [.local_ 1],
         .assign (.local_ 1) (.fresh 3 .lisp_obj_type "res")] ∧
      out.final.func_hash = [⟨"Fmemq", .lisp_obj_type, 1, true⟩] ∧
      terms_of out.final.ir 1 = [.ret (.local_ 1)] ∧ out.final.sp = 1 :=
  ⟨rfl, rfl, _, rfl, rfl, rfl, rfl, rfl⟩

/-- C19: no variadic call site stores beyond `scratch_call_area[15]`, or
the compilation is rejected.  The code breaks this: nothing compares an
argument count with `MAX_ARGS`.  On seventeen constants followed by
`concatN 17` (bytes `192` seventeen times, then `176 17 135`,
`stack_depth = 17`) `compile_f` succeeds and emits the store
`p[16] = local_16` into the scratch area of sixteen entries. -/
theorem C19_concatN_stores_beyond_scratch :
    ∃ out, compile_f lisp64
        [192, 192, 192, 192, 192, 192, 192, 192, 192, 192, 192, 192, 192, 192, 192, 192, 192,
         176, 17, 135] 17 1 (.fixnum 0) = .ok out ∧
      out.final.ir.any (Event.stores_scratch_at MAX_ARGS) = true ∧
      (out.final.ir.filter (Event.stores_scratch_at 16)) =
        [.stmt (some 1) (.assign
          (.index (.fresh 18 .lisp_obj_ptr_type "p") (.from_int .unsigned_type 16))
          (.local_ 16))] ∧
      (stmts_of out.final.ir 1).any
        (fun st => st = .call (.fresh 19 .lisp_obj_type "res") "Fconcat" 2
          [.from_int .ptrdiff_type 17, .scratch]) = true :=
  ⟨_, rfl, by decide, by decide, by decide⟩

/-- The `elsepop` conditional branches succeed whatever `bb_map` holds: with
a decodable operand and a non-empty stack within `stack_depth`, the opcode
appends the one conditional of the current block and lowers the depth by
one. -/
theorem exec_op_elsepop (I : Input) (s : St) (op : Nat) (cmp : Comparison) (rel : Bool)
    (t : Int) (pc' : Nat)
    (hop : (op, cmp, true, rel) ∈ cond_branches)
    (hd : decode_target I.bytestr rel s.pc = some (t, pc'))
    (ht : 0 ≤ t) (hpc : s.pc < 2147483647) (h0 : 0 < s.sp) (h1 : s.sp ≤ I.stack_depth) :
    ∃ s', exec_op I op s = .ok s' ∧ s'.pc = pc' ∧ s'.sp = s.sp - 1 ∧
      s'.ir = s.ir ++
        [.term s.gcc_bb (.conditional (.comparison cmp (TOS s) s.nil)
          (s.map_gcc_bb t.toNat) (s.map_gcc_bb pc'))] := by
  unfold decode_target at hd
  simp only [cond_branches, List.mem_cons, Prod.mk.injEq, List.mem_singleton,
    List.not_mem_nil, or_false, Bool.true_eq_false, false_and, and_false, false_or,
    true_and] at hop
  rcases hop with h | h | h | h <;> obtain ⟨rfl, rfl, rfl⟩ := h
  · simp only [Bool.false_eq_true, if_false] at hd
    split at hd <;> simp only [Option.some.injEq, Prod.mk.injEq, reduceCtorEq] at hd
    rename_i v hv
    obtain ⟨rfl, rfl⟩ := hd
    have e : exec_op I Bgotoifnilelsepop s =
        (fetch2 I s >>= fun x => do_gotoif_elsepop I .EQ x.1 x.2) := rfl
    rw [e]
    simp only [fetch2, hv, bind, Except.bind, pure, Except.pure, Int.toNat_ofNat]
    exact do_gotoif_elsepop_eq I { s with pc := s.pc + 2 } .EQ v h0 h1
  · simp only [Bool.false_eq_true, if_false] at hd
    split at hd <;> simp only [Option.some.injEq, Prod.mk.injEq, reduceCtorEq] at hd
    rename_i v hv
    obtain ⟨rfl, rfl⟩ := hd
    have e : exec_op I Bgotoifnonnilelsepop s =
        (fetch2 I s >>= fun x => do_gotoif_elsepop I .NE x.1 x.2) := rfl
    rw [e]
    simp only [fetch2, hv, bind, Except.bind, pure, Except.pure, Int.toNat_ofNat]
    exact do_gotoif_elsepop_eq I { s with pc := s.pc + 2 } .NE v h0 h1
  · simp only [if_true] at hd
    split at hd <;> simp only [Option.some.injEq, Prod.mk.injEq, reduceCtorEq] at hd
    rename_i v hv
    obtain ⟨rfl, rfl⟩ := hd
    have e : exec_op I BRgotoifnilelsepop s =
        (fetch_rel I s >>= fun x => do_gotoif_elsepop I .EQ x.1 x.2) := rfl
    rw [e]
    simp only [fetch_rel, fetch, hv, bind, Except.bind, pure, Except.pure]
    rw [rel_target_eq v (s.pc + 1) (FETCH_lt _ _ _ hv) (by omega) (by simpa using ht)]
    exact do_gotoif_elsepop_eq I { s with pc := s.pc + 1 } .EQ _ h0 h1
  · simp only [if_true] at hd
    split at hd <;> simp only [Option.some.injEq, Prod.mk.injEq, reduceCtorEq] at hd
    rename_i v hv
    obtain ⟨rfl, rfl⟩ := hd
    have e : exec_op I BRgotoifnonnilelsepop s =
        (fetch_rel I s >>= fun x => do_gotoif_elsepop I .NE x.1 x.2) := rfl
    rw [e]
    simp only [fetch_rel, fetch, hv, bind, Except.bind, pure, Except.pure]
    rw [rel_target_eq v (s.pc + 1) (FETCH_lt _ _ _ hv) (by omega) (by simpa using ht)]
    exact do_gotoif_elsepop_eq I { s with pc := s.pc + 1 } .NE _ h0 h1

/-- C14, counterexample: in the byte string `192 137 131 9 0 192 133 10 0
192 135` (`constant 0; dup; gotoifnil 9; constant 0; gotoifnilelsepop 10;
constant 0; return`, `stack_depth = 2`) the fall-through PC 9 of the
`gotoifnilelsepop` at PC 6 is the target of the `gotoifnil` at PC 2, and
`compile_f` does not fail: it produces the four blocks of the leaders
0, 5, 9, 10, the `gotoifnil` branching to block 3 (PC 9) and the
`gotoifnilelsepop` falling through to that same block. -/
theorem C14_counterexample_fallthrough_is_target :
    decode_target [192, 137, 131, 9, 0, 192, 133, 10, 0, 192, 135] false 3 = some (9, 5) ∧
    decode_target [192, 137, 131, 9, 0, 192, 133, 10, 0, 192, 135] false 7 = some (10, 9) ∧
    ∃ out, compile_f lisp64 [192, 137, 131, 9, 0, 192, 133, 10, 0, 192, 135] 2 1 (.fixnum 0)
        = .ok out ∧
      out.final.bb_map.map basic_block_t.gcc_bb =
        [some 1, some 1, some 1, some 1, some 1, some 2, some 2, some 2, some 2, some 3,
         some 4] ∧
      terms_of out.final.ir 1 = [.conditional
        (.comparison .EQ (.local_ 1) (.fresh 0 .lisp_obj_type "lisp_obj_from_ptr"))
        (some 3) (some 2)] ∧
      terms_of out.final.ir 2 = [.conditional
        (.comparison .EQ (.local_ 1) (.fresh 0 .lisp_obj_type "lisp_obj_from_ptr"))
        (some 4) (some 3)] ∧
      terms_of out.final.ir 3 = [.jump (some 4)] ∧
      terms_of out.final.ir 4 = [.ret (.local_ 1)] :=
  ⟨rfl, rfl, _, rfl, rfl, rfl, rfl, rfl, rfl⟩

/-- C14, amended: the translator has no check on the fall-through PC of a
`gotoifnilelsepop` or `gotoifnonnilelsepop` (or `R`-prefixed variant).  In
every translator state, whatever `bb_map` holds and so also when the
fall-through PC is the target of another branch, such an opcode with a
decodable operand, a target that is a PC, a PC below `INT_MAX` and a
non-empty stack within `stack_depth` is translated without error: it
appends the one conditional of the current block, whose else-edge is the block of the fall-through PC,
and the depth goes down by one. -/
theorem C14_elsepop_translated_without_check (I : Input) (s : St) (op : Nat)
    (cmp : Comparison) (rel : Bool) (t : Int) (pc' : Nat)
    (hop : (op, cmp, true, rel) ∈ cond_branches)
    (hd : decode_target I.bytestr rel s.pc = some (t, pc'))
    (ht : 0 ≤ t) (hpc : s.pc < 2147483647) (h0 : 0 < s.sp) (h1 : s.sp ≤ I.stack_depth) :
    ∃ s', exec_op I op s = .ok s' ∧ s'.pc = pc' ∧ s'.sp = s.sp - 1 ∧
      s'.ir = s.ir ++
        [.term s.gcc_bb (.conditional (.comparison cmp (TOS s) s.nil)
          (s.map_gcc_bb t.toNat) (s.map_gcc_bb pc'))] :=
  exec_op_elsepop I s op cmp rel t pc' hop hd ht hpc h0 h1

/-- C14, instance: the `gotoifnilelsepop 10` at PC 6 of `192 137 131 9 0
192 133 10 0 192 135`, in the state the translator has after fetching the
opcode; PC 9, its fall-through, is the target of the `gotoifnil` at PC 2. -/
theorem C14_elsepop_translated_without_check_witness :
    (Bgotoifnilelsepop, Comparison.EQ, true, false) ∈ cond_branches ∧
    decode_target [192, 137, 131, 9, 0, 192, 133, 10, 0, 192, 135] false 3 = some (9, 5) ∧
    decode_target [192, 137, 131, 9, 0, 192, 133, 10, 0, 192, 135] false 7 = some (10, 9) ∧
    ∃ s', exec_op ⟨lisp64, [192, 137, 131, 9, 0, 192, 133, 10, 0, 192, 135], 2, 1⟩
        Bgotoifnilelsepop
        { pc := 7, sp := 2, args := [.local_ 1, .uninit, .uninit, .uninit],
          bb_map := [⟨some 1, false⟩, ⟨some 1, false⟩, ⟨some 1, true⟩, ⟨some 1, false⟩,
            ⟨some 1, false⟩, ⟨some 2, false⟩, ⟨some 2, false⟩, ⟨some 2, false⟩,
            ⟨some 2, false⟩, ⟨some 3, false⟩, ⟨some 4, false⟩],
          bblock := some 6, func_hash := [], nblocks := 5, nlocals := 3,
          nil := .fresh 0 .lisp_obj_type "lisp_obj_from_ptr", ir := [] } = .ok s' ∧
      s'.pc = 9 ∧ s'.sp = 1 ∧
      s'.ir = [.term (some 2) (.conditional
        (.comparison .EQ (.local_ 1) (.fresh 0 .lisp_obj_type "lisp_obj_from_ptr"))
        (some 4) (some 3))] :=
  ⟨by decide, rfl, rfl,
   C14_elsepop_translated_without_check
    ⟨lisp64, [192, 137, 131, 9, 0, 192, 133, 10, 0, 192, 135], 2, 1⟩
    { pc := 7, sp := 2, args := [.local_ 1, .uninit, .uninit, .uninit],
      bb_map := [⟨some 1, false⟩, ⟨some 1, false⟩, ⟨some 1, true⟩, ⟨some 1, false⟩,
        ⟨some 1, false⟩, ⟨some 2, false⟩, ⟨some 2, false⟩, ⟨some 2, false⟩,
        ⟨some 2, false⟩, ⟨some 3, false⟩, ⟨some 4, false⟩],
      bblock := some 6, func_hash := [], nblocks := 5, nlocals := 3,
      nil := .fresh 0 .lisp_obj_type "lisp_obj_from_ptr", ir := [] }
    Bgotoifnilelsepop .EQ false 10 9 (by decide) rfl (by decide) (by decide) (by decide)
    (by decide)⟩

/-- C15, counterexample: for the bytecode `192 131 5 0 192 135 192 135`
(two constants, `stack_depth = 1`, template 0) `compute_bblocks` does not
yield the leaders 0, 3, 6 nor three blocks, and the `gotoifnil` does not
branch to the block that starts at PC 6: the leaders are 0, 4, 5, 6, there
are four blocks, and the then-edge of the conditional is block 3, the block
of PC 5, where PC 6 starts block 4. -/
theorem C15_counterexample_leaders_of_S3 :
    (∃ l, recorded_leaders [192, 131, 5, 0, 192, 135, 192, 135] = .ok l ∧
      sorted_leaders l ≠ [0, 3, 6] ∧ 3 ∉ sorted_leaders l ∧ 4 ∈ sorted_leaders l ∧
      5 ∈ sorted_leaders l) ∧
    (∃ bb_map nb, compute_bblocks [192, 131, 5, 0, 192, 135, 192, 135] 1 = .ok (bb_map, nb) ∧
      (bb_map.map basic_block_t.gcc_bb).dedup.length = 4 ∧
      bb_map.get? 3 = bb_map.get? 0) ∧
    ∃ out, compile_f lisp64 [192, 131, 5, 0, 192, 135, 192, 135] 1 2 (.fixnum 0) = .ok out ∧
      terms_of out.final.ir 1 = [.conditional
        (.comparison .EQ (.local_ 0) (.fresh 0 .lisp_obj_type "lisp_obj_from_ptr"))
        (some 3) (some 2)] ∧
      out.final.map_gcc_bb 6 = some 4 ∧ out.final.map_gcc_bb 5 = some 3 :=
  ⟨⟨_, rfl, by decide, by decide, by decide, by decide⟩,
   ⟨_, _, rfl, by decide, by decide⟩, _, rfl, rfl, rfl, rfl⟩

/-- C15, amended: for the bytecode `192 131 5 0 192 135 192 135`
(`constant 0; gotoifnil 5; constant 0; return; constant 0; return`) with
two constants, `stack_depth = 1` and template 0, `compute_bblocks` records
the leaders 0, 5, 4, 6, that is the leader set 0, 4, 5, 6, and makes four
bytecode blocks, which start at PCs 0, 4, 5 and 6; the conditional that
ends block 1 has the block of PC 5 (the operand of `gotoifnil`) as its
then-edge and the block of PC 4 (the fall-through) as its else-edge. -/
theorem C15_leaders_of_S3 :
    recorded_leaders [192, 131, 5, 0, 192, 135, 192, 135] = .ok [0, 5, 4, 6] ∧
    sorted_leaders [0, 5, 4, 6] = [0, 4, 5, 6] ∧
    compute_bblocks [192, 131, 5, 0, 192, 135, 192, 135] 1 =
      .ok ([⟨some 1, false⟩, ⟨some 1, false⟩, ⟨some 1, false⟩, ⟨some 1, false⟩,
        ⟨some 2, false⟩, ⟨some 3, false⟩, ⟨some 4, false⟩, ⟨some 4, false⟩], 5) ∧
    decode_target [192, 131, 5, 0, 192, 135, 192, 135] false 2 = some (5, 4) ∧
    ∃ out, compile_f lisp64 [192, 131, 5, 0, 192, 135, 192, 135] 1 2 (.fixnum 0) = .ok out ∧
      terms_of out.final.ir 1 = [.conditional
        (.comparison .EQ (.local_ 0) (.fresh 0 .lisp_obj_type "lisp_obj_from_ptr"))
        (out.final.map_gcc_bb 5) (out.final.map_gcc_bb 4)] ∧
      out.final.map_gcc_bb 4 = some 2 ∧ out.final.map_gcc_bb 5 = some 3 ∧
      out.final.map_gcc_bb 6 = some 4 ∧
      terms_of out.final.ir 2 = [.jump (some 3)] ∧
      terms_of out.final.ir 3 = [.ret (.local_ 0)] ∧
      terms_of out.final.ir 4 = [.ret (.local_ 0)] :=
  ⟨rfl, rfl, rfl, rfl, _, rfl, rfl, rfl, rfl, rfl, rfl, rfl, rfl⟩

/-- The template `0` decodes to no parameters, whatever `SUBR_MAX_ARGS`. -/
theorem decode_template_zero (L : Lisp) : decode_template L (.fixnum 0) = .ok ⟨0, 0⟩ := by
  unfold decode_template
  by_cases h : (0 : Int) >>> (8 : Nat) < L.SUBR_MAX_ARGS <;> simp [h, to_short]

/-- C16: for every `stack_depth >= 1` and every constant vector with at
least one entry, `constant 0; return` (bytes `192 135`) with template 0
translates to a function of no parameters; the only leader is PC 0 and both
PCs map to block 1; the prologue only jumps to that block; the block
materialises `nil` and entry 0 of the constant vector, assigns the latter to
`local_0` and ends with the return of `local_0`; the depth of the abstract
stack is 0 at entry, 1 after `constant 0` and 0 after `return`. -/
theorem C16_constant_return_one_block (L : Lisp) (stack_depth : Int) (vector_size : Nat)
    (hd : 1 ≤ stack_depth) (hv : 1 ≤ vector_size) :
    recorded_leaders [192, 135] = .ok [0] ∧ sorted_leaders [0] = [0] ∧
    prologue ⟨L, [192, 135], stack_depth, vector_size⟩ (.fixnum 0) =
      .ok (⟨0, 0⟩, const_return_entry) ∧
    step ⟨L, [192, 135], stack_depth, vector_size⟩ const_return_entry =
      .ok const_return_pushed ∧
    step ⟨L, [192, 135], stack_depth, vector_size⟩ const_return_pushed =
      .ok const_return_done ∧
    compile_f L [192, 135] stack_depth vector_size (.fixnum 0) =
      .ok ⟨⟨0, 0⟩, const_return_done⟩ ∧
    (const_return_entry.sp, const_return_pushed.sp, const_return_done.sp) = (0, 1, 0) ∧
    const_return_done.bb_map.map basic_block_t.gcc_bb = [some 1, some 1] ∧
    const_return_done.ir.filter (Event.is_stmt_of 0) = [] ∧
    terms_of const_return_done.ir 0 = [.jump (some 1)] ∧
    (∃ i, i < vector_size ∧ stmts_of const_return_done.ir 1 =
      [.assign (.field (.fresh 0 .lisp_obj_type "lisp_obj_from_ptr") .lisp_obj_as_ptr)
        (.from_ptr .Qnil),
       .assign (.field (.fresh 1 .lisp_obj_type "lisp_obj_from_ptr") .lisp_obj_as_ptr)
        (.from_ptr (.vectorp i)),
       .assign (.local_ 0) (.fresh 1 .lisp_obj_type "lisp_obj_from_ptr")]) ∧
    terms_of const_return_done.ir 1 = [.ret (.local_ 0)] := by
  have hp : prologue ⟨L, [192, 135], stack_depth, vector_size⟩ (.fixnum 0) =
      .ok (⟨0, 0⟩, const_return_entry) := by
    simp only [prologue, decode_template_zero]
    rfl
  have h1 : step ⟨L, [192, 135], stack_depth, vector_size⟩ const_return_entry =
      .ok const_return_pushed := by
    have e : step ⟨L, [192, 135], stack_depth, vector_size⟩ const_return_entry =
        exec_op ⟨L, [192, 135], stack_depth, vector_size⟩ 192
          { const_return_entry with pc := 1, bblock := some 0 } := rfl
    have e2 : ∀ s, exec_op ⟨L, [192, 135], stack_depth, vector_size⟩ 192 s =
        if 192 < Bconstant ∨ 192 > Bconstant + vector_size then
          .error (.error "Something went wrong")
        else do_constant ⟨L, [192, 135], stack_depth, vector_size⟩ (192 - Bconstant) s :=
      fun _ => rfl
    rw [e, e2]
    have hc : ¬ (192 < Bconstant ∨ 192 > Bconstant + vector_size) := by
      simp [Bconstant]
    rw [if_neg hc]
    have hs : (0 : Int) ≤ 0 ∧ (0 : Int) < stack_depth := by omega
    simp [do_constant, Bconstant, Bswitch, comp_lisp_obj_as_ptr_from_ptr, new_local,
      add_assignment, St.emit, PUSH_RVAL, PUSH_LVAL, CHECK_STACK, const_return_entry,
      const_return_pushed, St.gcc_bb, St.map_gcc_bb, hs, bind, Except.bind, pure, Except.pure]
    decide
  have h2 : step ⟨L, [192, 135], stack_depth, vector_size⟩ const_return_pushed =
      .ok const_return_done := by
    have e : step ⟨L, [192, 135], stack_depth, vector_size⟩ const_return_pushed =
        (POP1 ⟨L, [192, 135], stack_depth, vector_size⟩
          { const_return_pushed with pc := 2, bblock := some 1 } >>= fun s =>
          pure (s.emit (.term s.gcc_bb (.ret (args_get s.args 0)))).set_terminated) := rfl
    rw [e, POP1_eq _ _ (by decide) (by simpa [const_return_pushed] using hd)]
    rfl
  refine ⟨rfl, rfl, hp, h1, h2, ?_, rfl, rfl, rfl, rfl, ⟨0, by omega, rfl⟩, rfl⟩
  simp only [compile_f, hp, translate, bind, Except.bind, pure, Except.pure]
  simp [const_return_entry, const_return_pushed, const_return_done] at h1 h2 ⊢
  simp [h1, h2]

/-- C16, instance: one constant, `stack_depth = 1` (scenario S1). -/
theorem C16_constant_return_one_block_witness :
    (1 : Int) ≤ 1 ∧ 1 ≤ 1 ∧
    compile_f lisp64 [192, 135] 1 1 (.fixnum 0) = .ok ⟨⟨0, 0⟩, const_return_done⟩ ∧
    terms_of const_return_done.ir 1 = [.ret (.local_ 0)] :=
  ⟨by decide, by decide,
   (C16_constant_return_one_block lisp64 1 1 (by decide) (by decide)).2.2.2.2.2.1,
   (C16_constant_return_one_block lisp64 1 1 (by decide) (by decide)).2.2.2.2.2.2.2.2.2.2.2⟩

/-- The head of the loop body leaves `pc` alone. -/
theorem loop_head_pc (s : St) : (loop_head s).pc = s.pc := by
  unfold loop_head
  split
  · split
    · simp [end_with_jump, set_terminated_pc, St.emit]
    · rfl
  · rfl

/-- A value within the range of a `short` is stored unchanged. -/
theorem to_short_eq (v : Int) (h0 : -32768 ≤ v) (h1 : v < 32768) : to_short v = v := by
  unfold to_short
  omega

/-- The arity the prologue of `compile_f` hands on is the one decoded from
the template. -/
theorem prologue_res (I : Input) (t : Template) (c : comp_f_res_t) (s : St)
    (h : prologue I t = .ok (c, s)) : decode_template I.L t = .ok c := by
  unfold prologue at h
  simp only [bind, Except.bind, pure, Except.pure] at h
  cases hd : decode_template I.L t with
  | error e => simp [hd] at h
  | ok r =>
    simp only [hd] at h
    by_cases hm : r.max_args < 0 ∨ r.max_args > 4
    · simp [hm, throw, throwThe, MonadExceptOf.throw] at h
    · simp only [hm, if_false] at h
      cases hb : compute_bblocks I.bytestr 1 with
      | error e => simp [hb] at h
      | ok v =>
        simp only [hb] at h
        split at h
        · cases h
        · injection h with h
          injection h with h1 h2
          rw [h1]

/-- The arity `compile_f` returns is the one decoded from the template. -/
theorem compile_f_res (L : Lisp) (bytestr : Bytes) (stack_depth : Int) (vector_size : Nat)
    (t : Template) (out : Output)
    (h : compile_f L bytestr stack_depth vector_size t = .ok out) :
    decode_template L t = .ok out.res := by
  unfold compile_f at h
  simp only [bind, Except.bind, pure, Except.pure] at h
  cases hp : prologue ⟨L, bytestr, stack_depth, vector_size⟩ t with
  | error e => simp [hp] at h
  | ok r =>
    obtain ⟨c, s⟩ := r
    simp only [hp] at h
    split at h
    · cases h
    · injection h with h
      subst h
      exact prologue_res ⟨L, bytestr, stack_depth, vector_size⟩ t c s hp

/-- C18: for every fixnum arity template with bit 7 clear and
`at >> 8 < SUBR_MAX_ARGS`, `compile_f` decodes `min_args = at & 127` and
`max_args = at >> 8`, and for the template `nil` it decodes `(0, 0)`; a
`compile_f` that returns hands back that pair.  The fields are `short`:
the template is taken not below `-2^23` (so every non-negative template is
covered) and `SUBR_MAX_ARGS` within the range of a `short`. -/
theorem C18_arity_decode (L : Lisp) (templ : Int)
    (hlo : -8388608 ≤ templ) (hbit : (templ >>> (7 : Nat)) % 2 = 0)
    (hmax : templ >>> (8 : Nat) < L.SUBR_MAX_ARGS) (hsub : L.SUBR_MAX_ARGS ≤ 32768) :
    decode_template L (.fixnum templ) = .ok ⟨templ % 128, templ >>> (8 : Nat)⟩ ∧
    decode_template L .nil = .ok ⟨0, 0⟩ ∧
    (∀ bytestr stack_depth vector_size out,
      compile_f L bytestr stack_depth vector_size (.fixnum templ) = .ok out →
      out.res = ⟨templ % 128, templ >>> (8 : Nat)⟩) ∧
    (∀ bytestr stack_depth vector_size out,
      compile_f L bytestr stack_depth vector_size .nil = .ok out → out.res = ⟨0, 0⟩) := by
  have hd : decode_template L (.fixnum templ) = .ok ⟨templ % 128, templ >>> (8 : Nat)⟩ := by
    have h8 : -32768 ≤ templ >>> (8 : Nat) := by
      rw [Int.shiftRight_eq_div_pow]
      norm_num
      omega
    unfold decode_template
    simp only [hbit, ne_eq, not_true_eq_false, decide_False, Bool.false_eq_true, if_false,
      hmax, if_true]
    rw [to_short_eq _ (by omega) (by omega), to_short_eq _ h8 (by omega)]
  refine ⟨hd, rfl, ?_, ?_⟩
  · intro bytestr stack_depth vector_size out h
    have h2 := compile_f_res L bytestr stack_depth vector_size _ out h
    rw [hd] at h2
    injection h2 with h2
    exact h2.symm
  · intro bytestr stack_depth vector_size out h
    have h2 := compile_f_res L bytestr stack_depth vector_size _ out h
    have h3 : decode_template L .nil = .ok ⟨0, 0⟩ := rfl
    rw [h3] at h2
    injection h2 with h2
    exact h2.symm

/-- C18, instance: the template `2 | (3 << 8) = 770` of scenario S5 decodes
to `(2, 3)`, and `compile_f` returns that pair for `constant 0; return`. -/
theorem C18_arity_decode_witness :
    (2 ||| (3 <<< 8) : Nat) = 770 ∧
    decode_template lisp64 (.fixnum 770) = .ok ⟨2, 3⟩ ∧
    (compile_f lisp64 [192, 135] 4 1 (.fixnum 770)).map Output.res = .ok ⟨2, 3⟩ :=
  ⟨by decide,
   (C18_arity_decode lisp64 770 (by decide) (by decide) (by decide) (by decide)).1,
   rfl⟩

/-- The string of a name without a NUL byte is the whole name. -/
theorem c_string_eq (s : List (Fin 256)) (hnul : (0 : Fin 256) ∉ s) : c_string s = s := by
  unfold c_string
  rw [List.takeWhile_eq_self_iff]
  intro x hx
  simp only [ne_eq, decide_eq_true_eq]
  rintro rfl
  exact hnul hx

/-- The body of the loop `while (*c)` never leaves a `-` or a `+`. -/
theorem mangle_byte_ne (b : Fin 256) : mangle_byte b ≠ 45 ∧ mangle_byte b ≠ 43 := by
  unfold mangle_byte
  split
  · exact ⟨by decide, by decide⟩
  · rename_i h
    push_neg at h
    exact h

/-- The loop `while (*c)` leaves the bytes of `"Fnative_comp_"` alone. -/
theorem name_head_mangled : name_head.map mangle_byte = name_head := by decide

/-- `"Fnative_comp_"` has thirteen bytes. -/
theorem name_head_length : name_head.length = 13 := rfl

/-- C20, counterexample: the symbol name `a\0b` (bytes `97 0 98`) is
accepted, and the C-level name is `Fnative_comp_a`, of length 14 and not
`13 + 3`: `%s` stops at the NUL byte of the name. -/
theorem C20_counterexample_name_with_nul :
    c_function_name [97, 0, 98] = .ok (name_head ++ [97]) ∧
    (name_head ++ [97]).length = 14 ∧
    (name_head ++ [97]).length ≠ 13 + ([97, 0, 98] : List (Fin 256)).length ∧
    name_head ++ [97] ≠ name_head ++ ([97, 0, 98] : List (Fin 256)).map mangle_byte :=
  ⟨rfl, rfl, by decide, by decide⟩

/-- C20, amended: for every Lisp symbol name `s` without a NUL byte, the
name is accepted when `13 + |s| < 256`, and the C-level name of an accepted
name is `"Fnative_comp_"` followed by `s` with every `-` and every `+`
replaced by `_` and every other byte unchanged; it has length `13 + |s|`
and contains neither `-` nor `+`. -/
theorem C20_c_function_name (s : List (Fin 256)) (hnul : (0 : Fin 256) ∉ s) :
    (13 + s.length < MAX_FUN_NAME →
      c_function_name s = .ok (name_head ++ s.map mangle_byte)) ∧
    (∀ c, c_function_name s = .ok c →
      c = name_head ++ s.map mangle_byte ∧ c.length = 13 + s.length ∧
      (45 : Fin 256) ∉ c ∧ (43 : Fin 256) ∉ c) ∧
    mangle_byte 45 = 95 ∧ mangle_byte 43 = 95 ∧
    ∀ b : Fin 256, b ≠ 45 → b ≠ 43 → mangle_byte b = b := by
  have hlen : (name_head ++ s).length = 13 + s.length := by
    rw [List.length_append, name_head_length]
  have hok : 13 + s.length < MAX_FUN_NAME →
      c_function_name s = .ok (name_head ++ s.map mangle_byte) := by
    intro h
    unfold c_function_name snprintf_c_f_name
    rw [c_string_eq s hnul]
    simp only [hlen, ge_iff_le, not_le.2 h, if_false]
    rw [List.take_of_length_le (by rw [hlen]; unfold MAX_FUN_NAME at h ⊢; omega),
      List.map_append, name_head_mangled]
  refine ⟨hok, ?_, rfl, rfl, ?_⟩
  · intro c hc
    have hacc : 13 + s.length < MAX_FUN_NAME := by
      by_contra hn
      unfold c_function_name snprintf_c_f_name at hc
      rw [c_string_eq s hnul] at hc
      simp only [hlen, ge_iff_le, not_lt.1 hn, if_true] at hc
      cases hc
    rw [hok hacc] at hc
    injection hc with hc
    subst hc
    refine ⟨rfl, by rw [List.length_append, name_head_length, List.length_map], ?_, ?_⟩
    · intro hm
      rcases List.mem_append.1 hm with hm | hm
      · revert hm
        decide
      · obtain ⟨b, _, hb⟩ := List.mem_map.1 hm
        exact (mangle_byte_ne b).1 hb
    · intro hm
      rcases List.mem_append.1 hm with hm | hm
      · revert hm
        decide
      · obtain ⟨b, _, hb⟩ := List.mem_map.1 hm
        exact (mangle_byte_ne b).2 hb
  · intro b h1 h2
    simp [mangle_byte, h1, h2]

/-- C20, instance: the name `a-+b` (bytes `97 45 43 98`) gives
`Fnative_comp_a__b`. -/
theorem C20_c_function_name_witness :
    (0 : Fin 256) ∉ ([97, 45, 43, 98] : List (Fin 256)) ∧
    c_function_name [97, 45, 43, 98] = .ok (name_head ++ [97, 95, 95, 98]) :=
  ⟨by decide, (C20_c_function_name [97, 45, 43, 98] (by decide)).1 (by decide)⟩

/-- The value `snprintf` returns for a name is thirteen plus the length of
its C string. -/
theorem snprintf_c_f_name_fst (s : List (Fin 256)) :
    (snprintf_c_f_name s).1 = 13 + (c_string s).length := by
  unfold snprintf_c_f_name
  rw [List.length_append, name_head_length]

/-- C21, counterexample: the name made of 243 times the byte `a` has at most
256 bytes and is rejected with the error "Function name too long". -/
theorem C21_counterexample_name_of_243_bytes :
    (List.replicate 243 (97 : Fin 256)).length ≤ 256 ∧
    c_function_name (List.replicate 243 97) = .error (.error "Function name too long") :=
  ⟨by decide, rfl⟩

/-- C21, amended: `native-compile` rejects a symbol name with the error
"Function name too long" if and only if thirteen plus the length of the
name, taken up to its first NUL byte, is at least `MAX_FUN_NAME = 256`, that
is if and only if that length is 243 or more; every other name passes the
length check.  For a name without a NUL byte the length is that of the
name. -/
theorem C21_name_too_long_iff (s : List (Fin 256)) :
    (c_function_name s = .error (.error "Function name too long") ↔
      243 ≤ (c_string s).length) ∧
    ((c_string s).length ≤ 242 ↔ ∃ c, c_function_name s = .ok c) ∧
    ((0 : Fin 256) ∉ s →
      (c_function_name s = .error (.error "Function name too long") ↔ 243 ≤ s.length)) := by
  have key : c_function_name s = .error (.error "Function name too long") ↔
      243 ≤ (c_string s).length := by
    unfold c_function_name
    rw [snprintf_c_f_name_fst]
    unfold MAX_FUN_NAME
    by_cases h : 13 + (c_string s).length ≥ 256
    · simp only [h, if_true, true_iff]
      omega
    · simp only [h, if_false, reduceCtorEq, false_iff]
      omega
  refine ⟨key, ?_, ?_⟩
  · constructor
    · intro h
      unfold c_function_name
      rw [snprintf_c_f_name_fst]
      unfold MAX_FUN_NAME
      rw [if_neg (by omega)]
      exact ⟨_, rfl⟩
    · rintro ⟨c, hc⟩
      by_contra hn
      rw [key.2 (by omega)] at hc
      cases hc
  · intro hnul
    rw [key, c_string_eq s hnul]

/-- C22: on every exit path of `emacs_native_compile` the timer signals
blocked on entry are unblocked again.  The code breaks this on every error
path: `unblock_atimers` is the last statement of the function and an
`error` raised by `compile_f` leaves the function before it.  On `constant
0; pophandler; return` (bytes `192 48 135`, unsupported opcode) and on the
byte string `0` ("Something went wrong") the compilation started with the
timer signals unblocked ends with them blocked; in general the mask is the
one on entry after a normal return and blocked after an error. -/
theorem C22_timers_stay_blocked_on_error :
    emacs_native_compile lisp64 ⟨false, []⟩ [97] ⟨[192, 48, 135], 1, 1, .fixnum 0⟩ true =
      (⟨true, []⟩, .error (.error "Bpophandler unsupported bytecode\n")) ∧
    emacs_native_compile lisp64 ⟨false, []⟩ [97] ⟨[0], 1, 1, .fixnum 0⟩ true =
      (⟨true, []⟩, .error (.error "Something went wrong")) ∧
    emacs_native_compile lisp64 ⟨false, []⟩ [97] ⟨[192, 135], 0, 1, .fixnum 0⟩ true =
      (⟨false, [⟨[97], 0, 0⟩]⟩, .ok ()) ∧
    ∀ (L : Lisp) (h : Host) (name : List (Fin 256)) (func : CompiledFunction) (ok : Bool),
      ((emacs_native_compile L h name func ok).2 = .ok () →
        (emacs_native_compile L h name func ok).1.timers_blocked = h.timers_blocked) ∧
      (∀ e, (emacs_native_compile L h name func ok).2 = .error e →
        (emacs_native_compile L h name func ok).1.timers_blocked = true) := by
  refine ⟨rfl, rfl, rfl, ?_⟩
  intro L h name func ok
  unfold emacs_native_compile
  cases compile_f L func.bytecode (↑func.maxdepth + 1) func.constants func.arglist with
  | error e => simp
  | ok r => cases ok <;> simp

/-- C26: on a byte string the translator accepts, the main loop of
`compile_f` and the scan of `compute_bblocks` visit the same opcode
positions.  The code breaks this for `constant2` and for `switch` after a
constant.  On `129 135 192 135` (49288 constants) the scan takes `constant2`
for a two-byte opcode and visits PCs 0, 2, 3, while the translator reads no
operand and visits PCs 0, 1, 2, 3.  On `192 192 183 135` the scan visits PCs
0, 1, 2, 3 and the translator, which skips the `switch` byte in the case of
the constant before it, visits PCs 0, 1, 3.  Both translations succeed. -/
theorem C26_translator_and_scan_disagree :
    (∃ c s0 out,
      prologue ⟨lisp64, [129, 135, 192, 135], 1, 49288⟩ (.fixnum 0) = .ok (c, s0) ∧
      compile_f lisp64 [129, 135, 192, 135] 1 49288 (.fixnum 0) = .ok out ∧
      translate_pcs ⟨lisp64, [129, 135, 192, 135], 1, 49288⟩ 4 s0 = [0, 1, 2, 3] ∧
      scan_pcs [129, 135, 192, 135] 4 0 = [0, 2, 3]) ∧
    ∃ c s0 out,
      prologue ⟨lisp64, [192, 192, 183, 135], 2, 1⟩ (.fixnum 0) = .ok (c, s0) ∧
      compile_f lisp64 [192, 192, 183, 135] 2 1 (.fixnum 0) = .ok out ∧
      translate_pcs ⟨lisp64, [192, 192, 183, 135], 2, 1⟩ 4 s0 = [0, 1, 3] ∧
      scan_pcs [192, 192, 183, 135] 4 0 = [0, 1, 2, 3] :=
  ⟨⟨_, _, _, rfl, rfl, rfl, rfl⟩, _, _, _, rfl, rfl, rfl, rfl⟩

/-- The `default` case of the `switch` of `compile_f` for the bytes from 192
on. -/
theorem exec_op_constant (I : Input) (s : St) (op : Nat) (h1 : 192 ≤ op) (h2 : op ≤ 255) :
    exec_op I op s =
      if op < Bconstant ∨ op > Bconstant + I.vector_size then
        .error (.error "Something went wrong")
      else do_constant I (op - Bconstant) s := by
  interval_cases op <;> rfl

/-- C30: a constant opcode is translated only when its index `op - 192` is
below `vector_size`.  The code breaks this for the index `vector_size`
itself: the test is `op > Bconstant + vector_size`.  On `193 135` with a
constant vector of one entry (and on `192 135` with an empty one)
`compile_f` succeeds and materialises `vectorp[1]` (`vectorp[0]`), the
entry after the end of the vector; the first index that fails is
`vector_size + 1` (bytes `194 135`).  In general the opcode byte
`192 + vector_size` enters `do_constant` with the index `vector_size`. -/
theorem C30_constant_index_off_by_one :
    (∃ out, compile_f lisp64 [193, 135] 1 1 (.fixnum 0) = .ok out ∧
      (stmts_of out.final.ir 1).any (fun st => st =
        .assign (.field (.fresh 1 .lisp_obj_type "lisp_obj_from_ptr") .lisp_obj_as_ptr)
          (.from_ptr (.vectorp 1))) = true) ∧
    (∃ out, compile_f lisp64 [192, 135] 1 0 (.fixnum 0) = .ok out ∧
      (stmts_of out.final.ir 1).any (fun st => st =
        .assign (.field (.fresh 1 .lisp_obj_type "lisp_obj_from_ptr") .lisp_obj_as_ptr)
          (.from_ptr (.vectorp 0))) = true) ∧
    compile_f lisp64 [194, 135] 1 1 (.fixnum 0) = .error (.error "Something went wrong") ∧
    ∀ (I : Input) (s : St) (op : Nat), 192 ≤ op → op ≤ 255 →
      (op - Bconstant = I.vector_size → exec_op I op s = do_constant I I.vector_size s) ∧
      (exec_op I op s = .error (.error "Something went wrong") →
        I.vector_size + 1 ≤ op - Bconstant ∨
        do_constant I (op - Bconstant) s = .error (.error "Something went wrong")) := by
  refine ⟨⟨_, rfl, by decide⟩, ⟨_, rfl, by decide⟩, rfl, ?_⟩
  intro I s op h1 h2
  rw [exec_op_constant I s op h1 h2]
  unfold Bconstant
  constructor
  · intro h
    rw [if_neg (by omega), h]
  · intro h
    by_cases hc : op < 192 ∨ op > 192 + I.vector_size
    · left
      omega
    · right
      rw [if_neg hc] at h
      exact h

/-- C25: at the head of the loop body, before the opcode at PC `p` is
fetched: when there is a current block, its backend block differs from the
one of `bb_map[p]` and it is not marked terminated, one unconditional jump to
the block of `bb_map[p]` is appended to it and its entry is marked
terminated; in every other case nothing is emitted and `bb_map` is left as
it is; afterwards the current block is `bb_map[p]`, and `pc` and the stack
depth are unchanged. -/
theorem C25_loop_head_fall_through (s : St) :
    (loop_head s).bblock = some s.pc ∧
    (loop_head s).gcc_bb = (loop_head s).map_gcc_bb s.pc ∧
    (loop_head s).pc = s.pc ∧ (loop_head s).sp = s.sp ∧
    (∀ i b, s.bblock = some i → s.bb_map.get? i = some b →
      b.gcc_bb ≠ s.map_gcc_bb s.pc → b.terminated = false →
      (loop_head s).ir = s.ir ++ [.term b.gcc_bb (.jump (s.map_gcc_bb s.pc))] ∧
      (loop_head s).bb_map = s.bb_map.set i { b with terminated := true }) ∧
    ((¬ ∃ i b, s.bblock = some i ∧ s.bb_map.get? i = some b ∧
        b.gcc_bb ≠ s.map_gcc_bb s.pc ∧ b.terminated = false) →
      (loop_head s).ir = s.ir ∧ (loop_head s).bb_map = s.bb_map) := by
  have hbb : (loop_head s).bblock = some s.pc := by
    unfold loop_head
    split
    · split
      · simp [end_with_jump, set_terminated_pc, St.emit]
      · rfl
    · rfl
  refine ⟨hbb, ?_, loop_head_pc s, ?_, ?_, ?_⟩
  · simp only [St.gcc_bb, hbb]
  · unfold loop_head
    split
    · split
      · simp [end_with_jump, set_terminated_sp, St.emit]
      · rfl
    · rfl
  · intro i b hb he hg ht
    have he2 : s.bb_map[i]? = some b := by simpa using he
    have hm : s.map_gcc_bb i = b.gcc_bb := by simp [St.map_gcc_bb, he2]
    have hc : s.map_gcc_bb i ≠ s.map_gcc_bb s.pc ∧
        s.entry.map basic_block_t.terminated = some false := by
      simp [hm, hg, St.entry, hb, he2, ht]
    simp only [loop_head, hb, hc, and_self, if_true]
    simp [end_with_jump, St.emit, St.set_terminated, St.gcc_bb, hb, he2, hm, hg]
  · intro hn
    unfold loop_head
    cases hb : s.bblock with
    | none => exact ⟨rfl, rfl⟩
    | some i =>
      simp only []
      cases he : s.bb_map.get? i with
      | none =>
        have he2 : s.bb_map[i]? = none := by simpa using he
        have hc : ¬ (s.map_gcc_bb i ≠ s.map_gcc_bb s.pc ∧
            s.entry.map basic_block_t.terminated = some false) := by
          simp [St.entry, hb, he2]
        rw [if_neg hc]
        exact ⟨rfl, rfl⟩
      | some b =>
        have he2 : s.bb_map[i]? = some b := by simpa using he
        have hm : s.map_gcc_bb i = b.gcc_bb := by simp [St.map_gcc_bb, he2]
        have hc : ¬ (s.map_gcc_bb i ≠ s.map_gcc_bb s.pc ∧
            s.entry.map basic_block_t.terminated = some false) := by
          rintro ⟨h1, h2⟩
          apply hn
          refine ⟨i, b, hb, he, by rwa [hm] at h1, ?_⟩
          simpa [St.entry, hb, he2] using h2
        rw [if_neg hc]
        exact ⟨rfl, rfl⟩

/-- C25, instance: in the translation of `192 131 5 0 192 135 192 135`, at
the head of the iteration for PC 5 the current block is the one of PC 4
(block 2), not terminated, and PC 5 starts block 3: the jump to block 3 is
appended to block 2. -/
theorem C25_loop_head_fall_through_witness :
    (loop_head
      { pc := 5, sp := 1, args := [.local_ 0, .uninit, .uninit, .uninit],
        bb_map := [⟨some 1, false⟩, ⟨some 1, true⟩, ⟨some 1, false⟩, ⟨some 1, false⟩,
          ⟨some 2, false⟩, ⟨some 3, false⟩, ⟨some 4, false⟩, ⟨some 4, false⟩],
        bblock := some 4, func_hash := [], nblocks := 5, nlocals := 3,
        nil := .fresh 0 .lisp_obj_type "lisp_obj_from_ptr", ir := [] }).ir =
      [.term (some 2) (.jump (some 3))] ∧
    (loop_head
      { pc := 5, sp := 1, args := [.local_ 0, .uninit, .uninit, .uninit],
        bb_map := [⟨some 1, false⟩, ⟨some 1, true⟩, ⟨some 1, false⟩, ⟨some 1, false⟩,
          ⟨some 2, false⟩, ⟨some 3, false⟩, ⟨some 4, false⟩, ⟨some 4, false⟩],
        bblock := some 4, func_hash := [], nblocks := 5, nlocals := 3,
        nil := .fresh 0 .lisp_obj_type "lisp_obj_from_ptr", ir := [] }).bb_map =
      [⟨some 1, false⟩, ⟨some 1, true⟩, ⟨some 1, false⟩, ⟨some 1, false⟩,
        ⟨some 2, true⟩, ⟨some 3, false⟩, ⟨some 4, false⟩, ⟨some 4, false⟩] :=
  (C25_loop_head_fall_through
    { pc := 5, sp := 1, args := [.local_ 0, .uninit, .uninit, .uninit],
      bb_map := [⟨some 1, false⟩, ⟨some 1, true⟩, ⟨some 1, false⟩, ⟨some 1, false⟩,
        ⟨some 2, false⟩, ⟨some 3, false⟩, ⟨some 4, false⟩, ⟨some 4, false⟩],
      bblock := some 4, func_hash := [], nblocks := 5, nlocals := 3,
      nil := .fresh 0 .lisp_obj_type "lisp_obj_from_ptr", ir := [] }).2.2.2.2.1
    4 ⟨some 2, false⟩ rfl rfl (by decide) rfl

/-- `PUSH_LVAL` with room on the stack: one assignment to the slot at the
stack pointer, which then moves up. -/
theorem PUSH_LVAL_eq (I : Input) (obj : RVal) (s : St)
    (h0 : 0 ≤ s.sp) (h1 : s.sp < I.stack_depth) :
    PUSH_LVAL I obj s =
      .ok { s with sp := s.sp + 1,
                   ir := s.ir ++ [.stmt s.gcc_bb (.assign (.local_ s.sp) obj)] } := by
  simp [PUSH_LVAL, CHECK_STACK, h0, h1, add_assignment, St.emit, bind, Except.bind, pure,
    Except.pure]

/-- C29: in a state with a non-empty abstract stack within `stack_depth`:
every `stack_ref` opcode with decoded depth `N < sp` (`N = 1..5` from the
opcode, one operand byte for `stack_ref6`, two little-endian bytes for
`stack_ref7`), translated with room for one more slot, assigns to slot `sp`
the slot `sp - 1 - N` and raises the depth to `sp + 1`; `dup` does the same
with `N = 0`; `discard` lowers the depth by one and emits nothing.  The
translation of `constant 0; dup; discard; return` (bytes `192 137 136 135`,
`stack_depth = 2`) has the depths 0, 1, 2, 1, 0 and a single block. -/
theorem C29_stack_ref_dup_discard (I : Input) (s : St)
    (h0 : 0 < s.sp) (h1 : s.sp ≤ I.stack_depth) :
    (∀ op N pc', Bstack_ref1 ≤ op → op ≤ Bstack_ref7 →
      decode_operand I Bstack_ref op s.pc = some (N, pc') →
      (N : Int) < s.sp → s.sp < I.stack_depth →
      ∃ s', exec_op I op s = .ok s' ∧ s'.pc = pc' ∧ s'.sp = s.sp + 1 ∧
        s'.ir = s.ir ++ [.stmt s.gcc_bb (.assign (.local_ s.sp) (.local_ (s.sp - 1 - N)))]) ∧
    (s.sp < I.stack_depth →
      ∃ s', exec_op I Bdup s = .ok s' ∧ s'.pc = s.pc ∧ s'.sp = s.sp + 1 ∧
        s'.ir = s.ir ++ [.stmt s.gcc_bb (.assign (.local_ s.sp) (.local_ (s.sp - 1 - 0)))]) ∧
    (∃ s', exec_op I Bdiscard s = .ok s' ∧ s'.pc = s.pc ∧ s'.sp = s.sp - 1 ∧
      s'.ir = s.ir) ∧
    (∃ c s0 out, prologue ⟨lisp64, [192, 137, 136, 135], 2, 1⟩ (.fixnum 0) = .ok (c, s0) ∧
      translate_depths ⟨lisp64, [192, 137, 136, 135], 2, 1⟩ 4 s0 = [0, 1, 2, 1, 0] ∧
      compile_f lisp64 [192, 137, 136, 135] 2 1 (.fixnum 0) = .ok out ∧
      recorded_leaders [192, 137, 136, 135] = .ok [0] ∧
      out.final.bb_map.map basic_block_t.gcc_bb = [some 1, some 1, some 1, some 1] ∧
      terms_of out.final.ir 1 = [.ret (.local_ 0)]) := by
  refine ⟨?_, ?_, ?_, ⟨_, _, _, rfl, rfl, rfl, rfl, rfl, rfl⟩⟩
  · intro op N pc' hlo hhi hd hN hroom
    unfold Bstack_ref1 at hlo
    unfold Bstack_ref7 at hhi
    unfold decode_operand Bstack_ref at hd
    interval_cases op
    · simp only [Nat.zero_le, Nat.zero_add, Nat.one_le_ofNat, and_self, if_true, Nat.sub_zero,
        Nat.reduceLeDiff, Option.some.injEq, Prod.mk.injEq] at hd
      obtain ⟨rfl, rfl⟩ := hd
      have e : exec_op I 1 s = PUSH_LVAL I (.local_ (s.sp - ((1 : Nat) - Bstack_ref) - 1)) s :=
        rfl
      rw [e, PUSH_LVAL_eq I _ s (by omega) hroom]
      refine ⟨_, rfl, rfl, rfl, ?_⟩
      simp [Bstack_ref]
    · simp only [Nat.zero_le, Nat.zero_add, Nat.one_le_ofNat, and_self, if_true, Nat.sub_zero,
        Nat.reduceLeDiff, Option.some.injEq, Prod.mk.injEq] at hd
      obtain ⟨rfl, rfl⟩ := hd
      have e : exec_op I 2 s = PUSH_LVAL I (.local_ (s.sp - ((2 : Nat) - Bstack_ref) - 1)) s :=
        rfl
      rw [e, PUSH_LVAL_eq I _ s (by omega) hroom]
      refine ⟨_, rfl, rfl, rfl, ?_⟩
      simp [Bstack_ref]
      omega
    · simp only [Nat.zero_le, Nat.zero_add, Nat.one_le_ofNat, and_self, if_true, Nat.sub_zero,
        Nat.reduceLeDiff, Option.some.injEq, Prod.mk.injEq] at hd
      obtain ⟨rfl, rfl⟩ := hd
      have e : exec_op I 3 s = PUSH_LVAL I (.local_ (s.sp - ((3 : Nat) - Bstack_ref) - 1)) s :=
        rfl
      rw [e, PUSH_LVAL_eq I _ s (by omega) hroom]
      refine ⟨_, rfl, rfl, rfl, ?_⟩
      simp [Bstack_ref]
      omega
    · simp only [Nat.zero_le, Nat.zero_add, Nat.one_le_ofNat, and_self, if_true, Nat.sub_zero,
        Nat.reduceLeDiff, Option.some.injEq, Prod.mk.injEq] at hd
      obtain ⟨rfl, rfl⟩ := hd
      have e : exec_op I 4 s = PUSH_LVAL I (.local_ (s.sp - ((4 : Nat) - Bstack_ref) - 1)) s :=
        rfl
      rw [e, PUSH_LVAL_eq I _ s (by omega) hroom]
      refine ⟨_, rfl, rfl, rfl, ?_⟩
      simp [Bstack_ref]
      omega
    · simp only [Nat.zero_le, Nat.zero_add, Nat.one_le_ofNat, and_self, if_true, Nat.sub_zero,
        Nat.reduceLeDiff, Option.some.injEq, Prod.mk.injEq] at hd
      obtain ⟨rfl, rfl⟩ := hd
      have e : exec_op I 5 s = PUSH_LVAL I (.local_ (s.sp - ((5 : Nat) - Bstack_ref) - 1)) s :=
        rfl
      rw [e, PUSH_LVAL_eq I _ s (by omega) hroom]
      refine ⟨_, rfl, rfl, rfl, ?_⟩
      simp [Bstack_ref]
      omega
    · simp only [Nat.zero_le, Nat.zero_add, Nat.reduceLeDiff, and_false, if_false, if_true] at hd
      split at hd <;> simp only [Option.some.injEq, Prod.mk.injEq, reduceCtorEq] at hd
      rename_i v hv
      obtain ⟨rfl, rfl⟩ := hd
      have e : exec_op I 6 s = (CHECK_STACK I s >>= fun _ => fetch I s >>= fun x =>
          PUSH_LVAL I (.local_ (x.2.sp - x.1 - 1)) x.2) := rfl
      have hc : CHECK_STACK I s = .ok () := by simp [CHECK_STACK, hroom]; omega
      rw [e, hc]
      simp only [fetch, hv, bind, Except.bind, pure, Except.pure]
      rw [PUSH_LVAL_eq I _ _ (by simp; omega) (by simpa using hroom)]
      refine ⟨_, rfl, rfl, rfl, ?_⟩
      simp [St.gcc_bb, St.map_gcc_bb]
      omega
    · simp only [Nat.zero_le, Nat.zero_add, Nat.reduceLeDiff, and_false, if_false, if_true,
        Nat.reduceEqDiff] at hd
      split at hd <;> simp only [Option.some.injEq, Prod.mk.injEq, reduceCtorEq] at hd
      rename_i v hv
      obtain ⟨rfl, rfl⟩ := hd
      have e : exec_op I 7 s = (CHECK_STACK I s >>= fun _ => fetch2 I s >>= fun x =>
          PUSH_LVAL I (.local_ (x.2.sp - x.1 - 1)) x.2) := rfl
      have hc : CHECK_STACK I s = .ok () := by simp [CHECK_STACK, hroom]; omega
      rw [e, hc]
      simp only [fetch2, hv, bind, Except.bind, pure, Except.pure]
      rw [PUSH_LVAL_eq I _ _ (by simp; omega) (by simpa using hroom)]
      refine ⟨_, rfl, rfl, rfl, ?_⟩
      simp [St.gcc_bb, St.map_gcc_bb]
      omega
  · intro hroom
    have e : exec_op I Bdup s = PUSH_LVAL I (TOS s) s := rfl
    rw [e, PUSH_LVAL_eq I _ s (by omega) hroom]
    refine ⟨_, rfl, rfl, rfl, ?_⟩
    simp [TOS]
  · have e : exec_op I Bdiscard s = POP1 I s := rfl
    rw [e, POP1_eq I s h0 h1]
    exact ⟨_, rfl, rfl, rfl, rfl⟩

/-- C29, instance: `stack_ref1` after two pushes in the translation of
`192 192 1 135` (`stack_depth = 3`) copies slot 0 into slot 2. -/
theorem C29_stack_ref_dup_discard_witness :
    decode_operand ⟨lisp64, [192, 192, 1, 135], 3, 1⟩ Bstack_ref 1 3 = some (1, 3) ∧
    ∃ s', exec_op ⟨lisp64, [192, 192, 1, 135], 3, 1⟩ 1
        { sample_state 3 [⟨some 1, false⟩, ⟨some 1, false⟩, ⟨some 1, false⟩, ⟨some 1, false⟩]
          with sp := 2, bblock := some 2 } = .ok s' ∧
      s'.pc = 3 ∧ s'.sp = 2 + 1 ∧
      s'.ir = [] ++ [.stmt (some 1) (.assign (.local_ 2) (.local_ (2 - 1 - (1 : Nat))))] :=
  ⟨rfl,
   (C29_stack_ref_dup_discard ⟨lisp64, [192, 192, 1, 135], 3, 1⟩
    { sample_state 3 [⟨some 1, false⟩, ⟨some 1, false⟩, ⟨some 1, false⟩, ⟨some 1, false⟩]
      with sp := 2, bblock := some 2 } (by decide) (by decide)).1
    1 1 3 (by decide) (by decide) rfl (by decide) (by decide)⟩

/-- The value of the tag test `!((u - tag) & ((1 << k) - 1))` on the low 32
bits `u` of the word `w`, for a tag of `k <= 31` bits: it is zero exactly
when the low `k` bits of `w` are the tag. -/
theorem tag_test_iff (k t w : Nat) (hk : k ≤ 31) (ht : t < 2 ^ k) :
    Ty.wrap .unsigned_type
      ((to_word (Ty.wrap .unsigned_type
          (((w % 4294967296 : Nat) : Int) - Ty.wrap .unsigned_type (t : Nat))) &&&
        to_word (Ty.wrap .unsigned_type ((1 <<< k - 1 : Nat) : Int)) : Nat) : Int) = 0 ↔
      w % 2 ^ k = t := by
  have hB : (0 : Int) < 2 ^ k := by positivity
  have hBle : (2 : Nat) ^ k ≤ 2147483648 := by
    calc (2 : Nat) ^ k ≤ 2 ^ 31 := Nat.pow_le_pow_right (by norm_num) hk
      _ = 2147483648 := by norm_num
  have hdvd := pow_bits_dvd k hk
  simp only [Ty.wrap]
  have hmask : to_word (((1 <<< k - 1 : Nat) : Int) % 4294967296) = 2 ^ k - 1 := by
    rw [Nat.one_shiftLeft]
    unfold to_word
    have h1 : (1 : Nat) ≤ 2 ^ k := Nat.one_le_two_pow
    omega
  rw [hmask, Nat.and_pow_two_sub_one_eq_mod]
  set d : Int := (((w % 4294967296 : Nat) : Int) - ((t : Nat) : Int) % 4294967296) %
    4294967296 with hd
  have hd0 : 0 ≤ d := Int.emod_nonneg _ (by norm_num)
  have hd1 : d < 4294967296 := Int.emod_lt_of_pos _ (by norm_num)
  have hdB : d % 2 ^ k = ((w : Int) - (t : Int)) % 2 ^ k := by
    rw [hd, Int.emod_emod_of_dvd _ hdvd]
    push_cast
    rw [Int.sub_emod, Int.emod_emod_of_dvd _ hdvd, Int.emod_emod_of_dvd _ hdvd,
      ← Int.sub_emod]
  have hw : ((to_word d : Nat) : Int) = d := to_word_of_small d hd0 (by omega)
  have hlt : to_word d % 2 ^ k < 2 ^ k := Nat.mod_lt _ (by positivity)
  have hsmall : ((to_word d % 2 ^ k : Nat) : Int) % 4294967296 =
      ((to_word d % 2 ^ k : Nat) : Int) := by
    apply Int.emod_eq_of_lt <;> omega
  rw [hsmall]
  push_cast
  rw [hw, hdB, ← Int.emod_eq_emod_iff_emod_sub_eq_zero]
  have htB : (t : Int) % 2 ^ k = t := Int.emod_eq_of_lt (by omega) (by exact_mod_cast ht)
  rw [htB]
  constructor
  · intro h
    have h2 : ((w % 2 ^ k : Nat) : Int) = (t : Int) := by
      push_cast
      exact h
    exact_mod_cast h2
  · intro h
    have h2 : ((w % 2 ^ k : Nat) : Int) = (t : Int) := by exact_mod_cast h
    push_cast at h2
    exact h2

/-- C27: with the tag in the least significant bits, for every 64-bit word
`w` held by a stack slot, the statement emitted by `comp_FIXNUMP` (the store
of `XLI (obj) >> 0` in the `long long` field of a fresh `cast_union`)
executes, and the test it returns (the `unsigned` field of the union, minus
`Lisp_Int0`, masked with `2^INTTYPEBITS - 1`, logically negated) is true if
and only if `w mod 2^INTTYPEBITS = Lisp_Int0`; the test of `comp_CONSP` is
true if and only if `w mod 2^GCTYPEBITS = Lisp_Cons`.  The tags are taken to
fit their bits, and the bit counts to be at most 31. -/
theorem C27_tag_tests (I : Input) (s : St) (m : Mem) (i : Int)
    (hlsb : I.L.USE_LSB_TAG = true)
    (hk : I.L.INTTYPEBITS ≤ 31) (ht : I.L.Lisp_Int0 < 2 ^ I.L.INTTYPEBITS)
    (hg : I.L.GCTYPEBITS ≤ 31) (hc : I.L.Lisp_Cons < 2 ^ I.L.GCTYPEBITS)
    (hw : m.slot i < 18446744073709551616) :
    (∃ st test s' m', comp_FIXNUMP I (.local_ i) s = .ok (test, s') ∧
      s'.ir = s.ir ++ [.stmt s.gcc_bb st] ∧
      exec_stmts m [st] = some m' ∧
      read_field .cast_union_as_u (m'.tmp s.nlocals) = ((m.slot i % 4294967296 : Nat) : Int) ∧
      eval_rvalue m' test =
        some (if m.slot i % 2 ^ I.L.INTTYPEBITS = I.L.Lisp_Int0 then 1 else 0)) ∧
    (∃ st test s' m', comp_CONSP I (.local_ i) s = .ok (test, s') ∧
      s'.ir = s.ir ++ [.stmt s.gcc_bb st] ∧
      exec_stmts m [st] = some m' ∧
      read_field .cast_union_as_u (m'.tmp s.nlocals) = ((m.slot i % 4294967296 : Nat) : Int) ∧
      eval_rvalue m' test =
        some (if m.slot i % 2 ^ I.L.GCTYPEBITS = I.L.Lisp_Cons then 1 else 0)) := by
  have w0 : Ty.wrap .long_long_type 0 = 0 := wrap_long_long 0 (by norm_num) (by norm_num)
  have hv1 : -9223372036854775808 ≤ as_signed 64 (m.slot i) ∧
      as_signed 64 (m.slot i) < 9223372036854775808 := by
    unfold as_signed
    norm_num
    split <;> omega
  have hs0 : as_signed 64 (m.slot i) >>> (0 : Nat) = as_signed 64 (m.slot i) := by
    simp [Int.shiftRight_eq_div_pow]
  have wv : Ty.wrap .long_long_type (as_signed 64 (m.slot i)) = as_signed 64 (m.slot i) :=
    wrap_long_long _ hv1.1 hv1.2
  have hback : to_word (as_signed 64 (m.slot i)) = m.slot i := by
    unfold as_signed to_word
    norm_num
    split <;> omega
  have hF := tag_test_iff I.L.INTTYPEBITS I.L.Lisp_Int0 (m.slot i) hk ht
  have hC := tag_test_iff I.L.GCTYPEBITS I.L.Lisp_Cons (m.slot i) hg hc
  constructor
  · refine ⟨_, _, _, m.set_tmp s.nlocals (m.slot i), rfl, rfl, ?_, ?_, ?_⟩
    · simp only [exec_stmts, exec_stmt, eval_rvalue, comp_XLI, eval_binary_op, hlsb, if_true,
        read_field, w0, Option.map, Int.toNat_zero, hs0, wv, write_field, le_refl, true_and,
        Nat.ofNat_pos, if_pos, hback]
    · simp [Mem.set_tmp, read_field]
    · simp only [eval_rvalue, eval_binary_op, eval_unary_op, read_field, Mem.set_tmp, if_true,
        hlsb, hF]
  · refine ⟨_, _, _, m.set_tmp s.nlocals (m.slot i), rfl, rfl, ?_, ?_, ?_⟩
    · simp only [exec_stmts, exec_stmt, eval_rvalue, comp_XLI, eval_binary_op, hlsb, if_true,
        read_field, w0, Option.map, Int.toNat_zero, hs0, wv, write_field, le_refl, true_and,
        Nat.ofNat_pos, if_pos, hback]
    · simp [Mem.set_tmp, read_field]
    · simp only [eval_rvalue, eval_binary_op, eval_unary_op, read_field, Mem.set_tmp, if_true,
        hC]

/-- C27, instance: on the 64-bit build the word `4294967298 = 2^32 + 2` is a
fixnum and not a cons (low bits `010`): the bits above the low 32 play no
part. -/
theorem C27_tag_tests_witness :
    (∃ st test s' m', comp_FIXNUMP ⟨lisp64, [192, 135], 1, 1⟩ (.local_ 0)
        const_return_pushed = .ok (test, s') ∧
      s'.ir = const_return_pushed.ir ++ [.stmt const_return_pushed.gcc_bb st] ∧
      exec_stmts (sample_mem 4294967298) [st] = some m' ∧
      read_field .cast_union_as_u (m'.tmp const_return_pushed.nlocals) =
        (((sample_mem 4294967298).slot 0 % 4294967296 : Nat) : Int) ∧
      eval_rvalue m' test = some 1) ∧
    (∃ st test s' m', comp_CONSP ⟨lisp64, [192, 135], 1, 1⟩ (.local_ 0)
        const_return_pushed = .ok (test, s') ∧
      s'.ir = const_return_pushed.ir ++ [.stmt const_return_pushed.gcc_bb st] ∧
      exec_stmts (sample_mem 4294967298) [st] = some m' ∧
      read_field .cast_union_as_u (m'.tmp const_return_pushed.nlocals) =
        (((sample_mem 4294967298).slot 0 % 4294967296 : Nat) : Int) ∧
      eval_rvalue m' test = some 0) :=
  C27_tag_tests ⟨lisp64, [192, 135], 1, 1⟩ const_return_pushed (sample_mem 4294967298) 0
    rfl (by decide) (by decide) (by decide) (by decide) (by decide)

/-- C28: on a runtime with low-bit tags, for every integer `n` in
`[MOST_NEGATIVE_FIXNUM, MOST_POSITIVE_FIXNUM]` that is the value of the
rvalue `obj`: the statement emitted by `comp_make_fixnum` stores the word of
`make_fixnum (n) = (n << INTTYPEBITS) + Lisp_Int0` in the fresh local it
returns; `comp_XFIXNUM` of that local (the arithmetic shift of the 64-bit
signed word by `INTTYPEBITS`) evaluates to `n`; and the test `comp_FIXNUMP`
emits for that local evaluates to true. -/
theorem C28_fixnum_round_trip (I : Input) (hL : I.L.lsb_tagged) (s : St) (block : Option Nat)
    (obj : RVal) (m : Mem) (n : Int)
    (hn1 : I.L.MOST_NEGATIVE_FIXNUM ≤ n) (hn2 : n ≤ I.L.MOST_POSITIVE_FIXNUM)
    (hobj : eval_rvalue m obj = some n) :
    ∃ st0 m1, (comp_make_fixnum I block obj s).2.ir = s.ir ++ [.stmt block st0] ∧
      exec_stmts m [st0] = some m1 ∧
      eval_rvalue m1 (comp_XLI (comp_make_fixnum I block obj s).1) =
        some (make_fixnum I.L n) ∧
      make_fixnum I.L n >>> I.L.INTTYPEBITS = n ∧
      eval_rvalue m1 (comp_XFIXNUM I (comp_make_fixnum I block obj s).1) = some n ∧
      ∃ st test s2 m2,
        comp_FIXNUMP I (comp_make_fixnum I block obj s).1 (comp_make_fixnum I block obj s).2 =
          .ok (test, s2) ∧
        s2.ir = (comp_make_fixnum I block obj s).2.ir ++
          [.stmt (comp_make_fixnum I block obj s).2.gcc_bb st] ∧
        exec_stmts m1 [st] = some m2 ∧ eval_rvalue m2 test = some 1 := by
  have hk := hL.bits_le
  have hlsb := hL.lsb
  obtain ⟨hb1, hb2⟩ := fixnum_bounds I.L hL n hn1 hn2
  have ht : ((I.L.Lisp_Int0 : Nat) : Int) < 2 ^ I.L.INTTYPEBITS := by
    exact_mod_cast hL.int0_lt
  have hB1 : (1 : Int) ≤ 2 ^ I.L.INTTYPEBITS := by
    have : (0 : Int) < 2 ^ I.L.INTTYPEBITS := by positivity
    omega
  have hmf : -9223372036854775808 ≤ make_fixnum I.L n ∧
      make_fixnum I.L n < 9223372036854775808 := by
    unfold make_fixnum
    constructor <;> omega
  have hv : as_signed 64 (to_word (make_fixnum I.L n)) = make_fixnum I.L n :=
    as_signed_to_word _ hmf.1 hmf.2
  have w0 : Ty.wrap .long_long_type 0 = 0 := wrap_long_long 0 (by norm_num) (by norm_num)
  have wk : Ty.wrap .long_long_type (I.L.INTTYPEBITS : Nat) = (I.L.INTTYPEBITS : Nat) :=
    wrap_long_long _ (by omega) (by omega)
  have wt : Ty.wrap .long_long_type (I.L.Lisp_Int0 : Nat) = (I.L.Lisp_Int0 : Nat) := by
    have : (2 : Int) ^ I.L.INTTYPEBITS ≤ 2 ^ 31 := pow_le_pow_right₀ (by norm_num) hk
    exact wrap_long_long _ (by omega) (by norm_num at this; omega)
  have wns : Ty.wrap .long_long_type (n * 2 ^ I.L.INTTYPEBITS) = n * 2 ^ I.L.INTTYPEBITS := by
    apply wrap_long_long <;> omega
  have wnf : Ty.wrap .long_long_type (n * 2 ^ I.L.INTTYPEBITS + (I.L.Lisp_Int0 : Nat)) =
      make_fixnum I.L n := by
    unfold make_fixnum
    apply wrap_long_long <;> omega
  have wv : Ty.wrap .long_long_type (make_fixnum I.L n) = make_fixnum I.L n :=
    wrap_long_long _ hmf.1 hmf.2
  have hN : (0 : Int) < 2 ^ (63 - I.L.INTTYPEBITS) := by positivity
  have hNle : (2 : Int) ^ (63 - I.L.INTTYPEBITS) ≤ 9223372036854775808 := by
    have : (2 : Int) ^ (63 - I.L.INTTYPEBITS) ≤ 2 ^ 63 :=
      pow_le_pow_right₀ (by norm_num) (by omega)
    norm_num at this
    exact this
  have wn : Ty.wrap .long_long_type n = n := by
    rw [hL.most_negative] at hn1
    rw [hL.most_positive] at hn2
    apply wrap_long_long <;> omega
  have hsh := shift_make_fixnum I.L hL n
  have hs0 : make_fixnum I.L n >>> (0 : Nat) = make_fixnum I.L n := by
    simp [Int.shiftRight_eq_div_pow]
  have hkk : (0 : Int) ≤ (I.L.INTTYPEBITS : Nat) ∧ ((I.L.INTTYPEBITS : Nat) : Int) < 64 := by
    omega
  have htag := tag_test_zero I.L hL n
  have hn1' : s.nlocals + 1 ≠ s.nlocals := by omega
  refine ⟨_, m.set_tmp s.nlocals (to_word (make_fixnum I.L n)), rfl, ?_, ?_, hsh, ?_,
    _, _, _, (m.set_tmp s.nlocals (to_word (make_fixnum I.L n))).set_tmp (s.nlocals + 1)
      (to_word (make_fixnum I.L n)), rfl, rfl, ?_, ?_⟩
  · simp only [exec_stmts, exec_stmt, eval_rvalue, hobj, eval_binary_op, wk, hkk, and_self,
      if_true, Int.toNat_ofNat, wns, wt, wnf, Option.map, write_field]
  · simp only [comp_make_fixnum, new_local, comp_XLI, eval_rvalue, Mem.set_tmp, if_true,
      read_field, hv]
  · simp only [comp_make_fixnum, new_local, comp_XFIXNUM, comp_XLI, eval_rvalue, Mem.set_tmp,
      if_true, read_field, hv, eval_binary_op, wk, hkk, and_self, Int.toNat_ofNat, hsh, wn]
  · simp only [comp_make_fixnum, new_local, add_assignment, St.emit, exec_stmts, exec_stmt,
      eval_rvalue, comp_XLI, eval_binary_op, hlsb, if_true, read_field, w0, Option.map,
      Int.toNat_zero, hs0, wv, write_field, le_refl, true_and, Nat.ofNat_pos, if_pos,
      Mem.set_tmp, hv]
  · simp only [eval_rvalue, eval_binary_op, eval_unary_op, read_field, Mem.set_tmp, if_true,
      hlsb, htag, comp_make_fixnum, new_local, add_assignment, St.emit]

/-- C28, instance: `n = 41` on the 64-bit build, read from the numeric field
of a slot holding the word 41. -/
theorem C28_fixnum_round_trip_witness :
    lisp64.MOST_NEGATIVE_FIXNUM ≤ 41 ∧ (41 : Int) ≤ lisp64.MOST_POSITIVE_FIXNUM ∧
    to_word (make_fixnum lisp64 41) = 166 ∧
    ∃ st0 m1,
      (comp_make_fixnum ⟨lisp64, [192, 135], 1, 1⟩ (some 1)
        (.field (.local_ 0) .lisp_obj_as_num) const_return_pushed).2.ir =
        const_return_pushed.ir ++ [.stmt (some 1) st0] ∧
      exec_stmts (sample_mem 41) [st0] = some m1 ∧
      eval_rvalue m1 (comp_XFIXNUM ⟨lisp64, [192, 135], 1, 1⟩
        (comp_make_fixnum ⟨lisp64, [192, 135], 1, 1⟩ (some 1)
          (.field (.local_ 0) .lisp_obj_as_num) const_return_pushed).1) = some 41 :=
  ⟨by decide, by decide, by decide,
   (C28_fixnum_round_trip ⟨lisp64, [192, 135], 1, 1⟩ lisp64_lsb_tagged const_return_pushed
    (some 1) (.field (.local_ 0) .lisp_obj_as_num) (sample_mem 41) 41 (by decide) (by decide)
    rfl).imp fun _ h => h.imp fun _ h => ⟨h.1, h.2.1, h.2.2.2.2.1⟩⟩

/-- Reading the array entry that follows a prefix. -/
theorem getD_append_length (o : List Nat) (a : Nat) (t : List Nat) :
    (o ++ a :: t).getD o.length 0 = a := by
  induction o with
  | nil => rfl
  | cons h tl ih => simpa using ih

/-- Writing the array entry that follows a prefix. -/
theorem set_append_length (o : List Nat) (a b : Nat) (t : List Nat) :
    (o ++ a :: t).set o.length b = o ++ b :: t := by
  induction o with
  | nil => rfl
  | cons h tl ih => simp [ih]

/-- The compaction loop, started with `j` on the entry `last` that ends the
part `o ++ [last]` already kept, `i` on the first entry of `rest`, and the
entries `mid` in between already read: it keeps `compact last rest` after
`last`, and `bb_n` counts the entries kept. -/
theorem dedup_loop_spec : ∀ (rest o : List Nat) (last : Nat) (mid : List Nat),
    ∃ junk, dedup_loop rest.length (o.length + 1 + mid.length) o.length
        (o ++ last :: (mid ++ rest)) =
      (o ++ last :: (compact last rest ++ junk), o.length + 1 + (compact last rest).length) ∧
      (compact last rest).length + junk.length = mid.length + rest.length := by
  intro rest
  induction rest with
  | nil =>
    intro o last mid
    exact ⟨mid, by simp [dedup_loop, compact], by simp [compact]⟩
  | cons x r ih =>
    intro o last mid
    have hA : (o ++ last :: (mid ++ x :: r)).getD (o.length + 1 + mid.length) 0 = x := by
      have e : o ++ last :: (mid ++ x :: r) = (o ++ last :: mid) ++ x :: r := by simp
      have l : o.length + 1 + mid.length = (o ++ last :: mid).length := by simp; omega
      rw [e, l, getD_append_length]
    have hB : (o ++ last :: (mid ++ x :: r)).getD o.length 0 = last :=
      getD_append_length o last _
    simp only [List.length_cons, dedup_loop, hA, hB]
    by_cases hx : x ≠ last
    · simp only [hx, ne_eq, not_false_eq_true, if_true, compact]
      cases mid with
      | nil =>
        have e : (o ++ last :: ([] ++ x :: r)).set (o.length + 1) x =
            (o ++ [last]) ++ x :: ([] ++ r) := by
          have e1 : o ++ last :: ([] ++ x :: r) = (o ++ [last]) ++ x :: r := by simp
          have l1 : o.length + 1 = (o ++ [last]).length := by simp
          rw [e1, l1, set_append_length]
          simp
        obtain ⟨junk, h1, h2⟩ := ih (o ++ [last]) x []
        simp only [List.length_append, List.length_singleton, List.length_nil, Nat.add_zero]
          at h1 h2 ⊢
        rw [e, h1]
        refine ⟨junk, ?_, ?_⟩
        · simp
          omega
        · simp
          omega
      | cons m ms =>
        have e : (o ++ last :: ((m :: ms) ++ x :: r)).set (o.length + 1) x =
            (o ++ [last]) ++ x :: ((ms ++ [x]) ++ r) := by
          have e1 : o ++ last :: ((m :: ms) ++ x :: r) = (o ++ [last]) ++ m :: (ms ++ x :: r) := by
            simp
          have l1 : o.length + 1 = (o ++ [last]).length := by simp
          rw [e1, l1, set_append_length]
          simp
        obtain ⟨junk, h1, h2⟩ := ih (o ++ [last]) x (ms ++ [x])
        simp only [List.length_append, List.length_singleton, List.length_cons, List.length_nil,
          Nat.zero_add] at h1 h2 ⊢
        have l2 : o.length + 1 + (ms.length + 1) + 1 = o.length + 1 + 1 + (ms.length + 1) := by
          omega
        rw [e, l2, h1]
        refine ⟨junk, ?_, ?_⟩
        · simp
          omega
        · omega
    · have hx2 : x = last := not_not.1 hx
      simp only [hx2, ne_eq, not_true_eq_false, if_false, compact]
      obtain ⟨junk, h1, h2⟩ := ih o last (mid ++ [last])
      simp only [List.length_append, List.length_singleton] at h1 h2
      have e : o ++ last :: (mid ++ last :: r) = o ++ last :: ((mid ++ [last]) ++ r) := by simp
      have l2 : o.length + 1 + mid.length + 1 = o.length + 1 + (mid.length + 1) := by omega
      rw [e, l2, h1]
      refine ⟨junk, rfl, ?_⟩
      omega

/-- Distinct `unsigned` entries are distinct when read as `int`. -/
theorem as_int_inj (a b : Nat) (ha : a < U32) (hb : b < U32) (h : as_int a = as_int b) :
    a = b := by
  unfold as_int at h
  unfold U32 at ha hb
  split at h <;> split at h <;> omega

/-- `ucmp` orders the entries by the `int` they are read as. -/
theorem ucmp_le_iff (a b : Nat) : ucmp a b ≤ 0 ↔ as_int a ≤ as_int b := by
  unfold ucmp
  split
  · constructor
    · intro _; omega
    · intro _; decide
  · split
    · constructor
      · intro h; exact absurd h (by decide)
      · intro _; omega
    · constructor
      · intro _; omega
      · intro _; decide

/-- The array after `qsort` is in ascending order of `ucmp`. -/
theorem qsort_ucmp_sorted (l : List Nat) :
    List.Pairwise (fun a b => as_int a ≤ as_int b) (qsort_ucmp l) := by
  haveI : IsTotal Nat (fun a b => ucmp a b ≤ 0) :=
    ⟨fun a b => by simp only [ucmp_le_iff]; omega⟩
  haveI : IsTrans Nat (fun a b => ucmp a b ≤ 0) :=
    ⟨fun a b c => by simp only [ucmp_le_iff]; omega⟩
  have h := List.sorted_insertionSort (fun a b => ucmp a b ≤ 0) l
  exact List.Pairwise.imp (fun {a b} hab => (ucmp_le_iff a b).1 hab) h

/-- What the compaction loop keeps of an array in ascending order: the
entries are strictly ascending as `int`, and they are the values of the
array. -/
theorem compact_sorted : ∀ (rest : List Nat) (last : Nat),
    List.Pairwise (fun a b => as_int a ≤ as_int b) (last :: rest) →
    (∀ y ∈ last :: rest, y < U32) →
    List.Pairwise (fun a b => as_int a < as_int b) (last :: compact last rest) ∧
    ∀ y, y ∈ last :: compact last rest ↔ y ∈ last :: rest := by
  intro rest
  induction rest with
  | nil => intro last _ _; simp [compact]
  | cons x r ih =>
    intro last hs hu
    have hs' := List.pairwise_cons.1 hs
    have hlx : as_int last ≤ as_int x := hs'.1 x (List.mem_cons_self _ _)
    by_cases hx : x ≠ last
    · simp only [compact, hx, ne_eq, not_false_eq_true, if_true]
      have hlt : as_int last < as_int x := by
        rcases lt_or_eq_of_le hlx with h | h
        · exact h
        · exact absurd (as_int_inj last x (hu last (List.mem_cons_self _ _))
            (hu x (List.mem_cons_of_mem _ (List.mem_cons_self _ _))) h).symm hx
      obtain ⟨hp, hm⟩ := ih x hs'.2 (fun y hy => hu y (List.mem_cons_of_mem _ hy))
      constructor
      · refine List.pairwise_cons.2 ⟨?_, hp⟩
        intro y hy
        have hy2 := (hm y).1 hy
        rcases List.mem_cons.1 hy2 with rfl | hy3
        · exact hlt
        · have := (List.pairwise_cons.1 hs'.2).1 y hy3
          omega
      · intro y
        simp only [List.mem_cons] at hm ⊢
        rw [hm y]
    · have hx2 : x = last := not_not.1 hx
      subst hx2
      simp only [compact, ne_eq, not_true_eq_false, if_false]
      have hs2 : List.Pairwise (fun a b => as_int a ≤ as_int b) (x :: r) := hs'.2
      obtain ⟨hp, hm⟩ := ih x hs2 (fun y hy => hu y (List.mem_cons_of_mem _ hy))
      refine ⟨hp, ?_⟩
      intro y
      rw [hm y]
      simp

/-- The compaction loop keeps every entry of a strictly ascending array. -/
theorem compact_fix : ∀ (c : List Nat) (last : Nat),
    List.Pairwise (fun a b => as_int a < as_int b) (last :: c) → compact last c = c := by
  intro c
  induction c with
  | nil => intro _ _; rfl
  | cons x r ih =>
    intro last h
    have h' := List.pairwise_cons.1 h
    have hlt := h'.1 x (List.mem_cons_self _ _)
    have hx : x ≠ last := by
      rintro rfl
      omega
    simp only [compact, hx, ne_eq, not_false_eq_true, if_true, ih x h'.2]

/-- The result of "Sort and remove possible duplicates" on a non-empty array
of `unsigned` entries: the first entry of the sorted array followed by what
the compaction loop keeps, `bb_n` entries in all, strictly ascending as
`int`, with the values of the array. -/
theorem sort_dedup_spec (l : List Nat) (hne : l ≠ []) (hu : ∀ v ∈ l, v < U32) :
    (sort_dedup l).2 = (sorted_leaders l).length ∧
    (sort_dedup l).1.length = l.length ∧
    List.Pairwise (fun a b => as_int a < as_int b) (sorted_leaders l) ∧
    ∀ y, y ∈ sorted_leaders l ↔ y ∈ l := by
  have hperm : (qsort_ucmp l).Perm l := List.perm_insertionSort _ l
  have hlen : (qsort_ucmp l).length = l.length := hperm.length_eq
  have hsorted := qsort_ucmp_sorted l
  cases hq : qsort_ucmp l with
  | nil =>
    rw [hq] at hlen
    exact absurd (List.length_eq_zero.1 hlen.symm) hne
  | cons x0 rest =>
    rw [hq] at hsorted hlen hperm
    have hu2 : ∀ y ∈ x0 :: rest, y < U32 := fun y hy => hu y (hperm.mem_iff.1 hy)
    obtain ⟨hp, hm⟩ := compact_sorted rest x0 hsorted hu2
    obtain ⟨junk, h1, h2⟩ := dedup_loop_spec rest [] x0 []
    simp only [List.length_nil, Nat.zero_add, Nat.add_zero, List.nil_append] at h1 h2
    have hsd : sort_dedup l = (x0 :: (compact x0 rest ++ junk), 1 + (compact x0 rest).length) := by
      unfold sort_dedup
      rw [hq, ← hlen]
      simp only [List.length_cons, dedup_loop, ne_eq, not_true_eq_false, if_false]
      exact h1
    have hsl : sorted_leaders l = x0 :: compact x0 rest := by
      unfold sorted_leaders
      rw [hsd]
      simp only []
      rw [Nat.add_comm 1, List.take_succ_cons, List.take_left']
      rfl
    rw [hsl, hsd]
    refine ⟨by simp only [List.length_cons]; omega, ?_, hp, ?_⟩
    · simp only [List.length_cons, List.length_append]
      rw [← hlen]
      simp only [List.length_cons]
      omega
    · intro y
      rw [hm y]
      exact hperm.mem_iff

/-- C23: the sort-and-deduplicate step of `compute_bblocks` is idempotent.
For every non-empty array of recorded leaders (`unsigned` entries), applied
to the first `bb_n` entries it leaves in `bb_start_pc` it returns the same
sequence and the same `bb_n`. -/
theorem C23_sort_dedup_idempotent (l : List Nat) (hne : l ≠ []) (hu : ∀ v ∈ l, v < U32) :
    sort_dedup (sorted_leaders l) = (sorted_leaders l, (sort_dedup l).2) ∧
    sorted_leaders (sorted_leaders l) = sorted_leaders l := by
  obtain ⟨hn, -, hp, hm⟩ := sort_dedup_spec l hne hu
  have hsorted : List.Sorted (fun a b => ucmp a b ≤ 0) (sorted_leaders l) :=
    List.Pairwise.imp (fun {a b} hab => (ucmp_le_iff a b).2 (le_of_lt hab)) hp
  have hq : qsort_ucmp (sorted_leaders l) = sorted_leaders l :=
    List.Sorted.insertionSort_eq hsorted
  have key : sort_dedup (sorted_leaders l) = (sorted_leaders l, (sort_dedup l).2) := by
    rw [hn]
    unfold sort_dedup
    rw [hq]
    cases hs : sorted_leaders l with
    | nil =>
      obtain ⟨v, hv⟩ := List.exists_mem_of_ne_nil l hne
      have := (hm v).2 hv
      rw [hs] at this
      cases this
    | cons x0 c =>
      rw [hs] at hp
      obtain ⟨junk, h1, h2⟩ := dedup_loop_spec c [] x0 []
      simp only [List.length_nil, Nat.zero_add, Nat.add_zero, List.nil_append] at h1 h2
      rw [compact_fix c x0 hp] at h1 h2
      have hj : junk = [] := List.length_eq_zero.1 (by omega)
      subst hj
      simp only [List.length_cons, dedup_loop, ne_eq, not_true_eq_false, if_false]
      rw [h1]
      simp only [List.append_nil, Prod.mk.injEq, true_and]
      omega
  refine ⟨key, ?_⟩
  have h2 : sorted_leaders (sorted_leaders l) =
      (sort_dedup (sorted_leaders l)).1.take (sort_dedup (sorted_leaders l)).2 := rfl
  rw [h2, key]
  simp only []
  rw [hn]
  exact List.take_length _

/-- C23, instance: the leaders `0, 5, 4, 5, 6` give `0, 4, 5, 6` with
`bb_n = 4`, and so does `0, 4, 5, 6`. -/
theorem C23_sort_dedup_idempotent_witness :
    sorted_leaders [0, 5, 4, 5, 6] = [0, 4, 5, 6] ∧ (sort_dedup [0, 5, 4, 5, 6]).2 = 4 ∧
    sort_dedup (sorted_leaders [0, 5, 4, 5, 6]) =
      (sorted_leaders [0, 5, 4, 5, 6], (sort_dedup [0, 5, 4, 5, 6]).2) :=
  ⟨by decide, by decide,
   (C23_sort_dedup_idempotent [0, 5, 4, 5, 6] (by decide) (by decide)).1⟩

/-- C24: after `qsort` with `ucmp` and the compaction loop, the first `bb_n`
entries of `bb_start_pc` are strictly ascending as unsigned PCs, without
duplicate and with the values of the recorded list.  The code breaks the
order: `ucmp` reads the `unsigned` entries as `int`.  For the leaders
`0, 4294967292` recorded for `constant 0; discard; Rgoto -4` (bytes
`192 136 170 124`) the result is `4294967292, 0`, which is not ascending.
For every non-empty array of `unsigned` entries the result is strictly
ascending as `int`, without duplicate and with the values of the array; it
is ascending as unsigned when every entry is below `2^31`. -/
theorem C24_sorted_as_int_not_unsigned :
    (recorded_leaders [192, 136, 170, 124] = .ok [0, 4294967292] ∧
      sorted_leaders [0, 4294967292] = [4294967292, 0] ∧
      ¬ List.Pairwise (fun a b => a < b) (sorted_leaders [0, 4294967292])) ∧
    ∀ l : List Nat, l ≠ [] → (∀ v ∈ l, v < U32) →
      List.Pairwise (fun a b => as_int a < as_int b) (sorted_leaders l) ∧
      (sorted_leaders l).Nodup ∧
      (∀ y, y ∈ sorted_leaders l ↔ y ∈ l) ∧
      ((∀ v ∈ l, v < 2147483648) → List.Pairwise (fun a b => a < b) (sorted_leaders l)) := by
  refine ⟨⟨rfl, by decide, by decide⟩, ?_⟩
  intro l hne hu
  obtain ⟨-, -, hp, hm⟩ := sort_dedup_spec l hne hu
  refine ⟨hp, ?_, hm, ?_⟩
  · refine List.Pairwise.imp ?_ hp
    intro a b hab h
    rw [h] at hab
    omega
  · intro hs
    refine List.Pairwise.imp_of_mem ?_ hp
    intro a b ha hb hab
    have ha2 := hs a ((hm a).1 ha)
    have hb2 := hs b ((hm b).1 hb)
    unfold as_int at hab
    rw [if_pos ha2, if_pos hb2] at hab
    omega

/-- C31: every `bb_map` lookup of `compile_f` uses an index below the length
of the byte string, or `compile_f` fails before the lookup.  The code breaks
this: no lookup is preceded by a check.  On `constant 0; goto 100` (bytes
`192 130 100 0`) `compile_f` succeeds and the jump target is `bb_map[100]`
of a map of four entries; on `constant 0; gotoifnil 0` (bytes `192 131 0 0`)
the else-edge is `bb_map[4]`; on `constant 0; sub1` (bytes `192 83`) both
blocks of the fast path jump to `bb_map[2]` of a map of two entries.  In
general `goto` with a decodable operand `v` ends the block with a jump to
`bb_map[v]`, whatever `v` is. -/
theorem C31_block_map_lookup_out_of_range :
    (∃ out, compile_f lisp64 [192, 130, 100, 0] 1 1 (.fixnum 0) = .ok out ∧
      decode_target [192, 130, 100, 0] false 2 = some (100, 4) ∧
      out.final.bb_map.length = 4 ∧ out.final.bb_map.get? 100 = none ∧
      terms_of out.final.ir 1 = [.jump (out.final.map_gcc_bb 100)]) ∧
    (∃ out, compile_f lisp64 [192, 131, 0, 0] 1 1 (.fixnum 0) = .ok out ∧
      decode_target [192, 131, 0, 0] false 2 = some (0, 4) ∧
      out.final.bb_map.length = 4 ∧ out.final.bb_map.get? 4 = none ∧
      terms_of out.final.ir 1 = [.conditional
        (.comparison .EQ (.local_ 0) out.final.nil)
        (out.final.map_gcc_bb 0) (out.final.map_gcc_bb 4)]) ∧
    (∃ out, compile_f lisp64 [192, 83] 1 1 (.fixnum 0) = .ok out ∧
      out.final.bb_map.length = 2 ∧ out.final.bb_map.get? 2 = none ∧
      terms_of out.final.ir 2 = [.jump (out.final.map_gcc_bb 2)] ∧
      terms_of out.final.ir 3 = [.jump (out.final.map_gcc_bb 2)]) ∧
    ∀ (I : Input) (s : St) (v : Nat), FETCH2 I.bytestr s.pc = .ok v →
      ∃ s', exec_op I Bgoto s = .ok s' ∧
        s'.ir = s.ir ++ [.term s.gcc_bb (.jump (s.map_gcc_bb v))] := by
  refine ⟨⟨_, rfl, rfl, rfl, rfl, rfl⟩, ⟨_, rfl, rfl, rfl, rfl, rfl⟩,
    ⟨_, rfl, rfl, rfl, rfl, rfl⟩, ?_⟩
  intro I s v hv
  have e : exec_op I Bgoto s =
      (fetch2 I s >>= fun x => pure (end_with_jump (x.2.map_gcc_bb x.1) x.2)) := rfl
  rw [e]
  simp only [fetch2, hv, bind, Except.bind, pure, Except.pure]
  refine ⟨_, rfl, ?_⟩
  simp [end_with_jump, set_terminated_ir, St.emit, St.gcc_bb, St.map_gcc_bb]

/-- C32: an opcode that reads the top of the abstract stack without popping,
or a `stack_ref`, reads a slot within the stack, or `compile_f` aborts.  The
code breaks this: `CHECK_STACK` only tests the stack pointer itself, and
`TOS` and the `stack_ref` operand are read below it.  With an empty stack
`dup; return` (bytes `137 135`, `stack_depth = 1`) compiles and copies
`stack_base[-1]`, `stack_ref1; return` (bytes `1 135`) copies
`stack_base[-2]`, and `consp; constant 0; return` (bytes `58 192 135`)
assigns to `stack_base[-1]`.  In general `dup` on an empty stack with
`stack_depth > 0` succeeds with the assignment `local_0 = local_-1`. -/
theorem C32_read_below_stack_base :
    (∃ out, compile_f lisp64 [137, 135] 1 1 (.fixnum 0) = .ok out ∧
      (stmts_of out.final.ir 1).getLast? = some (.assign (.local_ 0) (.local_ (-1)))) ∧
    (∃ out, compile_f lisp64 [1, 135] 1 1 (.fixnum 0) = .ok out ∧
      (stmts_of out.final.ir 1).getLast? = some (.assign (.local_ 0) (.local_ (-2)))) ∧
    (∃ out c, compile_f lisp64 [58, 192, 135] 1 1 (.fixnum 0) = .ok out ∧
      (stmts_of out.final.ir 1).get? 2 = some (.assign (.local_ (-1)) c)) ∧
    ∀ (I : Input) (s : St), s.sp = 0 → 0 < I.stack_depth →
      ∃ s', exec_op I Bdup s = .ok s' ∧ s'.sp = 1 ∧
        s'.ir = s.ir ++ [.stmt s.gcc_bb (.assign (.local_ 0) (.local_ (-1)))] := by
  refine ⟨⟨_, rfl, rfl⟩, ⟨_, rfl, rfl⟩, ⟨_, _, rfl, rfl⟩, ?_⟩
  intro I s h0 h1
  have e : exec_op I Bdup s = PUSH_LVAL I (TOS s) s := rfl
  rw [e, PUSH_LVAL_eq I _ s (by omega) (by omega)]
  refine ⟨_, rfl, ?_, ?_⟩
  · simp [h0]
  · simp [TOS, h0]

/-- C34: the type of the result local of a call emitted through
`comp_emit_call` is the return type the callee was declared with.  The code
breaks this for every `ret_type` other than `comp.lisp_obj_type`:
`comp_func_declare` does not use its `ret_type` parameter and declares every
function as returning `comp.lisp_obj_type`.  On `constant 0;
save-current-buffer; return` (bytes `192 114 135`) the callee
`record_unwind_current_buffer` is declared with return type `lisp_obj_type`
and the result local of the call has type `void_type`. -/
theorem C34_ret_type_ignored :
    (∃ out, compile_f lisp64 [192, 114, 135] 1 1 (.fixnum 0) = .ok out ∧
      out.final.func_hash = [⟨"record_unwind_current_buffer", .lisp_obj_type, 0, true⟩] ∧
      (stmts_of out.final.ir 1).getLast? =
        some (.call (.fresh 2 .void_type "res") "record_unwind_current_buffer" 0 []) ∧
      RVal.type (.fresh 2 .void_type "res") ≠ .lisp_obj_type) ∧
    ∀ (f_name : String) (ret_type : Ty) (nargs : Nat) (args : Option (List RVal)) (s : St),
      nargs ≤ 4 → s.func_hash.any (fun d => d.name = f_name) = false →
      ∃ res s', comp_emit_call f_name ret_type nargs args s = .ok (res, s') ∧
        res.type = ret_type ∧
        s'.func_hash = s.func_hash ++ [⟨f_name, .lisp_obj_type, nargs, true⟩] := by
  refine ⟨⟨_, rfl, rfl, rfl, by decide⟩, ?_⟩
  intro f_name ret_type nargs args s hn hf
  rw [comp_emit_call_eq f_name ret_type nargs args s hn]
  refine ⟨_, _, rfl, rfl, ?_⟩
  simp [func_hash_after, hf]

/-- C35: for a fixnum arity template with bit 7 clear whose mandatory count
is at most its non-rest count, the decoded pair has `min_args <= max_args`.
The code breaks this when the non-rest count is `SUBR_MAX_ARGS` or more:
`max_args` is then left at its initial 0.  The template `1 | (8 << 8) =
2049` (one mandatory argument, eight in all, `SUBR_MAX_ARGS = 8`) decodes to
`(1, 0)`, and `compile_f` returns that pair.  In general, with a non-rest
count from `SUBR_MAX_ARGS` on the pair is `(at & 127, 0)`, and below
`SUBR_MAX_ARGS` it has `min_args <= max_args`. -/
theorem C35_min_args_above_max_args :
    ((2049 : Int) >>> (7 : Nat)) % 2 = 0 ∧ (2049 : Int) % 128 ≤ 2049 >>> (8 : Nat) ∧
    decode_template lisp64 (.fixnum 2049) = .ok ⟨1, 0⟩ ∧
    (compile_f lisp64 [192, 135] 1 1 (.fixnum 2049)).map Output.res = .ok ⟨1, 0⟩ ∧
    (∀ (L : Lisp) (templ : Int), (templ >>> (7 : Nat)) % 2 = 0 →
      L.SUBR_MAX_ARGS ≤ templ >>> (8 : Nat) →
      decode_template L (.fixnum templ) = .ok ⟨templ % 128, 0⟩) ∧
    ∀ (L : Lisp) (templ : Int), -8388608 ≤ templ → (templ >>> (7 : Nat)) % 2 = 0 →
      templ >>> (8 : Nat) < L.SUBR_MAX_ARGS → L.SUBR_MAX_ARGS ≤ 32768 →
      templ % 128 ≤ templ >>> (8 : Nat) →
      ∃ r, decode_template L (.fixnum templ) = .ok r ∧ r.min_args ≤ r.max_args := by
  refine ⟨by decide, by decide, rfl, rfl, ?_, ?_⟩
  · intro L templ hbit hmax
    unfold decode_template
    simp only [hbit, ne_eq, not_true_eq_false, decide_False, Bool.false_eq_true, if_false,
      not_lt.2 hmax]
    rw [to_short_eq _ (by omega) (by omega)]
  · intro L templ hlo hbit hmax hsub hle
    have h8 : -32768 ≤ templ >>> (8 : Nat) := by
      rw [Int.shiftRight_eq_div_pow]
      norm_num
      omega
    refine ⟨⟨templ % 128, templ >>> (8 : Nat)⟩, ?_, hle⟩
    unfold decode_template
    simp only [hbit, ne_eq, not_true_eq_false, decide_False, Bool.false_eq_true, if_false,
      hmax, if_true]
    rw [to_short_eq _ (by omega) (by omega), to_short_eq _ h8 (by omega)]

/-- Marking the current entry terminated changes `bb_map` at the index of
the current entry only, and there only the flag. -/
theorem set_terminated_bb_map (s : St) (p : Nat) (hb : s.bblock = some p) :
    s.set_terminated.bb_map.get? p =
      (s.bb_map.get? p).map (fun b => { b with terminated := true }) ∧
    ∀ q, q ≠ p → s.set_terminated.bb_map.get? q = s.bb_map.get? q := by
  unfold St.set_terminated
  rw [hb]
  simp only []
  cases he : s.bb_map.get? p with
  | none =>
    have hl : s.bb_map.length ≤ p := List.get?_eq_none.1 he
    simp [hl]
  | some b =>
    have he2 : s.bb_map[p]? = some b := by simpa using he
    have hp : p < s.bb_map.length := by
      rcases List.getElem?_eq_some_iff.1 he2 with ⟨h, _⟩
      exact h
    constructor
    · simp [List.getElem?_set, hp]
    · intro q hq
      simp [List.getElem?_set, Ne.symm hq]

/-- C33, counterexample: after the translation of `constant 0; return`
(bytes `192 135`) both entries of `bb_map` refer to block 1, the entry of
PC 1 is marked terminated and the entry of PC 0 is not. -/
theorem C33_counterexample_flags_disagree :
    ∃ out, compile_f lisp64 [192, 135] 1 1 (.fixnum 0) = .ok out ∧
      out.final.bb_map = [⟨some 1, false⟩, ⟨some 1, true⟩] ∧
      out.final.map_gcc_bb 0 = out.final.map_gcc_bb 1 ∧
      (out.final.bb_map.get? 0).map basic_block_t.terminated ≠
        (out.final.bb_map.get? 1).map basic_block_t.terminated :=
  ⟨_, rfl, rfl, rfl, by decide⟩

/-- C33, amended: the `terminated` flag belongs to the entry of a PC, not to
a backend block.  When the translator, with the entry of PC `p` as current
entry, ends the current block with a jump (`goto`, the fall-through of the
loop head), a conditional (`comp_emit_cond_jump`) or a return, it sets the
flag of `bb_map[p]` and leaves every other entry of `bb_map` as it is,
those of the PCs mapped to the same backend block included. -/
theorem C33_terminated_flag_per_entry (I : Input) (s : St) (p : Nat)
    (hb : s.bblock = some p) (h0 : 0 < s.sp) (h1 : s.sp ≤ I.stack_depth) :
    (∀ target,
      (end_with_jump target s).bb_map.get? p =
        (s.bb_map.get? p).map (fun b => { b with terminated := true }) ∧
      ∀ q, q ≠ p → (end_with_jump target s).bb_map.get? q = s.bb_map.get? q) ∧
    (∀ test t e,
      (comp_emit_cond_jump test t e s).bb_map.get? p =
        (s.bb_map.get? p).map (fun b => { b with terminated := true }) ∧
      ∀ q, q ≠ p → (comp_emit_cond_jump test t e s).bb_map.get? q = s.bb_map.get? q) ∧
    ∃ s', exec_op I Breturn s = .ok s' ∧
      s'.bb_map.get? p = (s.bb_map.get? p).map (fun b => { b with terminated := true }) ∧
      ∀ q, q ≠ p → s'.bb_map.get? q = s.bb_map.get? q := by
  refine ⟨?_, ?_, ?_⟩
  · intro target
    exact set_terminated_bb_map (s.emit _) p hb
  · intro test t e
    exact set_terminated_bb_map (s.emit _) p hb
  · have e : exec_op I Breturn s = (POP1 I s >>= fun s =>
        pure (s.emit (.term s.gcc_bb (.ret (args_get s.args 0)))).set_terminated) := rfl
    rw [e, POP1_eq I s h0 h1]
    exact ⟨_, rfl, set_terminated_bb_map (St.emit _ _) p hb⟩

/-- C33, instance: the `return` at PC 1 of `192 135`. -/
theorem C33_terminated_flag_per_entry_witness :
    ∃ s', exec_op ⟨lisp64, [192, 135], 1, 1⟩ Breturn
        { const_return_pushed with pc := 2, bblock := some 1 } = .ok s' ∧
      s'.bb_map.get? 1 = some ⟨some 1, true⟩ ∧
      ∀ q, q ≠ 1 → s'.bb_map.get? q = const_return_pushed.bb_map.get? q :=
  (C33_terminated_flag_per_entry ⟨lisp64, [192, 135], 1, 1⟩
    { const_return_pushed with pc := 2, bblock := some 1 } 1 rfl (by decide) (by decide)).2.2

/-- The outcome of two pieces run in sequence. -/
theorem outcome_bind {β γ : Type} {P : β → Prop} {Q : γ → Prop} {x : Except Err β}
    {f : β → Except Err γ} (hx : outcome P x) (hf : ∀ b, P b → outcome Q (f b)) :
    outcome Q (x >>= f) := by
  cases x with
  | error e => exact hx
  | ok b => exact hf b hx

theorem set_gcc_bb_pc (s : St) (b : Option Nat) : (s.set_gcc_bb b).pc = s.pc := by
  unfold St.set_gcc_bb
  split <;> (try split) <;> rfl

theorem set_entry_pc (s : St) (b : Option basic_block_t) : (s.set_entry b).pc = s.pc := by
  unfold St.set_entry
  split <;> rfl

theorem pop_pc : ∀ (n off : Nat) (s : St), (pop n off s).pc = s.pc := by
  intro n
  induction n with
  | zero => intro _ _; rfl
  | succ n ih => intro off s; simp only [pop, ih]

theorem store_scratch_pc (p : RVal) : ∀ (k i : Nat) (s : St),
    (store_scratch p k i s).pc = s.pc := by
  intro k
  induction k with
  | zero => intro _ _; rfl
  | succ k ih => intro i s; simp only [store_scratch, ih, add_assignment, St.emit]

theorem CHECK_STACK_outcome (I : Input) (s : St) :
    outcome (fun _ => True) (CHECK_STACK I s) := by
  unfold CHECK_STACK
  split <;> simp [outcome]

theorem PUSH_LVAL_outcome (I : Input) (obj : RVal) (s : St) (p : Nat) (h : p ≤ s.pc) :
    outcome (fun t => p ≤ t.pc) (PUSH_LVAL I obj s) :=
  outcome_bind (CHECK_STACK_outcome I s) (fun _ _ => h)

theorem POP1_outcome (I : Input) (s : St) (p : Nat) (h : p ≤ s.pc) :
    outcome (fun t => p ≤ t.pc) (POP1 I s) :=
  outcome_bind (CHECK_STACK_outcome I _) (fun _ _ => h)

theorem POP2_outcome (I : Input) (s : St) (p : Nat) (h : p ≤ s.pc) :
    outcome (fun t => p ≤ t.pc) (POP2 I s) :=
  outcome_bind (CHECK_STACK_outcome I _) (fun _ _ => h)

theorem POP3_outcome (I : Input) (s : St) (p : Nat) (h : p ≤ s.pc) :
    outcome (fun t => p ≤ t.pc) (POP3 I s) :=
  outcome_bind (CHECK_STACK_outcome I _) (fun _ _ => h)

theorem type_to_cast_field_outcome (ty : Ty) :
    outcome (fun _ => True) (type_to_cast_field ty) := by
  unfold type_to_cast_field
  repeat' split
  all_goals simp [outcome]

theorem comp_cast_outcome (ty : Ty) (obj : RVal) (s : St) (p : Nat) (h : p ≤ s.pc) :
    outcome (fun x => p ≤ x.2.pc) (comp_cast ty obj s) :=
  outcome_bind (type_to_cast_field_outcome _) (fun _ _ =>
    outcome_bind (type_to_cast_field_outcome _) (fun _ _ => h))

theorem comp_TAGGEDP_outcome (I : Input) (obj : RVal) (tag : Nat) (s : St) (p : Nat)
    (h : p ≤ s.pc) : outcome (fun x => p ≤ x.2.pc) (comp_TAGGEDP I obj tag s) :=
  outcome_bind (comp_cast_outcome _ _ s p h) (fun _ hb => hb)

theorem comp_FIXNUMP_outcome (I : Input) (obj : RVal) (s : St) (p : Nat)
    (h : p ≤ s.pc) : outcome (fun x => p ≤ x.2.pc) (comp_FIXNUMP I obj s) :=
  outcome_bind (comp_cast_outcome _ _ s p h) (fun _ hb => hb)

theorem comp_func_declare_outcome (f_name : String) (ty : Ty) (nargs : Nat)
    (imported reusable : Bool) (s : St) (p : Nat) (h : p ≤ s.pc) :
    outcome (fun t => p ≤ t.pc) (comp_func_declare f_name ty nargs imported reusable s) := by
  unfold comp_func_declare
  repeat' split
  all_goals first
    | exact h
    | simp [outcome]

theorem comp_emit_call_outcome (f_name : String) (ty : Ty) (nargs : Nat)
    (args : Option (List RVal)) (s : St) (p : Nat) (h : p ≤ s.pc) :
    outcome (fun x => p ≤ x.2.pc) (comp_emit_call f_name ty nargs args s) := by
  unfold comp_emit_call
  dsimp only
  split
  · refine outcome_bind (show outcome (fun t : St => p ≤ t.pc) (pure s) from h) ?_
    intro t ht
    exact ht
  · refine outcome_bind (comp_func_declare_outcome _ _ _ _ _ s p h) ?_
    intro t ht
    exact ht

theorem comp_emit_callN_outcome (f_name : String) (nargs : Nat) (s : St) (p : Nat)
    (h : p ≤ s.pc) : outcome (fun x => p ≤ x.2.pc) (comp_emit_callN f_name nargs s) := by
  unfold comp_emit_callN
  apply comp_emit_call_outcome
  simp only [new_local, add_assignment, St.emit, store_scratch_pc]
  exact h

theorem FETCH_outcome (bs : Bytes) (pc : Nat) : outcome (fun _ => True) (FETCH bs pc) := by
  unfold FETCH
  split <;> simp [outcome]

theorem FETCH2_outcome (bs : Bytes) (pc : Nat) : outcome (fun _ => True) (FETCH2 bs pc) := by
  unfold FETCH2
  have h1 := FETCH_outcome bs pc
  have h2 := FETCH_outcome bs (pc + 1)
  split
  · trivial
  · cases hx : FETCH bs pc with
    | error e => simp [outcome]
    | ok a => simp [outcome]

theorem fetch_outcome (I : Input) (s : St) (p : Nat) (h : p ≤ s.pc + 1) :
    outcome (fun x => p ≤ x.2.pc) (fetch I s) :=
  outcome_bind (FETCH_outcome _ _) (fun _ _ => h)

theorem fetch2_outcome (I : Input) (s : St) (p : Nat) (h : p ≤ s.pc) :
    outcome (fun x => p ≤ x.2.pc) (fetch2 I s) :=
  outcome_bind (FETCH2_outcome _ _) (fun _ _ => Nat.le_trans h (Nat.le_add_right _ 2))

theorem fetch_rel_outcome (I : Input) (s : St) (p : Nat) (h : p ≤ s.pc) :
    outcome (fun x => p ≤ x.2.pc) (fetch_rel I s) := by
  unfold fetch_rel
  refine outcome_bind (fetch_outcome I s p (Nat.le_succ_of_le h)) ?_
  rintro ⟨b, t⟩ ht
  exact ht

theorem CASE_CALL_NARGS_outcome (I : Input) (f_name : String) (nargs : Nat) (s : St)
    (p : Nat) (h : p ≤ s.pc) : outcome (fun t => p ≤ t.pc) (CASE_CALL_NARGS I f_name nargs s) := by
  unfold CASE_CALL_NARGS
  dsimp only
  have hjp : ∀ t : St, p ≤ t.pc → outcome (fun t => p ≤ t.pc)
      (comp_emit_call f_name .lisp_obj_type nargs (some t.args) t >>= fun x =>
        match x with
        | (res, s) => PUSH_LVAL I res s) := by
    intro t ht
    refine outcome_bind (comp_emit_call_outcome _ _ _ _ t p ht) ?_
    rintro ⟨r, u⟩ hu
    exact PUSH_LVAL_outcome I r u p hu
  split
  · exact outcome_bind (show outcome (fun t : St => p ≤ t.pc) (pure s) from h) hjp
  · exact outcome_bind (POP1_outcome I s p h) hjp
  · exact outcome_bind (POP2_outcome I s p h) hjp
  · exact outcome_bind (POP3_outcome I s p h) hjp

theorem EMIT_SCRATCH_CALL_N_outcome (I : Input) (f_name : String) (nargs : Nat) (s : St)
    (p : Nat) (h : p ≤ s.pc) :
    outcome (fun t => p ≤ t.pc) (EMIT_SCRATCH_CALL_N I f_name nargs s) := by
  unfold EMIT_SCRATCH_CALL_N
  refine outcome_bind (comp_emit_callN_outcome _ _ _ p (by rw [pop_pc]; exact h)) ?_
  rintro ⟨r, u⟩ hu
  exact PUSH_LVAL_outcome I r u p hu

theorem EMIT_ARITHCOMPARE_outcome (I : Input) (c : Int) (s : St)
    (p : Nat) (h : p ≤ s.pc) : outcome (fun t => p ≤ t.pc) (EMIT_ARITHCOMPARE I c s) := by
  unfold EMIT_ARITHCOMPARE
  refine outcome_bind (POP2_outcome I s p h) ?_
  intro t ht
  refine outcome_bind (comp_emit_call_outcome _ _ _ _ _ p ht) ?_
  rintro ⟨r, u⟩ hu
  exact PUSH_LVAL_outcome I r u p hu

theorem do_varref_outcome (I : Input) (op : Nat) (s : St) (p : Nat) (h : p ≤ s.pc) :
    outcome (fun t => p ≤ t.pc) (do_varref I op s) := by
  unfold do_varref
  refine outcome_bind (comp_emit_call_outcome _ _ _ _ _ p h) ?_
  rintro ⟨r, u⟩ hu
  exact PUSH_LVAL_outcome I r u p hu

theorem do_varset_outcome (I : Input) (op : Nat) (s : St) (p : Nat) (h : p ≤ s.pc) :
    outcome (fun t => p ≤ t.pc) (do_varset I op s) := by
  unfold do_varset
  refine outcome_bind (POP1_outcome I s p h) ?_
  intro t ht
  refine outcome_bind (comp_emit_call_outcome _ _ _ _ _ p ht) ?_
  rintro ⟨r, u⟩ hu
  exact PUSH_LVAL_outcome I r u p hu

theorem do_varbind_outcome (I : Input) (op : Nat) (s : St) (p : Nat) (h : p ≤ s.pc) :
    outcome (fun t => p ≤ t.pc) (do_varbind I op s) := by
  unfold do_varbind
  refine outcome_bind (comp_emit_call_outcome _ _ _ _ _ p (by rw [pop_pc]; exact h)) ?_
  rintro ⟨r, u⟩ hu
  exact PUSH_LVAL_outcome I r u p hu

theorem docall_outcome (I : Input) (op : Nat) (s : St) (p : Nat) (h : p ≤ s.pc) :
    outcome (fun t => p ≤ t.pc) (docall I op s) := by
  unfold docall
  refine outcome_bind (comp_emit_callN_outcome _ _ _ p (by rw [pop_pc]; exact h)) ?_
  rintro ⟨r, u⟩ hu
  exact PUSH_LVAL_outcome I r u p hu

theorem dounbind_outcome (op : Nat) (s : St) (p : Nat) (h : p ≤ s.pc) :
    outcome (fun t => p ≤ t.pc) (dounbind op s) := by
  unfold dounbind
  refine outcome_bind (comp_emit_call_outcome _ _ _ _ _ p h) ?_
  rintro ⟨r, u⟩ hu
  exact hu

theorem make_list_loop_outcome (I : Input) (p : Nat) : ∀ (k : Nat) (s : St), p ≤ s.pc →
    outcome (fun t => p ≤ t.pc) (make_list_loop I k s) := by
  intro k
  induction k with
  | zero => intro s h; exact h
  | succ k ih =>
    intro s h
    unfold make_list_loop
    refine outcome_bind (POP2_outcome I s p h) ?_
    intro t ht
    refine outcome_bind (comp_emit_call_outcome _ _ _ _ _ p ht) ?_
    rintro ⟨r, u⟩ hu
    refine outcome_bind (PUSH_LVAL_outcome I r u p hu) ?_
    intro v hv
    exact ih v hv

theorem make_list_outcome (I : Input) (op : Nat) (s : St) (p : Nat) (h : p ≤ s.pc) :
    outcome (fun t => p ≤ t.pc) (make_list I op s) := by
  unfold make_list
  refine outcome_bind (POP1_outcome I s p h) ?_
  intro t ht
  refine outcome_bind (comp_emit_call_outcome _ _ _ _ _ p ht) ?_
  rintro ⟨r, u⟩ hu
  refine outcome_bind (PUSH_LVAL_outcome I r u p hu) ?_
  intro v hv
  exact make_list_loop_outcome I p op v hv

theorem fcall1_outcome (I : Input) (f_name : String) (s : St) (p : Nat) (h : p ≤ s.pc) :
    outcome (fun t => p ≤ t.pc) (fcall1 I f_name s) := by
  unfold fcall1
  refine outcome_bind (POP1_outcome I s p h) ?_
  intro t ht
  refine outcome_bind (comp_emit_call_outcome _ _ _ _ _ p ht) ?_
  rintro ⟨r, u⟩ hu
  exact PUSH_LVAL_outcome I r u p hu

theorem do_point_outcome (I : Input) (v : Int) (s : St) (p : Nat) (h : p ≤ s.pc) :
    outcome (fun t => p ≤ t.pc) (do_point I v s) := by
  unfold do_point
  refine outcome_bind (comp_emit_call_outcome _ _ _ _ _ p h) ?_
  rintro ⟨r, u⟩ hu
  exact PUSH_LVAL_outcome I r u p hu

theorem do_gotoif_outcome (I : Input) (cmp : Comparison) (op : Nat) (s : St) (p : Nat)
    (h : p ≤ s.pc) : outcome (fun t => p ≤ t.pc) (do_gotoif I cmp op s) := by
  unfold do_gotoif
  refine outcome_bind (POP1_outcome I s p h) ?_
  intro t ht
  show p ≤ (comp_emit_comp_jump _ _ _ _ _ t).pc
  simp only [comp_emit_comp_jump, comp_emit_cond_jump, set_terminated_pc, St.emit]
  exact ht

theorem do_gotoif_elsepop_outcome (I : Input) (cmp : Comparison) (op : Nat) (s : St)
    (p : Nat) (h : p ≤ s.pc) : outcome (fun t => p ≤ t.pc) (do_gotoif_elsepop I cmp op s) := by
  unfold do_gotoif_elsepop
  apply POP1_outcome
  simp only [comp_emit_comp_jump, comp_emit_cond_jump, set_terminated_pc, St.emit]
  exact h

theorem do_constant_outcome (I : Input) (op : Nat) (s : St) (p : Nat) (h : p ≤ s.pc) :
    outcome (fun t => p ≤ t.pc) (do_constant I op s) := by
  unfold do_constant
  split
  · exact PUSH_LVAL_outcome I _ _ p h
  · exact Nat.le_succ_of_le h

theorem inline_arith_outcome (I : Input) (limit : Int) (inline_res : RVal → RVal)
    (fcall : St → Except Err St) (s : St) (p : Nat) (h : p ≤ s.pc)
    (hf : ∀ t, p ≤ t.pc → outcome (fun u => p ≤ u.pc) (fcall t)) :
    outcome (fun t => p ≤ t.pc) (inline_arith I limit inline_res fcall s) := by
  unfold inline_arith
  dsimp only [new_block]
  refine outcome_bind (comp_FIXNUMP_outcome I _ _ p h) ?_
  rintro ⟨r, t⟩ ht
  refine outcome_bind (comp_cast_outcome _ _ t p ht) ?_
  rintro ⟨r2, u⟩ hu
  refine outcome_bind (hf _ ?_) ?_
  · simp only [set_gcc_bb_pc, add_assignment, St.emit, comp_make_fixnum, new_local,
      comp_emit_cond_jump, set_terminated_pc]
    exact hu
  · intro v hv
    show p ≤ (St.emit (St.emit (v.set_entry _) _) _).pc
    simp only [St.emit, set_entry_pc]
    exact hv

theorem error_outcome {β : Type} (P : β → Prop) (msg : String) :
    outcome P (.error (.error msg)) := by
  simp [outcome]

theorem outcome_ite {β : Type} {P : β → Prop} {c : Prop} [Decidable c] {a b : Except Err β}
    (ha : c → outcome P a) (hb : ¬ c → outcome P b) : outcome P (if c then a else b) := by
  split
  · exact ha (by assumption)
  · exact hb (by assumption)

/-- An `if` of `exec_misc`: the case at hand or the remaining ones. -/
theorem option_ite_outcome (P : Except Err St → Prop) {c : Prop} [Decidable c]
    {x : Except Err St} {rest : Option (Except Err St)}
    (hx : P x) (hrest : ∀ r, rest = some r → P r) :
    ∀ r, (if c then some x else rest) = some r → P r := by
  intro r hr
  split at hr
  · injection hr with hr
    rw [← hr]
    exact hx
  · exact hrest r hr

/-- The cases of `exec_misc` hand on a state whose `pc` is not below the one
they started with, or stop on an error of their own. -/
theorem exec_misc_outcome (I : Input) (op : Nat) (s : St) (p : Nat) (h : p ≤ s.pc) :
    ∀ r, exec_misc I op s = some r → outcome (fun t => p ≤ t.pc) r := by
  unfold exec_misc
  apply option_ite_outcome (fun r => outcome (fun t => p ≤ t.pc) r)
  · refine outcome_bind (comp_TAGGEDP_outcome I _ _ s p h) ?_
    rintro ⟨c, t⟩ ht
    exact ht
  apply option_ite_outcome (fun r => outcome (fun t => p ≤ t.pc) r)
  · refine outcome_bind (comp_emit_call_outcome _ _ _ _ _ p h) ?_
    rintro ⟨r, u⟩ hu
    exact PUSH_LVAL_outcome I r u p hu
  apply option_ite_outcome (fun r => outcome (fun t => p ≤ t.pc) r)
  · refine outcome_bind (POP1_outcome I s p h) ?_
    intro t ht
    refine outcome_bind (comp_emit_call_outcome _ _ _ _ _ p ht) ?_
    rintro ⟨r, u⟩ hu
    exact PUSH_LVAL_outcome I r u p hu
  apply option_ite_outcome (fun r => outcome (fun t => p ≤ t.pc) r)
  · refine outcome_bind (comp_emit_call_outcome _ _ _ _ _ p h) ?_
    rintro ⟨_, u⟩ hu
    exact hu
  apply option_ite_outcome (fun r => outcome (fun t => p ≤ t.pc) r)
  · refine outcome_bind (CHECK_STACK_outcome I s) ?_
    intro _ _
    refine outcome_bind (PUSH_LVAL_outcome I _ _ p h) ?_
    intro t ht
    refine outcome_bind (comp_emit_call_outcome _ _ _ _ _ p ht) ?_
    rintro ⟨r, u⟩ hu
    exact PUSH_LVAL_outcome I r u p hu
  apply option_ite_outcome (fun r => outcome (fun t => p ≤ t.pc) r)
  · refine outcome_bind (comp_emit_call_outcome _ _ _ _ _ p h) ?_
    rintro ⟨_, u⟩ hu
    exact hu
  apply option_ite_outcome (fun r => outcome (fun t => p ≤ t.pc) r)
  · refine outcome_bind (POP1_outcome I s p h) ?_
    intro t ht
    refine outcome_bind (comp_emit_call_outcome _ _ _ _ _ p ht) ?_
    rintro ⟨r, u⟩ hu
    exact PUSH_LVAL_outcome I r u p hu
  apply option_ite_outcome (fun r => outcome (fun t => p ≤ t.pc) r)
  · refine outcome_bind (comp_emit_call_outcome _ _ _ _ _ p h) ?_
    rintro ⟨r, t⟩ ht
    refine outcome_bind (comp_emit_call_outcome _ _ _ _ _ p ht) ?_
    rintro ⟨_, u⟩ hu
    exact hu
  apply option_ite_outcome (fun r => outcome (fun t => p ≤ t.pc) r)
  · refine outcome_bind (POP2_outcome I s p h) ?_
    intro t ht
    refine outcome_bind (comp_emit_call_outcome _ _ _ _ _ p ht) ?_
    rintro ⟨_, u⟩ hu
    exact hu
  apply option_ite_outcome (fun r => outcome (fun t => p ≤ t.pc) r)
  · refine outcome_bind (POP1_outcome I s p h) ?_
    intro t ht
    refine outcome_bind (comp_emit_call_outcome _ _ _ _ _ p ht) ?_
    rintro ⟨_, u⟩ hu
    exact hu
  apply option_ite_outcome (fun r => outcome (fun t => p ≤ t.pc) r)
  · refine outcome_bind (POP3_outcome I s p h) ?_
    intro t ht
    refine outcome_bind (comp_emit_call_outcome _ _ _ _ _ p ht) ?_
    rintro ⟨_, u⟩ hu
    exact hu
  apply option_ite_outcome (fun r => outcome (fun t => p ≤ t.pc) r)
  · refine outcome_bind (POP1_outcome I s p h) ?_
    intro t ht
    refine outcome_bind (comp_emit_call_outcome _ _ _ _ _ p ht) ?_
    rintro ⟨r, u⟩ hu
    exact PUSH_LVAL_outcome I r u p hu
  apply option_ite_outcome (fun r => outcome (fun t => p ≤ t.pc) r)
  · refine outcome_bind (POP2_outcome I s p h) ?_
    intro t ht
    refine outcome_bind (comp_emit_call_outcome _ _ _ _ _ p ht) ?_
    rintro ⟨_, u⟩ hu
    refine outcome_bind (PUSH_LVAL_outcome I _ u p hu) ?_
    intro v hv
    refine outcome_bind (comp_emit_call_outcome _ _ _ _ _ p hv) ?_
    rintro ⟨_, w⟩ hw
    exact hw
  apply option_ite_outcome (fun r => outcome (fun t => p ≤ t.pc) r)
  · exact CASE_CALL_NARGS_outcome I _ _ s p h
  apply option_ite_outcome (fun r => outcome (fun t => p ≤ t.pc) r)
  · exact CASE_CALL_NARGS_outcome I _ _ s p h
  apply option_ite_outcome (fun r => outcome (fun t => p ≤ t.pc) r)
  · refine outcome_bind (fetch_outcome I s p (Nat.le_succ_of_le h)) ?_
    rintro ⟨o, t⟩ ht
    refine outcome_bind (POP1_outcome I t p ht) ?_
    intro u hu
    split
    · exact hu
    · exact hu
  intro r hr
  cases hr

/-- The `switch` of `compile_f` hands on a state whose `pc` is not below the
one it started with, or stops on an error of its own. -/
theorem exec_op_outcome (I : Input) (op : Nat) (s : St) (p : Nat) (h : p ≤ s.pc) :
    outcome (fun t => p ≤ t.pc) (exec_op I op s) := by
  unfold exec_op
  apply outcome_ite
  · intro _
    exact PUSH_LVAL_outcome I _ s p h
  intro _
  apply outcome_ite
  · intro _
    refine outcome_bind (CHECK_STACK_outcome I s) ?_
    intro _ _
    refine outcome_bind (fetch_outcome I s p (Nat.le_succ_of_le h)) ?_
    rintro ⟨o, t⟩ ht
    exact PUSH_LVAL_outcome I _ t p ht
  intro _
  apply outcome_ite
  · intro _
    refine outcome_bind (CHECK_STACK_outcome I s) ?_
    intro _ _
    refine outcome_bind (fetch2_outcome I s p h) ?_
    rintro ⟨o, t⟩ ht
    exact PUSH_LVAL_outcome I _ t p ht
  intro _
  apply outcome_ite
  · intro _
    refine outcome_bind (fetch2_outcome I s p h) ?_
    rintro ⟨o, t⟩ ht
    exact do_varref_outcome I o t p ht
  intro _
  apply outcome_ite
  · intro _
    exact do_varref_outcome I _ s p h
  intro _
  apply outcome_ite
  · intro _
    refine outcome_bind (fetch_outcome I s p (Nat.le_succ_of_le h)) ?_
    rintro ⟨o, t⟩ ht
    exact do_varref_outcome I o t p ht
  intro _
  apply outcome_ite
  · intro _
    exact do_varset_outcome I _ s p h
  intro _
  apply outcome_ite
  · intro _
    refine outcome_bind (fetch2_outcome I s p h) ?_
    rintro ⟨o, t⟩ ht
    exact do_varset_outcome I o t p ht
  intro _
  apply outcome_ite
  · intro _
    refine outcome_bind (fetch_outcome I s p (Nat.le_succ_of_le h)) ?_
    rintro ⟨o, t⟩ ht
    exact do_varset_outcome I o t p ht
  intro _
  apply outcome_ite
  · intro _
    refine outcome_bind (fetch_outcome I s p (Nat.le_succ_of_le h)) ?_
    rintro ⟨o, t⟩ ht
    exact do_varbind_outcome I o t p ht
  intro _
  apply outcome_ite
  · intro _
    refine outcome_bind (fetch2_outcome I s p h) ?_
    rintro ⟨o, t⟩ ht
    exact do_varbind_outcome I o t p ht
  intro _
  apply outcome_ite
  · intro _
    exact do_varbind_outcome I _ s p h
  intro _
  apply outcome_ite
  · intro _
    refine outcome_bind (fetch_outcome I s p (Nat.le_succ_of_le h)) ?_
    rintro ⟨o, t⟩ ht
    exact docall_outcome I o t p ht
  intro _
  apply outcome_ite
  · intro _
    refine outcome_bind (fetch2_outcome I s p h) ?_
    rintro ⟨o, t⟩ ht
    exact docall_outcome I o t p ht
  intro _
  apply outcome_ite
  · intro _
    exact docall_outcome I _ s p h
  intro _
  apply outcome_ite
  · intro _
    refine outcome_bind (fetch_outcome I s p (Nat.le_succ_of_le h)) ?_
    rintro ⟨o, t⟩ ht
    exact dounbind_outcome o t p ht
  intro _
  apply outcome_ite
  · intro _
    refine outcome_bind (fetch2_outcome I s p h) ?_
    rintro ⟨o, t⟩ ht
    exact dounbind_outcome o t p ht
  intro _
  apply outcome_ite
  · intro _
    exact dounbind_outcome _ s p h
  intro _
  cases hm : unsupported_ops.lookup op with
  | some msg =>
    dsimp only
    exact error_outcome _ _
  | none => ?_
  dsimp only
  cases hm : case_call_nargs.lookup op with
  | some x =>
    dsimp only
    exact CASE_CALL_NARGS_outcome I _ _ s p h
  | none => ?_
  dsimp only
  apply outcome_ite
  · intro _
    refine outcome_bind (fetch_outcome I s p (Nat.le_succ_of_le h)) ?_
    rintro ⟨o, t⟩ ht
    exact make_list_outcome I o t p ht
  intro _
  apply outcome_ite
  · intro _
    exact make_list_outcome I _ s p h
  intro _
  cases hm : scratch_call_n.lookup op with
  | some x =>
    dsimp only
    exact EMIT_SCRATCH_CALL_N_outcome I _ _ s p h
  | none => ?_
  dsimp only
  apply outcome_ite
  · intro _
    refine outcome_bind (fetch_outcome I s p (Nat.le_succ_of_le h)) ?_
    rintro ⟨o, t⟩ ht
    exact EMIT_SCRATCH_CALL_N_outcome I _ o t p ht
  intro _
  apply outcome_ite
  · intro _
    exact inline_arith_outcome I _ _ _ s p h (fun t ht => fcall1_outcome I _ t p ht)
  intro _
  apply outcome_ite
  · intro _
    exact inline_arith_outcome I _ _ _ s p h (fun t ht => fcall1_outcome I _ t p ht)
  intro _
  apply outcome_ite
  · intro _
    exact inline_arith_outcome I _ _ _ s p h
      (fun t ht => EMIT_SCRATCH_CALL_N_outcome I _ _ t p ht)
  intro _
  cases hm : (arithcompare_ops I.L).lookup op with
  | some x =>
    dsimp only
    exact EMIT_ARITHCOMPARE_outcome I _ s p h
  | none => ?_
  dsimp only
  apply outcome_ite
  · intro _
    exact do_point_outcome I _ s p h
  intro _
  apply outcome_ite
  · intro _
    exact do_point_outcome I _ s p h
  intro _
  apply outcome_ite
  · intro _
    exact do_point_outcome I _ s p h
  intro _
  apply outcome_ite
  · intro _
    exact do_constant_outcome I _ s p h
  intro _
  apply outcome_ite
  · intro _
    refine outcome_bind (fetch2_outcome I s p h) ?_
    rintro ⟨o, t⟩ ht
    show p ≤ (end_with_jump _ t).pc
    simp only [end_with_jump, set_terminated_pc, St.emit]
    exact ht
  intro _
  apply outcome_ite
  · intro _
    refine outcome_bind (fetch2_outcome I s p h) ?_
    rintro ⟨o, t⟩ ht
    exact do_gotoif_outcome I _ o t p ht
  intro _
  apply outcome_ite
  · intro _
    refine outcome_bind (fetch2_outcome I s p h) ?_
    rintro ⟨o, t⟩ ht
    exact do_gotoif_outcome I _ o t p ht
  intro _
  apply outcome_ite
  · intro _
    refine outcome_bind (fetch2_outcome I s p h) ?_
    rintro ⟨o, t⟩ ht
    exact do_gotoif_elsepop_outcome I _ o t p ht
  intro _
  apply outcome_ite
  · intro _
    refine outcome_bind (fetch2_outcome I s p h) ?_
    rintro ⟨o, t⟩ ht
    exact do_gotoif_elsepop_outcome I _ o t p ht
  intro _
  apply outcome_ite
  · intro _
    refine outcome_bind (POP1_outcome I s p h) ?_
    intro t ht
    show p ≤ (St.set_terminated _).pc
    simp only [set_terminated_pc, St.emit]
    exact ht
  intro _
  apply outcome_ite
  · intro _
    exact POP1_outcome I s p h
  intro _
  apply outcome_ite
  · intro _
    exact PUSH_LVAL_outcome I _ s p h
  intro _
  apply outcome_ite
  · intro _
    refine outcome_bind (fetch_rel_outcome I s p h) ?_
    rintro ⟨o, t⟩ ht
    show p ≤ (end_with_jump _ t).pc
    simp only [end_with_jump, set_terminated_pc, St.emit]
    exact ht
  intro _
  apply outcome_ite
  · intro _
    refine outcome_bind (fetch_rel_outcome I s p h) ?_
    rintro ⟨o, t⟩ ht
    exact do_gotoif_outcome I _ o t p ht
  intro _
  apply outcome_ite
  · intro _
    refine outcome_bind (fetch_rel_outcome I s p h) ?_
    rintro ⟨o, t⟩ ht
    exact do_gotoif_outcome I _ o t p ht
  intro _
  apply outcome_ite
  · intro _
    refine outcome_bind (fetch_rel_outcome I s p h) ?_
    rintro ⟨o, t⟩ ht
    exact do_gotoif_elsepop_outcome I _ o t p ht
  intro _
  apply outcome_ite
  · intro _
    refine outcome_bind (fetch_rel_outcome I s p h) ?_
    rintro ⟨o, t⟩ ht
    exact do_gotoif_elsepop_outcome I _ o t p ht
  intro _
  cases hm : exec_misc I op s with
  | some r =>
    dsimp only
    exact exec_misc_outcome I op s p h r hm
  | none => ?_
  dsimp only
  apply outcome_ite
  · intro _
    exact error_outcome _ _
  intro _
  exact do_constant_outcome I _ s p h

/-- The `switch` of the scan of `compute_bblocks` leaves `pc` after the
opcode byte, or stops on a read past the end of the byte string. -/
theorem scan_op_outcome (bs : Bytes) (pc : Nat) :
    outcome (fun r => pc + 1 ≤ r.1) (scan_op bs pc) := by
  unfold scan_op
  have h1 := FETCH_outcome bs pc
  cases hf : FETCH bs pc with
  | error e =>
    rw [hf] at h1
    exact h1
  | ok op =>
    dsimp only
    apply outcome_ite
    · intro _
      exact Nat.le_add_right _ 2
    intro _
    apply outcome_ite
    · intro _
      exact Nat.le_add_right _ 1
    intro _
    apply outcome_ite
    · intro _
      have h2 := FETCH2_outcome bs (pc + 1)
      cases hf2 : FETCH2 bs (pc + 1) with
      | error e =>
        rw [hf2] at h2
        exact h2
      | ok t => exact Nat.le_add_right _ 2
    intro _
    apply outcome_ite
    · intro _
      have h2 := FETCH_outcome bs (pc + 1)
      cases hf2 : FETCH bs (pc + 1) with
      | error e =>
        rw [hf2] at h2
        exact h2
      | ok t => exact Nat.le_add_right _ 1
    intro _
    apply outcome_ite
    · intro _
      exact Nat.le_refl _
    intro _
    exact Nat.le_refl _

/-- With as many iterations allowed as bytes are left, the scan of
`compute_bblocks` does not stop on the iteration bound. -/
theorem scan_leaders_outcome (bs : Bytes) : ∀ (n pc : Nat) (nb : Bool) (acc : List Nat),
    bs.length ≤ pc + n → outcome (fun _ => True) (scan_leaders bs n pc nb acc) := by
  intro n
  induction n with
  | zero =>
    intro pc nb acc h
    unfold scan_leaders
    rw [if_neg (by omega)]
    trivial
  | succ n ih =>
    intro pc nb acc h
    unfold scan_leaders
    split
    · dsimp only
      have h1 := scan_op_outcome bs pc
      cases hs : scan_op bs pc with
      | error e =>
        rw [hs] at h1
        exact h1
      | ok r =>
        rw [hs] at h1
        obtain ⟨pc', nb', ts⟩ := r
        exact ih pc' nb' _ (by have : pc + 1 ≤ pc' := h1; omega)
    · trivial

/-- The scan of `compute_bblocks` runs at most one iteration per byte left. -/
theorem scan_pcs_length (bs : Bytes) : ∀ (n pc : Nat),
    (scan_pcs bs n pc).length ≤ bs.length - pc := by
  intro n
  induction n with
  | zero => intro pc; simp [scan_pcs]
  | succ n ih =>
    intro pc
    unfold scan_pcs
    split
    · have h1 := scan_op_outcome bs pc
      cases hs : scan_op bs pc with
      | error e =>
        simp only [List.length_singleton]
        omega
      | ok r =>
        rw [hs] at h1
        obtain ⟨pc', nb', ts⟩ := r
        have h2 : pc + 1 ≤ pc' := h1
        have h3 := ih pc'
        simp only [List.length_cons]
        omega
    · simp

/-- An iteration of the translation loop leaves `pc` after the opcode byte,
or stops on an error of its own. -/
theorem step_outcome (I : Input) (s : St) : outcome (fun t => s.pc + 1 ≤ t.pc) (step I s) := by
  unfold step
  refine outcome_bind (fetch_outcome I (loop_head s) (s.pc + 1) (by rw [loop_head_pc])) ?_
  rintro ⟨o, t⟩ ht
  exact exec_op_outcome I o t _ ht

/-- With as many iterations allowed as bytes are left, the translation loop
does not stop on the iteration bound. -/
theorem translate_outcome (I : Input) : ∀ (n : Nat) (s : St),
    I.bytestr.length ≤ s.pc + n → outcome (fun _ => True) (translate I n s) := by
  intro n
  induction n with
  | zero =>
    intro s h
    unfold translate
    rw [if_neg (by omega)]
    trivial
  | succ n ih =>
    intro s h
    unfold translate
    split
    · have h1 := step_outcome I s
      cases hs : step I s with
      | error e =>
        rw [hs] at h1
        exact h1
      | ok t =>
        rw [hs] at h1
        exact ih t (by have : s.pc + 1 ≤ t.pc := h1; omega)
    · trivial

/-- The translation loop runs at most one iteration per byte left. -/
theorem translate_pcs_length (I : Input) : ∀ (n : Nat) (s : St),
    (translate_pcs I n s).length ≤ I.bytestr.length - s.pc := by
  intro n
  induction n with
  | zero => intro s; simp [translate_pcs]
  | succ n ih =>
    intro s
    unfold translate_pcs
    split
    · have h1 := step_outcome I s
      cases hs : step I s with
      | error e =>
        simp only [List.length_singleton]
        omega
      | ok t =>
        rw [hs] at h1
        have h2 : s.pc + 1 ≤ t.pc := h1
        have h3 := ih t
        simp only [List.length_cons]
        omega
    · simp

/-- `PUSH_PARAM` leaves `pc` alone. -/
theorem PUSH_PARAM_outcome (I : Input) (bb : Nat) (obj : RVal) (s : St) (h : s.pc = 0) :
    outcome (fun t => t.pc = 0) (PUSH_PARAM I bb obj s) :=
  outcome_bind (CHECK_STACK_outcome I s) (fun _ _ => h)

/-- The loop pushing the parameters leaves `pc` alone. -/
theorem push_params_outcome (I : Input) (bb : Nat) : ∀ (k i : Nat) (s : St), s.pc = 0 →
    outcome (fun t => t.pc = 0) (push_params I bb k i s) := by
  intro k
  induction k with
  | zero => intro i s h; exact h
  | succ k ih =>
    intro i s h
    unfold push_params
    exact outcome_bind (PUSH_PARAM_outcome I bb _ s h) (fun t ht => ih (i + 1) t ht)

/-- The arity decoding of `compile_f` stops on assertions only. -/
theorem decode_template_outcome (L : Lisp) (t : Template) :
    outcome (fun _ => True) (decode_template L t) := by
  cases t with
  | fixnum n =>
    unfold decode_template
    dsimp only
    apply outcome_ite
    · intro _
      exact Err.noConfusion
    intro _
    apply outcome_ite
    · intro _
      trivial
    intro _
    trivial
  | cons len => trivial
  | nil => trivial
  | other => exact Err.noConfusion

/-- The scan of `compute_bblocks` from `pc = 0` with `bytestr_length`
iterations allowed comes to its end. -/
theorem compute_bblocks_outcome (bs : Bytes) (nb : Nat) :
    outcome (fun _ => True) (compute_bblocks bs nb) := by
  unfold compute_bblocks
  have h1 : outcome (fun _ => True) (recorded_leaders bs) :=
    scan_leaders_outcome bs bs.length 0 true [] (by omega)
  cases hr : recorded_leaders bs with
  | error e =>
    rw [hr] at h1
    exact h1
  | ok l => trivial

/-- The translation loop is entered with `pc = 0`. -/
theorem prologue_outcome (I : Input) (t : Template) :
    outcome (fun x => x.2.pc = 0) (prologue I t) := by
  unfold prologue
  refine outcome_bind (decode_template_outcome I.L t) ?_
  intro comp_res _
  dsimp only
  apply outcome_ite
  · intro _
    exact Err.noConfusion
  intro _
  refine outcome_bind (show outcome (fun _ : PUnit => True) (pure PUnit.unit) from trivial) ?_
  intro _ _
  refine outcome_bind (compute_bblocks_outcome I.bytestr 1) ?_
  rintro ⟨bb_map, nblocks⟩ _
  refine outcome_bind (push_params_outcome I 0 _ 0 _ rfl) ?_
  intro s hs
  exact hs

/-- `compile_f` with `bytestr_length` iterations allowed to its main loop
never stops on the iteration bound. -/
theorem compile_f_outcome (L : Lisp) (bs : Bytes) (d : Int) (vs : Nat) (t : Template) :
    outcome (fun _ => True) (compile_f L bs d vs t) := by
  unfold compile_f
  refine outcome_bind (prologue_outcome ⟨L, bs, d, vs⟩ t) ?_
  rintro ⟨comp_res, s⟩ hs
  have hs0 : s.pc = 0 := hs
  refine outcome_bind (translate_outcome ⟨L, bs, d, vs⟩ bs.length s (by simp [hs0])) ?_
  intro u _
  trivial

/-- An outcome that is shown not to be the exhaustion of the iteration bound. -/
theorem outcome_ne_fuel {β : Type} {P : β → Prop} {x : Except Err β} (h : outcome P x) :
    x ≠ .error .fuel := by
  intro hx
  rw [hx] at h
  exact h rfl

/-- An outcome read at a result. -/
theorem outcome_ok {β : Type} {P : β → Prop} {x : Except Err β} (h : outcome P x) :
    ∀ b, x = .ok b → P b := by
  intro b hx
  rw [hx] at h
  exact h

/-- C36: for every byte string the scan of `compute_bblocks` and the main
loop of `compile_f` terminate. An iteration of the scan that comes to its end
leaves `pc` at least one higher, the scan runs at most `length - pc`
iterations from `pc` whatever bound is given, and with `length - pc`
iterations allowed it never stops on the bound (in particular
`compute_bblocks` itself, which starts at `pc = 0`); the same three facts
hold of the main loop of `compile_f`, and `compile_f`, whose loop starts at
`pc = 0` with `bytestr_length` iterations allowed, never stops on the
bound. -/
theorem C36_loops_terminate (I : Input) (s : St) (bs : Bytes) (n pc : Nat) :
    (∀ r, scan_op bs pc = .ok r → pc + 1 ≤ r.1) ∧
    (scan_pcs bs n pc).length ≤ bs.length - pc ∧
    (bs.length ≤ pc + n → ∀ nb acc, scan_leaders bs n pc nb acc ≠ .error .fuel) ∧
    recorded_leaders bs ≠ .error .fuel ∧
    (∀ nb, compute_bblocks bs nb ≠ .error .fuel) ∧
    (∀ s', step I s = .ok s' → s.pc + 1 ≤ s'.pc) ∧
    (translate_pcs I n s).length ≤ I.bytestr.length - s.pc ∧
    (I.bytestr.length ≤ s.pc + n → translate I n s ≠ .error .fuel) ∧
    ∀ L d vs t, compile_f L bs d vs t ≠ .error .fuel :=
  ⟨outcome_ok (scan_op_outcome bs pc),
   scan_pcs_length bs n pc,
   fun h nb acc => outcome_ne_fuel (scan_leaders_outcome bs n pc nb acc h),
   outcome_ne_fuel (scan_leaders_outcome bs bs.length 0 true [] (by omega)),
   fun nb => outcome_ne_fuel (compute_bblocks_outcome bs nb),
   outcome_ok (step_outcome I s),
   translate_pcs_length I n s,
   fun h => outcome_ne_fuel (translate_outcome I n s h),
   fun L d vs t => outcome_ne_fuel (compile_f_outcome L bs d vs t)⟩

/-- C36 at the byte string `constant 0; return`: both loops run two
iterations, at `pc = 0` and `pc = 1`, and come to their end within two
iterations. -/
theorem C36_loops_terminate_witness :
    scan_pcs [192, 135] 2 0 = [0, 1] ∧
    translate_pcs ⟨lisp64, [192, 135], 1, 1⟩ 2 const_return_entry = [0, 1] ∧
    (∃ l, recorded_leaders [192, 135] = .ok l) ∧
    (∃ o, compile_f lisp64 [192, 135] 1 1 .nil = .ok o) ∧
    [192, 135].length ≤ 0 + 2 ∧
    scan_leaders [192, 135] 2 0 true [] ≠ .error .fuel ∧
    (⟨lisp64, [192, 135], 1, 1⟩ : Input).bytestr.length ≤ const_return_entry.pc + 2 ∧
    translate ⟨lisp64, [192, 135], 1, 1⟩ 2 const_return_entry ≠ .error .fuel :=
  ⟨rfl, rfl, ⟨_, rfl⟩, ⟨_, rfl⟩, by decide,
   (C36_loops_terminate ⟨lisp64, [192, 135], 1, 1⟩ const_return_entry [192, 135] 2 0).2.2.1
     (by decide) true [],
   by decide,
   (C36_loops_terminate ⟨lisp64, [192, 135], 1, 1⟩ const_return_entry
     [192, 135] 2 0).2.2.2.2.2.2.2.1 (by decide)⟩

end Comp
